import Mathlib

/-!
# formatstring: the value rendering engine

A shallow embedding of `src/src/formatvalue.cpp` (the functions `fill`,
`format_integer`, `format_float`, `format_string`) together with the
properties of the rendering that the specification states.

Conventions of the embedding.

* A `char` is a Lean `Char`; the output stream is the list of characters
  written to it so far (`Sink`), passed in and returned explicitly.
* A C string argument (`const Char value[]`) is the list of characters stored
  in the array; the terminating NUL is implicit after the list, and `strlen`
  stops at the first NUL that the list holds, if any.
* A call either returns, throws `std::invalid_argument`, or never returns
  (`Outcome`). A thrown outcome records the sink as it was when the exception
  left the function.
* Machine integers are mathematical integers reduced modulo `2 ^ bits` where
  the C++ conversion does so.
-/

namespace formatstring

/-! ## Data model -/

/-- The characters written to an output stream so far. -/
abbrev Sink := List Char

/-- Modelled from the spec: the alignment field of `BasicFormatSpec`
(`formatspec.h` is not part of the sources); the five values are the ones the
`switch` statements of `formatvalue.cpp` name. -/
inductive Alignment where
  | DefaultAlignment
  | Left
  | Right
  | Center
  | AfterSign
  deriving DecidableEq, Repr

/-- Modelled from the spec: the sign policy of `BasicFormatSpec`; `DefaultSign`
is the policy of a specification without a sign character, `NegativeOnly` the
one of an explicit `-`. -/
inductive Sign where
  | DefaultSign
  | NegativeOnly
  | Always
  | SpaceForPositive
  deriving DecidableEq, Repr

/-- Modelled from the spec: the presentation type of `BasicFormatSpec`. -/
inductive SpecType where
  | Generic
  | Dec
  | Bin
  | Oct
  | Hex
  | Character
  | String
  | Fixed
  | Exp
  | General
  | Percentage
  deriving DecidableEq, Repr

/-- Modelled from the spec: the record `BasicFormatSpec<char>` declared in
`formatspec.h`, with the field names `formatvalue.cpp` uses. The width is a
non-negative integer, 0 meaning unconstrained. -/
structure FormatSpec where
  fill : Char := ' '
  alignment : Alignment := Alignment.DefaultAlignment
  sign : Sign := Sign.DefaultSign
  alternate : Bool := false
  thoudsandsSeperator : Bool := false
  width : Nat := 0
  precision : Int
  type : SpecType := SpecType.Generic
  upperCase : Bool := false
  deriving DecidableEq, Repr

/-- Modelled from the spec: `BasicFormatSpec::isDecimalType`, true for the
floating-point-only presentation types Fixed, Exp, General and Percentage. -/
def FormatSpec.isDecimalType (spec : FormatSpec) : Bool :=
  match spec.type with
  | SpecType.Fixed | SpecType.Exp | SpecType.General | SpecType.Percentage => true
  | _ => false

/-- The `std::invalid_argument` exceptions of `formatvalue.cpp`, one value per
`throw` statement. -/
inductive Error where
  /-- Sign not allowed with string or character (line 317). -/
  | sign_not_allowed
  /-- Cannot specify a thousands separator for string (line 321). -/
  | thousands_not_allowed
  /-- Alternate form not allowed in string format specifier (line 325). -/
  | alternate_not_allowed
  /-- Invalid format specifier for string or character (line 334). -/
  | invalid_string_type
  /-- The alignment after the sign is not allowed in string or character
  format specifier (line 342). -/
  | after_sign_not_allowed
  /-- Cannot use floating point numbers with non-decimal format specifier
  (line 197). -/
  | float_non_decimal
  deriving DecidableEq, Repr

/-- The result of one call on an output stream. -/
inductive Outcome where
  /-- The call returned; `out` is the sink afterwards. -/
  | ok (out : Sink)
  /-- The call threw; `out` is the sink when the exception left the call. -/
  | thrown (e : Error) (out : Sink)
  /-- The call never returns. -/
  | diverges
  deriving DecidableEq, Repr

/-- The call threw an exception. -/
def Outcome.fails : Outcome → Bool
  | Outcome.thrown _ _ => true
  | _ => false

/-! ## `fill` and `format_string` -/

/-- The function `fill` (lines 42-44): write `width` copies of `c`. -/
def fill (out : Sink) (c : Char) (width : Nat) : Sink :=
  out ++ List.replicate width c

/-- The function `std::strlen`: the number of characters before the first NUL. -/
def strlen (value : List Char) : Nat :=
  (value.takeWhile (fun c => c != Char.ofNat 0)).length

/-- The call `out.write(value, length)`. -/
def write (out : Sink) (value : List Char) (length : Nat) : Sink :=
  out ++ value.take length

/-- The function `format_string` (lines 312-366). -/
def format_string (out : Sink) (value : List Char) (spec : FormatSpec) : Outcome :=
  if spec.sign ≠ Sign.DefaultSign then
    Outcome.thrown Error.sign_not_allowed out
  else if spec.thoudsandsSeperator then
    Outcome.thrown Error.thousands_not_allowed out
  else if spec.alternate && spec.type != SpecType.Character then
    Outcome.thrown Error.alternate_not_allowed out
  else
    match spec.type with
    | SpecType.Generic | SpecType.String =>
      let length := strlen value
      if 0 < spec.width ∧ length < spec.width then
        let padding := spec.width - length
        match spec.alignment with
        | Alignment.AfterSign => Outcome.thrown Error.after_sign_not_allowed out
        | Alignment.DefaultAlignment | Alignment.Left =>
          Outcome.ok (fill (write out value length) spec.fill padding)
        | Alignment.Right =>
          Outcome.ok (write (fill out spec.fill padding) value length)
        | Alignment.Center =>
          let before := padding / 2
          Outcome.ok
            (fill (write (fill out spec.fill before) value length) spec.fill (padding - before))
      else
        Outcome.ok (write out value length)
    | _ => Outcome.thrown Error.invalid_string_type out

/-! ## Stream insertion of unsigned integers

`buffer << abs` goes through `std::num_put` of the C++ standard library: the
digits of the value in the base selected by `basefield`, upper-case when
`uppercase` is set, and, when the imbued `numpunct` facet reports the grouping
`"\03"`, the separator `,` between groups of three digits counted from the
right. The facet `group_thousands` (lines 14-19) reports that grouping,
`no_grouping` (lines 21-24) reports none. -/

/-- The character of one digit, `0`-`9` then `a`-`f` (or `A`-`F`). -/
def digit_char (upper : Bool) (d : Nat) : Char :=
  match d with
  | 0 => '0' | 1 => '1' | 2 => '2' | 3 => '3' | 4 => '4'
  | 5 => '5' | 6 => '6' | 7 => '7' | 8 => '8' | 9 => '9'
  | 10 => if upper then 'A' else 'a'
  | 11 => if upper then 'B' else 'b'
  | 12 => if upper then 'C' else 'c'
  | 13 => if upper then 'D' else 'd'
  | 14 => if upper then 'E' else 'e'
  | _ => if upper then 'F' else 'f'

/-- The digits of `n` in `base`, least significant first; `fuel` bounds the
number of digits and `n + 1` is always enough. -/
def digits_rev (base : Nat) (upper : Bool) : Nat → Nat → List Char
  | 0, _ => []
  | fuel + 1, n =>
    digit_char upper (n % base) ::
      (if n / base = 0 then [] else digits_rev base upper fuel (n / base))

/-- Insert `,` after every third character of a least-significant-first digit
list when more digits follow; `k` counts the digits of the current group. -/
def group_rev : Nat → List Char → List Char
  | _, [] => []
  | k, c :: cs => if k = 3 then ',' :: c :: group_rev 1 cs else c :: group_rev (k + 1) cs

/-- The text `buffer << abs` writes for an unsigned integer. -/
def put_unsigned (base : Nat) (upper grouping : Bool) (n : Nat) : List Char :=
  let ds := digits_rev base upper (n + 1) n
  (if grouping then group_rev 0 ds else ds).reverse

/-! ## Floating-point environment -/

/-- The two values of `floatfield` that `format_float` selects. -/
inductive FloatField where
  | fixed
  | scientific
  deriving DecidableEq, Repr

/-- The floating-point operations of the C++ standard library that the
rendering calls on a value of type `F`. They are not part of the repository and
are a parameter of the embedding. -/
structure FloatEnv (F : Type) where
  /-- The conversion of an integer argument to `double`. -/
  of_int : Int → F
  /-- The function `std::signbit`. -/
  signbit : F → Bool
  /-- Unary minus. -/
  neg : F → F
  /-- The expression `(int) std::log10(x)`. -/
  log10_int : F → Int
  /-- The expression `x * 100`. -/
  times100 : F → F
  /-- The text `buffer << x` writes with the given `floatfield`, precision,
  `uppercase` flag and grouping. -/
  put : FloatField → Int → Bool → Bool → F → List Char

/-! ## Padding of numbers -/

/-- The sign part of the `switch (spec.sign)` statement (lines 75-90 and
204-219). -/
def sign_text (sign : Sign) (negative : Bool) : List Char :=
  match sign with
  | Sign.NegativeOnly | Sign.DefaultSign => if negative then ['-'] else []
  | Sign.Always => [if negative then '-' else '+']
  | Sign.SpaceForPositive => [if negative then '-' else ' ']

/-- The padding code shared, line for line, by `format_integer` (lines
150-189) and `format_float` (lines 270-309): `pfx` is the variable `prefix`,
`num` the buffered number. -/
def write_number (out : Sink) (spec : FormatSpec) (pfx num : List Char) : Sink :=
  let length := pfx.length + num.length
  if length < spec.width then
    let padding := spec.width - length
    match spec.alignment with
    | Alignment.Left =>
      fill (write (write out pfx pfx.length) num num.length) spec.fill padding
    | Alignment.Right =>
      write (write (fill out spec.fill padding) pfx pfx.length) num num.length
    | Alignment.Center =>
      let before := padding / 2
      fill (write (write (fill out spec.fill before) pfx pfx.length) num num.length)
        spec.fill (padding - before)
    | Alignment.AfterSign | Alignment.DefaultAlignment =>
      write (fill (write out pfx pfx.length) spec.fill padding) num num.length
  else
    write (write out pfx pfx.length) num num.length

/-! ## `format_float` -/

/-- The buffered number of `format_float` (lines 221-268). -/
def float_digits {F : Type} (E : FloatEnv F) (abs : F) (spec : FormatSpec) : List Char :=
  let grouping := spec.thoudsandsSeperator
  match spec.type with
  | SpecType.Exp => E.put FloatField.scientific spec.precision spec.upperCase grouping abs
  | SpecType.Fixed => E.put FloatField.fixed spec.precision spec.upperCase grouping abs
  | SpecType.Generic | SpecType.General =>
    let exponent := E.log10_int abs
    let precision := if spec.precision < 1 then 1 else spec.precision
    if -4 ≤ exponent ∧ exponent < precision then
      E.put FloatField.fixed (precision - 1 - exponent) spec.upperCase grouping abs
    else
      E.put FloatField.scientific (precision - 1) spec.upperCase grouping abs
  | SpecType.Percentage =>
    E.put FloatField.fixed spec.precision spec.upperCase grouping (E.times100 abs) ++ ['%']
  | _ => []

/-- The function `format_float` (lines 192-310). -/
def format_float {F : Type} (E : FloatEnv F) (out : Sink) (value : F) (spec : FormatSpec) :
    Outcome :=
  if !spec.isDecimalType && spec.type != SpecType.Generic then
    Outcome.thrown Error.float_non_decimal out
  else
    let negative := E.signbit value
    let abs := if negative then E.neg value else value
    let pfx := sign_text spec.sign negative
    let num := float_digits E abs spec
    Outcome.ok (write_number out spec pfx num)

/-! ## `format_integer` -/

/-- An integer type `Int` of the template `format_integer<Char, Int, UInt>`:
its width in bits and its signedness; `UInt` has the same width. -/
structure IntType where
  bits : Nat
  signed : Bool
  deriving DecidableEq, Repr

/-- The type `short`. -/
def short : IntType := ⟨16, true⟩
/-- The type `int`. -/
def int : IntType := ⟨32, true⟩
/-- The type `long` (64 bits, as is `long long`). -/
def long : IntType := ⟨64, true⟩
/-- The type `unsigned short`. -/
def unsigned_short : IntType := ⟨16, false⟩
/-- The type `unsigned int`. -/
def unsigned_int : IntType := ⟨32, false⟩
/-- The type `unsigned long` (64 bits, as is `unsigned long long`). -/
def unsigned_long : IntType := ⟨64, false⟩

/-- The values of an integer type. -/
def IntType.in_range (T : IntType) (v : Int) : Prop :=
  if T.signed then -(2 : Int) ^ (T.bits - 1) ≤ v ∧ v < (2 : Int) ^ (T.bits - 1)
  else 0 ≤ v ∧ v < (2 : Int) ^ T.bits

instance (T : IntType) (v : Int) : Decidable (T.in_range v) := by
  unfold IntType.in_range; exact inferInstance

/-- The conversion of an integer to the unsigned type of `bits` bits. -/
def to_unsigned (bits : Nat) (x : Int) : Nat :=
  (x % (2 : Int) ^ bits).toNat

/-- The value of an `int` expression whose mathematical result is `x`: the
result held in 32 bits, two's complement. -/
def wrap_int (x : Int) : Int :=
  (x + 2 ^ 31) % 2 ^ 32 - 2 ^ 31

/-- The initialiser of line 113, `UInt bit = 1 << ((sizeof(abs) * 8) - 1)`: the
literal `1` is an `int`, so the shift is an `int` expression, converted to
`UInt` afterwards. For the types of 16 and 32 bits this is the top bit of
`UInt`. For a type of 64 bits the count 63 is not below the width of `int`:
C++ leaves the expression undefined, and its value held in 32 bits is 0. -/
def initial_bit (bits : Nat) : Nat :=
  to_unsigned bits (wrap_int (2 ^ (bits - 1)))

/-- The loop of lines 114-116, `while ((abs & bit) == 0) bit >>= 1;`, run for
at most `fuel` tests; `none` when none of them ends the loop. -/
def skip_clear_bits (abs : Nat) : Nat → Nat → Option Nat
  | 0, _ => none
  | fuel + 1, bit =>
    if abs &&& bit = 0 then skip_clear_bits abs fuel (bit >>> 1) else some bit

/-- The loop of lines 118-121, `while (bit != 0)`, writing one binary digit per
round; `bit` rounds are always enough since `bit >>= 1` decreases `bit`. -/
def put_bits (abs : Nat) : Nat → Nat → List Char
  | 0, _ => []
  | fuel + 1, bit =>
    if bit = 0 then []
    else (if abs &&& bit ≠ 0 then '1' else '0') :: put_bits abs fuel (bit >>> 1)

/-- The base part of the variable `prefix` (lines 105-108, 126-129, 135-138). -/
def base_text (spec : FormatSpec) : List Char :=
  match spec.type with
  | SpecType.Bin => if spec.alternate then ['0', if spec.upperCase then 'B' else 'b'] else []
  | SpecType.Oct => if spec.alternate then ['0', if spec.upperCase then 'O' else 'o'] else []
  | SpecType.Hex => if spec.alternate then ['0', if spec.upperCase then 'X' else 'x'] else []
  | _ => []

/-- The buffered number of `format_integer` (lines 92-148) for the magnitude
`abs` of a value of type `T`; `none` when the loop of line 114 never ends. A
`bit` below `2 ^ bits` is 0 after `bits` shifts and stays 0, so `bits + 1`
tests decide whether the loop ends. -/
def integer_digits (T : IntType) (abs : Nat) (spec : FormatSpec) : Option (List Char) :=
  let grouping := spec.thoudsandsSeperator
  match spec.type with
  | SpecType.Generic | SpecType.Dec | SpecType.String =>
    some (put_unsigned 10 false grouping abs)
  | SpecType.Bin =>
    if abs = 0 then some ['0']
    else
      match skip_clear_bits abs (T.bits + 1) (initial_bit T.bits) with
      | none => none
      | some bit => some (put_bits abs bit bit)
  | SpecType.Oct => some (put_unsigned 8 false grouping abs)
  | SpecType.Hex => some (put_unsigned 16 spec.upperCase grouping abs)
  | _ => some []

/-- The variable `abs` of line 72, `UInt abs = negative ? -value : value`.
Negating the most negative value of `int` or `long` wraps around to the value
itself, which the conversion to `UInt` turns into `2 ^ (bits - 1)`; reducing
`-value` modulo `2 ^ bits` gives the same number. -/
def magnitude (T : IntType) (value : Int) : Nat :=
  to_unsigned T.bits (if value < 0 then -value else value)

/-- The function `format_integer` (lines 55-190) at the integer type `T`. -/
def format_integer {F : Type} (E : FloatEnv F) (T : IntType) (out : Sink) (value : Int)
    (spec : FormatSpec) : Outcome :=
  if spec.type = SpecType.Character then
    let str := [Char.ofNat (to_unsigned 8 value)]
    let strspec := { spec with type := SpecType.String }
    format_string out str strspec
  else if spec.isDecimalType then
    format_float E out (E.of_int value) spec
  else
    let negative := decide (value < 0)
    let abs := magnitude T value
    let pfx := sign_text spec.sign negative ++ base_text spec
    match integer_digits T abs spec with
    | none => Outcome.diverges
    | some num => Outcome.ok (write_number out spec pfx num)

/-! ## An exact-arithmetic environment

A finite `double` is a sign and a magnitude `m * 2 ^ e`. The environment below
computes on such values exactly, without rounding the results of `* 100` and
of the integer conversion to 53 bits; it serves to evaluate the rendering on
concrete inputs. -/

/-- A finite binary floating-point value, `(-1) ^ sign * m * 2 ^ e`. -/
structure Dyadic where
  sign : Bool
  m : Nat
  e : Int
  deriving DecidableEq, Repr

namespace Dyadic

/-- The numerator of the magnitude. -/
def num (x : Dyadic) : Nat := if 0 ≤ x.e then x.m * 2 ^ x.e.toNat else x.m

/-- The denominator of the magnitude. -/
def den (x : Dyadic) : Nat := if 0 ≤ x.e then 1 else 2 ^ (-x.e).toNat

/-- The integer nearest to `n / d`, ties to even. -/
def round_div (n d : Nat) : Nat :=
  let q := n / d
  let r := n % d
  if 2 * r < d then q else if d < 2 * r then q + 1 else if q % 2 = 0 then q else q + 1

/-- The largest `k` with `10 ^ k * d ≤ n`, searched upwards from `k`. -/
def exponent_up (n d : Nat) : Nat → Nat → Nat
  | 0, k => k
  | fuel + 1, k => if 10 ^ (k + 1) * d ≤ n then exponent_up n d fuel (k + 1) else k

/-- The smallest `k` with `d ≤ n * 10 ^ k`, searched upwards from `k`. -/
def exponent_down (n d : Nat) : Nat → Nat → Nat
  | 0, k => k
  | fuel + 1, k => if d ≤ n * 10 ^ k then k else exponent_down n d fuel (k + 1)

/-- The decimal exponent of a positive magnitude `n / d`: the integer `x` with
`10 ^ x ≤ n / d < 10 ^ (x + 1)`. -/
def decimal_exponent (n d : Nat) : Int :=
  if d ≤ n then (exponent_up n d n 0 : Nat) else -(exponent_down n d d 0 : Nat)

/-- Exactly `p` decimal digits of `n`, least significant first. -/
def fraction_rev : Nat → Nat → List Char
  | 0, _ => []
  | p + 1, n => digit_char false (n % 10) :: fraction_rev p (n / 10)

/-- The fractional part of a rendering: nothing at precision 0. -/
def fraction (p n : Nat) : List Char :=
  if p = 0 then [] else '.' :: (fraction_rev p n).reverse

/-- The precision a stream uses: a negative one stands for 6. -/
def stream_precision (precision : Int) : Nat :=
  if precision < 0 then 6 else precision.toNat

/-- The fixed notation of the magnitude with `p` fractional digits. -/
def put_fixed (p : Nat) (grouping : Bool) (x : Dyadic) : List Char :=
  let s := round_div (x.num * 10 ^ p) x.den
  put_unsigned 10 false grouping (s / 10 ^ p) ++ fraction p (s % 10 ^ p)

/-- The scientific notation of the magnitude with `p` fractional digits. -/
def put_scientific (p : Nat) (upper : Bool) (x : Dyadic) : List Char :=
  let ex : Int := if x.m = 0 then 0 else decimal_exponent x.num x.den
  let s0 := if ex ≤ p then round_div (x.num * 10 ^ ((p : Int) - ex).toNat) x.den
            else round_div x.num (x.den * 10 ^ (ex - p).toNat)
  let carry := decide (10 ^ (p + 1) ≤ s0)
  let s := if carry then s0 / 10 else s0
  let ex1 : Int := if carry then ex + 1 else ex
  let exdigits := put_unsigned 10 false false ex1.natAbs
  [digit_char false (s / 10 ^ p)] ++ fraction p (s % 10 ^ p)
    ++ [if upper then 'E' else 'e', if ex1 < 0 then '-' else '+']
    ++ (if exdigits.length < 2 then '0' :: exdigits else exdigits)

/-- The logarithm in base 10 of the magnitude, truncated towards zero as the
conversion to `int` does; the most negative `int` for the magnitude 0. -/
def log10_int (x : Dyadic) : Int :=
  if x.m = 0 then -(2 : Int) ^ 31
  else if x.den ≤ x.num then decimal_exponent x.num x.den
  else -(exponent_up x.den x.num x.den 0 : Nat)

/-- The environment of exact arithmetic on finite values. -/
def env : FloatEnv Dyadic where
  of_int := fun v => ⟨decide (v < 0), v.natAbs, 0⟩
  signbit := fun x => x.sign
  neg := fun x => ⟨!x.sign, x.m, x.e⟩
  log10_int := log10_int
  times100 := fun x => ⟨x.sign, 100 * x.m, x.e⟩
  put := fun field precision upper grouping x =>
    match field with
    | FloatField.fixed => put_fixed (stream_precision precision) grouping x
    | FloatField.scientific => put_scientific (stream_precision precision) upper x

end Dyadic

/-! ## `repr_value` for characters -/

/-- The function `repr_value(std::ostream&, char)` (lines 454-475): the
character between single quotes, ten characters being written as a backslash
escape. The quote has the code 39, the backslash the code 92. -/
def repr_value_char (out : Sink) (value : Char) : Sink :=
  if value = Char.ofNat 0 then out ++ [Char.ofNat 39, Char.ofNat 92, '0', Char.ofNat 39]
  else if value = Char.ofNat 7 then out ++ [Char.ofNat 39, Char.ofNat 92, 'a', Char.ofNat 39]
  else if value = Char.ofNat 8 then out ++ [Char.ofNat 39, Char.ofNat 92, 'b', Char.ofNat 39]
  else if value = Char.ofNat 9 then out ++ [Char.ofNat 39, Char.ofNat 92, 't', Char.ofNat 39]
  else if value = Char.ofNat 10 then out ++ [Char.ofNat 39, Char.ofNat 92, 'n', Char.ofNat 39]
  else if value = Char.ofNat 11 then out ++ [Char.ofNat 39, Char.ofNat 92, 'v', Char.ofNat 39]
  else if value = Char.ofNat 12 then out ++ [Char.ofNat 39, Char.ofNat 92, 'f', Char.ofNat 39]
  else if value = Char.ofNat 13 then out ++ [Char.ofNat 39, Char.ofNat 92, 'r', Char.ofNat 39]
  else if value = Char.ofNat 39 then
    out ++ [Char.ofNat 39, Char.ofNat 92, Char.ofNat 39, Char.ofNat 39]
  else if value = Char.ofNat 92 then
    out ++ [Char.ofNat 39, Char.ofNat 92, Char.ofNat 92, Char.ofNat 39]
  else out ++ [Char.ofNat 39, value, Char.ofNat 39]

/-! ## Formatters (`formatter.h`) -/

/-- Modelled from the spec: the enumeration `Conversion` of `conversion.h`,
which is not part of the sources. `formatter.h` names `ReprConv` and
`StrConv`; every other value takes the `default` branch, and the spec knows one
other conversion mode, the generic one. -/
inductive Conversion where
  | GenericConv
  | StrConv
  | ReprConv
  deriving DecidableEq, Repr

/-- The function `format_value(std::ostream&, const std::string&, const
FormatSpec&)` (lines 446-448): the characters of the string go to
`format_string` as the C string `str.c_str()`. -/
def format_value_string (out : Sink) (str : List Char) (spec : FormatSpec) : Outcome :=
  format_string out str spec

/-- The two statements `_repr(buffer, ...); format_value(out, buffer.str(),
spec);` (and the same with `_format`) once the first call has ended with the
outcome `inner` on the fresh stream `buffer`: an exception of the first call
leaves the function before `out` is touched. -/
def through_buffer (inner : Outcome) (out : Sink) (spec : FormatSpec) : Outcome :=
  match inner with
  | Outcome.ok buffer => format_value_string out buffer spec
  | Outcome.thrown e _ => Outcome.thrown e out
  | Outcome.diverges => Outcome.diverges

/-- The method `ValueFormatter::format` (lines 52-72). The template parameters
`_format` and `_repr` are parameters, and so is the constant
`FormatSpec::DEFAULT` of `formatspec.h`. -/
def ValueFormatter.format {α : Type} (_format : Sink → α → FormatSpec → Outcome)
    (_repr : Sink → α → Outcome) (DEFAULT : FormatSpec) (value : α)
    (out : Sink) (conv : Conversion) (spec : FormatSpec) : Outcome :=
  match conv with
  | Conversion.ReprConv => through_buffer (_repr [] value) out spec
  | Conversion.StrConv => through_buffer (_format [] value DEFAULT) out spec
  | _ => _format out value spec

/-- The method `PtrFormatter::format` (lines 88-108); `value` is the object
`*value` the formatter points to. -/
def PtrFormatter.format {α : Type} (_format : Sink → α → FormatSpec → Outcome)
    (_repr : Sink → α → Outcome) (DEFAULT : FormatSpec) (value : α)
    (out : Sink) (conv : Conversion) (spec : FormatSpec) : Outcome :=
  match conv with
  | Conversion.ReprConv => through_buffer (_repr [] value) out spec
  | Conversion.StrConv => through_buffer (_format [] value DEFAULT) out spec
  | _ => _format out value spec

/-- The method `SliceFormatter::format` (lines 135-155); `slice` is the range
of elements from `begin` to `end`, `left` and `right` are the bracket
characters of the template. -/
def SliceFormatter.format {α : Type}
    (_format : Sink → List α → FormatSpec → Char → Char → Outcome)
    (_repr : Sink → List α → Char → Char → Outcome) (DEFAULT : FormatSpec)
    (left right : Char) (slice : List α)
    (out : Sink) (conv : Conversion) (spec : FormatSpec) : Outcome :=
  match conv with
  | Conversion.ReprConv => through_buffer (_repr [] slice left right) out spec
  | Conversion.StrConv => through_buffer (_format [] slice DEFAULT left right) out spec
  | _ => _format out slice spec left right

/-- The conversion rule in the words of the specification (section 4.3): with
the Repr or Str conversion the value is rendered once into an intermediate
buffer, by its formal representation or by its rendering under the default
specification, and the intermediate text is rendered again through the string
path under the outer specification; with the Generic conversion the value is
rendered directly under the outer specification. `render` and `formal` are
the rendering and the formal representation of the bound value. -/
def spec_conversion (render : Sink → FormatSpec → Outcome) (formal : Sink → Outcome)
    (DEFAULT : FormatSpec) (out : Sink) (conv : Conversion) (S : FormatSpec) : Outcome :=
  match conv with
  | Conversion.GenericConv => render out S
  | Conversion.StrConv =>
    match render [] DEFAULT with
    | Outcome.ok text => format_string out text S
    | Outcome.thrown e _ => Outcome.thrown e out
    | Outcome.diverges => Outcome.diverges
  | Conversion.ReprConv =>
    match formal [] with
    | Outcome.ok text => format_string out text S
    | Outcome.thrown e _ => Outcome.thrown e out
    | Outcome.diverges => Outcome.diverges

/-! ## `BasicFormat::apply` (`format.h`) -/

/-- An instruction of a compiled template. The class `BasicFormatItem` is
declared in `formatitem.h`, which is not part of the sources; its virtual
method `apply(out, formatters)` is all `BasicFormat::apply` uses, so an item is
what that method does to a sink, given the formatter list. -/
abbrev FormatItem (Fmts : Type) := Sink → Fmts → Outcome

/-- The method `BasicFormat::apply` (lines 59-63), a loop over the items of
`m_fmt`; an exception thrown by an item leaves the loop. -/
def BasicFormat.apply {Fmts : Type} (m_fmt : List (FormatItem Fmts)) (out : Sink)
    (formatters : Fmts) : Outcome :=
  match m_fmt with
  | [] => Outcome.ok out
  | item :: rest =>
    match item out formatters with
    | Outcome.ok out1 => BasicFormat.apply rest out1 formatters
    | Outcome.thrown e out1 => Outcome.thrown e out1
    | Outcome.diverges => Outcome.diverges

/-! ## Grouping in thousands, said directly

The definitions of this section are not part of the program: they say what the
decimal digits of a number grouped in threes from the right are. -/

/-- The three decimal digits of a number below 1000, leading zeros included. -/
def three_digits (n : Nat) : List Char :=
  [digit_char false (n / 100 % 10), digit_char false (n / 10 % 10), digit_char false (n % 10)]

/-- The decimal digits of `n` grouped in threes from the right: a number below
1000 is its numeral, a larger one is the grouped digits of `n / 1000`, a comma
and the three digits of `n % 1000`. The fuel `n` is always enough. -/
def grouped_decimal : Nat → Nat → List Char
  | 0, n => put_unsigned 10 false false n
  | fuel + 1, n =>
    if n < 1000 then put_unsigned 10 false false n
    else grouped_decimal fuel (n / 1000) ++ ',' :: three_digits (n % 1000)

/-! ## `format_value` (lines 368-452) -/

/-- The two predicates `isNumberType` and `isStringType` of `BasicFormatSpec`.
They are declared in `formatspec.h`, which is not part of the sources, and
are parameters of the embedding. -/
structure SpecPredicates where
  isNumberType : FormatSpec → Bool
  isStringType : FormatSpec → Bool

/-- Modelled from the spec: the constant `FormatSpec::DEFAULT`, the
specification with every field at its default; the default precision is not
stated and is left free. -/
def FormatSpec.is_default (D : FormatSpec) : Prop :=
  D.fill = ' ' ∧ D.alignment = Alignment.DefaultAlignment ∧ D.sign = Sign.DefaultSign ∧
    D.alternate = false ∧ D.thoudsandsSeperator = false ∧ D.width = 0 ∧
    D.type = SpecType.Generic ∧ D.upperCase = false

instance (D : FormatSpec) : Decidable D.is_default := by
  unfold FormatSpec.is_default; exact inferInstance

/-- The function `format_value(std::ostream&, bool, const FormatSpec&)` (lines
368-380). -/
def format_value_bool {F : Type} (E : FloatEnv F) (P : SpecPredicates) (out : Sink)
    (value : Bool) (spec : FormatSpec) : Outcome :=
  if P.isNumberType spec then
    format_integer E unsigned_int out (if value then 1 else 0) spec
  else
    let str := if spec.upperCase then
        (if value then ['T', 'R', 'U', 'E'] else ['F', 'A', 'L', 'S', 'E'])
      else (if value then ['t', 'r', 'u', 'e'] else ['f', 'a', 'l', 's', 'e'])
    let strspec := { spec with type := SpecType.String }
    format_string out str strspec

/-- The conversion of a `char` to `int`, `char` being a signed type of 8 bits:
a character of code 128 or more is a negative number. -/
def char_to_int (c : Char) : Int :=
  if c.toNat < 128 then (c.toNat : Int) else (c.toNat : Int) - 256

/-- The function `format_value(std::ostream&, char, const FormatSpec&)` (lines
382-392). -/
def format_value_char {F : Type} (E : FloatEnv F) (P : SpecPredicates) (out : Sink)
    (value : Char) (spec : FormatSpec) : Outcome :=
  if spec.type = SpecType.Generic ∨ P.isStringType spec = true then
    let str := [value]
    let strspec := { spec with type := SpecType.String }
    format_string out str strspec
  else
    format_integer E int out (char_to_int value) spec

/-- The function `format_value(std::ostream&, unsigned char, const
FormatSpec&)` (lines 410-420). -/
def format_value_uchar {F : Type} (E : FloatEnv F) (P : SpecPredicates) (out : Sink)
    (value : Char) (spec : FormatSpec) : Outcome :=
  if spec.type = SpecType.Generic ∨ P.isStringType spec = true then
    let str := [value]
    let strspec := { spec with type := SpecType.String }
    format_string out str strspec
  else
    format_integer E unsigned_int out (value.toNat : Int) spec

/-- The functions `format_value` for `short`, `int`, `long`, `long long` and
their unsigned types (lines 394-408 and 422-436): `format_integer` at the type
of the value. -/
def format_value_integer {F : Type} (E : FloatEnv F) (T : IntType) (out : Sink)
    (value : Int) (spec : FormatSpec) : Outcome :=
  format_integer E T out value spec

/-- The functions `format_value` for `float` and `double` (lines 438-444). -/
def format_value_float {F : Type} (E : FloatEnv F) (out : Sink) (value : F)
    (spec : FormatSpec) : Outcome :=
  format_float E out value spec

/-- The function `format_value(std::ostream&, const char*, const FormatSpec&)`
(lines 450-452). -/
def format_value_cstr (out : Sink) (str : List Char) (spec : FormatSpec) : Outcome :=
  format_string out str spec

/-! ## `repr_value` for strings (lines 477-536) -/

/-- The `switch` of lines 485-533: what the loop writes for one character. The
double quote has the code 34, the question mark 63, the backslash 92. -/
def repr_cstr_char (ch : Char) : List Char :=
  if ch = Char.ofNat 0 then [Char.ofNat 92, '0']
  else if ch = Char.ofNat 7 then [Char.ofNat 92, 'a']
  else if ch = Char.ofNat 8 then [Char.ofNat 92, 'b']
  else if ch = Char.ofNat 9 then [Char.ofNat 92, 't']
  else if ch = Char.ofNat 10 then [Char.ofNat 92, 'n']
  else if ch = Char.ofNat 11 then [Char.ofNat 92, 'v']
  else if ch = Char.ofNat 12 then [Char.ofNat 92, 'f']
  else if ch = Char.ofNat 13 then [Char.ofNat 92, 'r']
  else if ch = Char.ofNat 34 then [Char.ofNat 92, Char.ofNat 34]
  else if ch = Char.ofNat 63 then [Char.ofNat 92, Char.ofNat 63]
  else if ch = Char.ofNat 92 then [Char.ofNat 92, Char.ofNat 92]
  else [ch]

/-- The loop of line 483, `for (; *value; ++ value)`: it stops at the first
NUL, or at the end of the array, which the terminating NUL follows. -/
def repr_cstr_loop : List Char → List Char
  | [] => []
  | ch :: rest => if ch = Char.ofNat 0 then [] else repr_cstr_char ch ++ repr_cstr_loop rest

/-- The function `repr_value(std::ostream&, const char*)` (lines 481-536). -/
def repr_value_cstr (out : Sink) (value : List Char) : Sink :=
  out ++ [Char.ofNat 34] ++ repr_cstr_loop value ++ [Char.ofNat 34]

/-- The function `repr_value(std::ostream&, const std::string&)` (lines
477-479): the representation of `value.c_str()`. -/
def repr_value_string (out : Sink) (value : List Char) : Sink :=
  repr_value_cstr out value

/-! ## Bound formats (`format.h`) -/

/-- The result of a call that returns a value. -/
inductive Returned (α : Type) where
  | value (a : α)
  | thrown (e : Error)
  | diverges

/-- The class `BasicBoundFormat` (lines 69-127): a compiled template, the item
list `BasicFormat` shares, and the formatter list. Both members are `const`. -/
structure BasicBoundFormat (Fmts : Type) where
  m_format : List (FormatItem Fmts)
  m_formatters : Fmts

/-- The objects of the caller that the arguments of a call live in, by
address. A formatter that holds a pointer or a pair of iterators reads them
when it renders, not when it is made. -/
abbrev Memory (Obj : Type) := Nat → Obj

/-- The elements between the iterators `begin` and `end` of a `SliceFormatter`
as they stand in memory: `count` objects from the address `first` on. -/
def read_range {Obj : Type} (mem : Memory Obj) (first count : Nat) : List Obj :=
  (List.range count).map (fun i => mem (first + i))

/-- An entry of the formatter list, one constructor per class of `formatter.h`,
with the data members of the class.
* `ValueFormatter` (lines 43-76) has the member `const value_type value`, a
  copy of the argument (line 50); `make_formatter` returns it for `bool`, the
  character, integer and floating types (lines 161-174).
* `PtrFormatter` (lines 78-112) has the member `ptr_type value`, the address
  of the argument (line 86); `make_formatter` returns it for `std::string`,
  tuples, pairs and, as `FallbackFormatter`, every other type (lines 180-187,
  214-222). `ValueFormatter<const char*>` (lines 176-178) copies the pointer,
  not the characters, and reads them when it renders: it is a `ptr` here.
* `SliceFormatter` (lines 124-159) has the members `begin` and `end`,
  iterators into the container of the caller (lines 157-158), and the bracket
  characters as template arguments.
The rendering routines `_format` and `_repr` are the template parameters. -/
inductive Formatter (Obj : Type) where
  | value (held : Obj) (_format : Sink → Obj → FormatSpec → Outcome)
      (_repr : Sink → Obj → Outcome)
  | ptr (address : Nat) (_format : Sink → Obj → FormatSpec → Outcome)
      (_repr : Sink → Obj → Outcome)
  | slice (first count : Nat) (left right : Char)
      (_format : Sink → List Obj → FormatSpec → Char → Char → Outcome)
      (_repr : Sink → List Obj → Char → Char → Outcome)

/-- The virtual method `Formatter::format` (line 29) of an entry of the
formatter list, in the memory `mem`: the three overriding methods, a pointer
being dereferenced and a range being read at the call. -/
def Formatter.format {Obj : Type} (DEFAULT : FormatSpec) (mem : Memory Obj)
    (f : Formatter Obj) (out : Sink) (conv : Conversion) (spec : FormatSpec) : Outcome :=
  match f with
  | Formatter.value held _format _repr =>
    ValueFormatter.format _format _repr DEFAULT held out conv spec
  | Formatter.ptr address _format _repr =>
    PtrFormatter.format _format _repr DEFAULT (mem address) out conv spec
  | Formatter.slice first count left right _format _repr =>
    SliceFormatter.format _format _repr DEFAULT left right (read_range mem first count)
      out conv spec

/-- What an item can do with an entry of the formatter list: call its method
`format`, the only method of the class `Formatter`. -/
abbrev Render := Sink → Conversion → FormatSpec → Outcome

/-- The class `BasicBoundFormat<char>` (lines 69-127) with the formatter list
spelled out: the member `m_format`, the item list of the compiled template,
and the member `m_formatters`, the entries `make_formatter` has made of the
arguments (line 101). Both members are `const`. -/
structure BoundFormat (Obj : Type) where
  m_format : List (FormatItem (List Render))
  m_formatters : List (Formatter Obj)

/-- The method `BasicBoundFormat::write_into` (lines 110-112), called when the
caller's objects are `mem`. The method is `const`, and so are the method
`format` of the entries and the references the rendering routines take: the
object and the memory after the call are those before it, returned next to
the outcome. -/
def BoundFormat.write_into {Obj : Type} (DEFAULT : FormatSpec) (b : BoundFormat Obj)
    (mem : Memory Obj) (out : Sink) : Outcome × BoundFormat Obj × Memory Obj :=
  (BasicFormat.apply b.m_format out (b.m_formatters.map (Formatter.format DEFAULT mem)),
    b, mem)

/-- The method `BasicBoundFormat::str` (lines 114-122): the conversion to a
string renders into a fresh `std::basic_ostringstream` and returns its
content; an exception of the render leaves the method. -/
def BoundFormat.str {Obj : Type} (DEFAULT : FormatSpec) (b : BoundFormat Obj)
    (mem : Memory Obj) : Returned (List Char) × BoundFormat Obj × Memory Obj :=
  (match BasicFormat.apply b.m_format []
      (b.m_formatters.map (Formatter.format DEFAULT mem)) with
    | Outcome.ok out => Returned.value out
    | Outcome.thrown e _ => Returned.thrown e
    | Outcome.diverges => Returned.diverges, b, mem)

/-- The class `DummyBoundFormat` (lines 211-239): an object without members. -/
structure DummyBoundFormat where
  deriving DecidableEq, Repr

/-- The method `DummyBoundFormat::write_into` (lines 228-230). -/
def DummyBoundFormat.write_into (_d : DummyBoundFormat) (out : Sink) : Outcome :=
  Outcome.ok out

/-- The method `DummyBoundFormat::str` (lines 232-238). -/
def DummyBoundFormat.str (_d : DummyBoundFormat) : Returned (List Char) :=
  Returned.value []

/-- The stream insertion of a `DummyBoundFormat` (lines 241-245). -/
def DummyBoundFormat.insert (out : Sink) (_fmt : DummyBoundFormat) : Outcome :=
  Outcome.ok out

/-- The function `debug` when `NDEBUG` is defined (lines 247-264): the
template text and the arguments are not used. -/
def debug_NDEBUG {Args : Type} (_fmt : List Char) (_args : Args) : Returned DummyBoundFormat :=
  Returned.value {}

/-- The function `debug` when `NDEBUG` is not defined (lines 278-291): the
bound format made of the parsed template and of the formatters of the
arguments. The function `parse_format` and the formatter factory are defined
outside the sources and are parameters. -/
def debug_checked {Args Fmts : Type}
    (parse_format : List Char → Returned (List (FormatItem Fmts)))
    (make_formatters : Args → Fmts) (fmt : List Char) (args : Args) :
    Returned (BasicBoundFormat Fmts) :=
  match parse_format fmt with
  | Returned.value items => Returned.value ⟨items, make_formatters args⟩
  | Returned.thrown e => Returned.thrown e
  | Returned.diverges => Returned.diverges

/-! ## The dispatch factory for containers (`formatter.h`, lines 189-232) -/

/-- The container types `make_formatter` has an overload for. -/
inductive Container where
  | vector
  | list
  | array
  | set
  | unordered_set
  | map
  | unordered_map
  deriving DecidableEq, Repr

/-- The pair of rendering routines of a `SliceFormatter`: `format_slice` and
`repr_slice`, the defaults of the template, or `format_map` and `repr_map`. -/
inductive SliceRenderer where
  | slice
  | map
  deriving DecidableEq, Repr

/-- The template arguments of the `SliceFormatter` an overload returns. The
opening bracket has the code 91, the closing one 93, the braces 123 and 125. -/
structure SliceBinding where
  left : Char
  right : Char
  renderer : SliceRenderer
  deriving DecidableEq, Repr

/-- The overloads of `make_formatter` for containers (lines 189-232). -/
def make_formatter (c : Container) : SliceBinding :=
  match c with
  | Container.vector => ⟨Char.ofNat 91, Char.ofNat 93, SliceRenderer.slice⟩
  | Container.list => ⟨Char.ofNat 91, Char.ofNat 93, SliceRenderer.slice⟩
  | Container.array => ⟨Char.ofNat 91, Char.ofNat 93, SliceRenderer.slice⟩
  | Container.set => ⟨Char.ofNat 123, Char.ofNat 125, SliceRenderer.slice⟩
  | Container.unordered_set => ⟨Char.ofNat 123, Char.ofNat 125, SliceRenderer.slice⟩
  | Container.map => ⟨Char.ofNat 123, Char.ofNat 125, SliceRenderer.map⟩
  | Container.unordered_map => ⟨Char.ofNat 123, Char.ofNat 125, SliceRenderer.map⟩

/-! ## Reading a representation back

The definitions of this section are not part of the program: they undo the
escapes of `repr_value`. -/

/-- The character a backslash escape stands for, given its second character. -/
def unescape_letter (c : Char) : Char :=
  if c = '0' then Char.ofNat 0
  else if c = 'a' then Char.ofNat 7
  else if c = 'b' then Char.ofNat 8
  else if c = 't' then Char.ofNat 9
  else if c = 'n' then Char.ofNat 10
  else if c = 'v' then Char.ofNat 11
  else if c = 'f' then Char.ofNat 12
  else if c = 'r' then Char.ofNat 13
  else c

/-- The characters of a representation up to its closing double quote, every
backslash escape replaced by the character it stands for. -/
def unescape_body : List Char → List Char
  | [] => []
  | [c] => if c = Char.ofNat 34 ∨ c = Char.ofNat 92 then [] else [c]
  | c :: d :: rest =>
    if c = Char.ofNat 34 then []
    else if c = Char.ofNat 92 then unescape_letter d :: unescape_body rest
    else c :: unescape_body (d :: rest)

/-- The string a representation stands for: the text after the opening double
quote, unescaped up to the closing one. -/
def unescape (repr : List Char) : List Char :=
  unescape_body repr.tail

/-! ## Words of the claims

The definitions of this section are not part of the program. -/

/-- The text of a boolean: `true` or `false`, in capitals when `upper` is set. -/
def bool_text (upper value : Bool) : List Char :=
  if upper then (if value then ['T', 'R', 'U', 'E'] else ['F', 'A', 'L', 'S', 'E'])
  else (if value then ['t', 'r', 'u', 'e'] else ['f', 'a', 'l', 's', 'e'])

/-- The value of a digit character: `0`-`9`, `A`-`F` or `a`-`f`. -/
def char_digit (c : Char) : Nat :=
  if c.toNat < 58 then c.toNat - 48
  else if c.toNat < 71 then c.toNat - 55
  else c.toNat - 87

/-- The number a least-significant-first digit list denotes in `base`. -/
def value_rev (base : Nat) (ds : List Char) : Nat :=
  ds.foldr (fun c a => a * base + char_digit c) 0

/-- The number a digit text denotes in `base`, read from the left. -/
def read_nat (base : Nat) (ds : List Char) : Nat :=
  ds.foldl (fun a c => a * base + char_digit c) 0

/-- The integer a decimal text with an optional leading `-` denotes. -/
def read_int (text : List Char) : Int :=
  match text with
  | [] => 0
  | c :: ds => if c = '-' then -(read_nat 10 ds : Int) else (read_nat 10 text : Int)

/-- The text `ds` is the numeral of `n` in `base`: a non-empty run of digits of
that base, in the given letter case, without a leading zero unless it is the
single digit `0`, whose value is `n`. -/
structure Numeral (base : Nat) (upper : Bool) (ds : List Char) (n : Nat) : Prop where
  nonempty : ds ≠ []
  digits : ∀ c ∈ ds, ∃ d, d < base ∧ c = digit_char upper d
  no_leading_zero : ds.head? = some '0' → ds = ['0']
  value : read_nat base ds = n

/-! ## Properties of `format_string` -/

/-- The length of a C string is at most the length of the array holding it. -/
theorem strlen_le (value : List Char) : strlen value ≤ value.length := by
  unfold strlen
  exact (List.takeWhile_sublist _).length_le

/-- A character list without NUL is a C string in full. -/
theorem strlen_eq_length (s : List Char) (h : ∀ c ∈ s, c ≠ Char.ofNat 0) :
    strlen s = s.length := by
  unfold strlen
  rw [List.takeWhile_eq_self_iff.mpr]
  intro c hc
  simpa using h c hc

/-- The checks of lines 316-335 pass exactly for a default sign, no
thousands separator, no alternate form and a Generic or String type; the
outcome is then decided by the padding code alone. -/
theorem format_string_of_legal (out : Sink) (value : List Char) (spec : FormatSpec)
    (hsign : spec.sign = Sign.DefaultSign) (hthou : spec.thoudsandsSeperator = false)
    (halt : spec.alternate = false)
    (htype : spec.type = SpecType.Generic ∨ spec.type = SpecType.String) :
    format_string out value spec =
      if 0 < spec.width ∧ strlen value < spec.width then
        match spec.alignment with
        | Alignment.AfterSign => Outcome.thrown Error.after_sign_not_allowed out
        | Alignment.DefaultAlignment | Alignment.Left =>
          Outcome.ok (fill (write out value (strlen value)) spec.fill
            (spec.width - strlen value))
        | Alignment.Right =>
          Outcome.ok (write (fill out spec.fill (spec.width - strlen value)) value
            (strlen value))
        | Alignment.Center =>
          Outcome.ok (fill (write (fill out spec.fill ((spec.width - strlen value) / 2))
            value (strlen value)) spec.fill
            (spec.width - strlen value - (spec.width - strlen value) / 2))
      else Outcome.ok (write out value (strlen value)) := by
  unfold format_string
  rcases htype with h | h <;> simp [hsign, hthou, halt, h]

/-- Whatever `format_string` returns normally is the sink extended by the
string and its padding; a successful call passed the checks of lines 316-335. -/
theorem format_string_ok_legal (out out1 : Sink) (value : List Char) (spec : FormatSpec)
    (h : format_string out value spec = Outcome.ok out1) :
    spec.sign = Sign.DefaultSign ∧ spec.thoudsandsSeperator = false ∧
      (spec.type = SpecType.Generic ∨ spec.type = SpecType.String) ∧
      spec.alternate = false := by
  unfold format_string at h
  by_cases hs : spec.sign = Sign.DefaultSign
  · by_cases ht : spec.thoudsandsSeperator = true
    · simp [hs, ht] at h
    · have ht1 : spec.thoudsandsSeperator = false := by simpa using ht
      cases hty : spec.type <;> cases ha : spec.alternate <;>
        simp [hs, ht1, hty, ha] at h ⊢
  · simp [hs] at h

/-- C8: `format_string` throws, before writing anything, whenever the sign
policy is not the default one, or the thousands-separator flag is set, or the
alternate-form flag is set with a presentation type other than Character. -/
theorem format_string_rejects_sign_thousands_alternate (out : Sink) (value : List Char)
    (spec : FormatSpec)
    (h : spec.sign ≠ Sign.DefaultSign ∨ spec.thoudsandsSeperator = true ∨
      (spec.alternate = true ∧ spec.type ≠ SpecType.Character)) :
    (format_string out value spec).fails = true ∧
      ∃ e, format_string out value spec = Outcome.thrown e out := by
  have key : ∃ e, format_string out value spec = Outcome.thrown e out := by
    unfold format_string
    by_cases hs : spec.sign = Sign.DefaultSign
    · by_cases ht : spec.thoudsandsSeperator = true
      · exact ⟨Error.thousands_not_allowed, by simp [hs, ht]⟩
      · rcases h with h | h | ⟨ha, hc⟩
        · exact absurd hs h
        · exact absurd h ht
        · exact ⟨Error.alternate_not_allowed, by simp [hs, ht, ha, hc]⟩
    · exact ⟨Error.sign_not_allowed, by simp [hs]⟩
  obtain ⟨e, he⟩ := key
  exact ⟨by rw [he]; rfl, e, he⟩

/-- The string `x` with the specification `+` fails (C8). -/
theorem format_string_rejects_sign_thousands_alternate_witness :
    (format_string [] ['x'] { sign := Sign.Always, precision := 6 }).fails = true ∧
      ∃ e, format_string [] ['x'] { sign := Sign.Always, precision := 6 }
        = Outcome.thrown e [] :=
  format_string_rejects_sign_thousands_alternate [] ['x']
    { sign := Sign.Always, precision := 6 } (Or.inl (by decide))

/-- C9, evaluated on the code: with the alignment AfterSign and the width 0
the string `abc` is written and no exception is thrown; the check of line 341
is only reached when padding is needed. -/
theorem format_string_after_sign_without_padding :
    format_string [] ['a', 'b', 'c']
        { alignment := Alignment.AfterSign, width := 0, precision := 6 }
      = Outcome.ok ['a', 'b', 'c'] ∧
    format_string [] ['a', 'b', 'c']
        { alignment := Alignment.AfterSign, width := 3, precision := 6 }
      = Outcome.ok ['a', 'b', 'c'] ∧
    format_string [] ['a', 'b', 'c']
        { alignment := Alignment.AfterSign, width := 4, precision := 6 }
      = Outcome.thrown Error.after_sign_not_allowed [] := by
  decide

/-- C10: `format_string` throws for every presentation type other than
Generic and String, whatever the other fields are, and returns for Generic and
String when the sign is the default one, the thousands and alternate flags are
clear and the alignment is not AfterSign. -/
theorem format_string_type_legality (out : Sink) (value : List Char) (spec : FormatSpec) :
    (spec.type ≠ SpecType.Generic → spec.type ≠ SpecType.String →
      (format_string out value spec).fails = true ∧
        ∃ e, format_string out value spec = Outcome.thrown e out) ∧
    ((spec.type = SpecType.Generic ∨ spec.type = SpecType.String) →
      spec.sign = Sign.DefaultSign → spec.thoudsandsSeperator = false →
      spec.alternate = false → spec.alignment ≠ Alignment.AfterSign →
      (format_string out value spec).fails = false ∧
        ∃ out1, format_string out value spec = Outcome.ok out1) := by
  constructor
  · intro hg hs
    have key : ∃ e, format_string out value spec = Outcome.thrown e out := by
      unfold format_string
      by_cases h1 : spec.sign = Sign.DefaultSign
      · by_cases h2 : spec.thoudsandsSeperator = true
        · exact ⟨Error.thousands_not_allowed, by simp [h1, h2]⟩
        · by_cases h3 : (spec.alternate && spec.type != SpecType.Character) = true
          · exact ⟨Error.alternate_not_allowed, by simp [h1, h2, h3]⟩
          · refine ⟨Error.invalid_string_type, ?_⟩
            simp only [h1, h2, h3]
            cases hty : spec.type <;> simp_all
      · exact ⟨Error.sign_not_allowed, by simp [h1]⟩
    obtain ⟨e, he⟩ := key
    exact ⟨by rw [he]; rfl, e, he⟩
  · intro hty hsign hthou halt hal
    have key : ∃ out1, format_string out value spec = Outcome.ok out1 := by
      rw [format_string_of_legal out value spec hsign hthou halt hty]
      by_cases hw : 0 < spec.width ∧ strlen value < spec.width
      · rw [if_pos hw]
        cases ha : spec.alignment
        · exact ⟨_, rfl⟩
        · exact ⟨_, rfl⟩
        · exact ⟨_, rfl⟩
        · exact ⟨_, rfl⟩
        · exact absurd ha hal
      · rw [if_neg hw]
        exact ⟨_, rfl⟩
    obtain ⟨o, ho⟩ := key
    exact ⟨by rw [ho]; rfl, o, ho⟩

/-- The string `abc` fails with the type Dec and is written with the type
String (C10). -/
theorem format_string_type_legality_witness :
    ((format_string [] ['a', 'b', 'c'] { type := SpecType.Dec, precision := 6 }).fails = true ∧
        ∃ e, format_string [] ['a', 'b', 'c'] { type := SpecType.Dec, precision := 6 }
          = Outcome.thrown e []) ∧
    ((format_string [] ['a', 'b', 'c']
        { type := SpecType.String, width := 5, precision := 6 }).fails = false ∧
        ∃ out1, format_string [] ['a', 'b', 'c']
          { type := SpecType.String, width := 5, precision := 6 } = Outcome.ok out1) :=
  ⟨(format_string_type_legality [] ['a', 'b', 'c']
      { type := SpecType.Dec, precision := 6 }).1 (by decide) (by decide),
   (format_string_type_legality [] ['a', 'b', 'c']
      { type := SpecType.String, width := 5, precision := 6 }).2
      (Or.inr rfl) rfl rfl rfl (by decide)⟩

/-! ## Numerals written by the stream -/

/-- Reading a digit character gives the digit back. -/
theorem char_digit_digit_char (upper : Bool) (d : Nat) (h : d < 16) :
    char_digit (digit_char upper d) = d := by
  revert upper d
  decide

/-- The digit 0 is the only one written as `0`. -/
theorem digit_char_eq_zero (upper : Bool) (d : Nat) (h : d < 16)
    (h0 : digit_char upper d = '0') : d = 0 := by
  revert upper d
  decide

/-- Reading a text from the left is evaluating its reversal from the right. -/
theorem read_nat_reverse (base : Nat) (l : List Char) :
    read_nat base l.reverse = value_rev base l := by
  unfold read_nat value_rev
  rw [List.foldl_reverse]

/-- The digit extraction yields, with enough fuel, the digits of `n`: valid
digits whose value is `n`, the most significant one not zero unless `n = 0`. -/
theorem digits_rev_spec (base : Nat) (upper : Bool) (hb : 2 ≤ base) (hb16 : base ≤ 16) :
    ∀ (fuel n : Nat), n < fuel →
      digits_rev base upper fuel n ≠ [] ∧
      (∀ c ∈ digits_rev base upper fuel n, ∃ d, d < base ∧ c = digit_char upper d) ∧
      value_rev base (digits_rev base upper fuel n) = n ∧
      ((digits_rev base upper fuel n).getLast? = some '0' →
        digits_rev base upper fuel n = ['0']) := by
  intro fuel
  induction fuel with
  | zero => intro n h; exact absurd h (Nat.not_lt_zero _)
  | succ fuel ih =>
    intro n hn
    have hmod : n % base < base := Nat.mod_lt _ (by omega)
    by_cases hq : n / base = 0
    · have hl : digits_rev base upper (fuel + 1) n = [digit_char upper (n % base)] := by
        simp [digits_rev, hq]
      have hlt : n < base := by
        rcases Nat.lt_or_ge n base with h | h
        · exact h
        · have : 0 < n / base := Nat.div_pos h (by omega)
          omega
      rw [hl]
      refine ⟨by simp, ?_, ?_, ?_⟩
      · intro c hc
        rw [List.mem_singleton] at hc
        exact ⟨n % base, hmod, hc⟩
      · show 0 * base + char_digit (digit_char upper (n % base)) = n
        rw [char_digit_digit_char upper (n % base) (by omega), Nat.mod_eq_of_lt hlt]
        omega
      · intro h
        simp only [List.getLast?_singleton, Option.some.injEq] at h
        rw [h]
    · have hl : digits_rev base upper (fuel + 1) n =
          digit_char upper (n % base) :: digits_rev base upper fuel (n / base) := by
        simp [digits_rev, hq]
      have hdiv : n / base < n := Nat.div_lt_self (by
        rcases Nat.eq_zero_or_pos n with h | h
        · rw [h] at hq; simp at hq
        · exact h) (by omega)
      obtain ⟨hne, hdig, hval, hz⟩ := ih (n / base) (by omega)
      rw [hl]
      refine ⟨by simp, ?_, ?_, ?_⟩
      · intro c hc
        rw [List.mem_cons] at hc
        rcases hc with rfl | hc
        · exact ⟨n % base, hmod, rfl⟩
        · exact hdig c hc
      · have hv : value_rev base (digit_char upper (n % base) ::
            digits_rev base upper fuel (n / base)) =
            value_rev base (digits_rev base upper fuel (n / base)) * base +
              char_digit (digit_char upper (n % base)) := rfl
        rw [hv, hval, char_digit_digit_char upper (n % base) (by omega)]
        have := Nat.div_add_mod n base
        rw [Nat.mul_comm] at this
        exact this
      · intro h
        exfalso
        obtain ⟨c, cs, hcs⟩ := List.exists_cons_of_ne_nil hne
        rw [hcs, List.getLast?_cons_cons, ← hcs] at h
        have h1 := hz h
        rw [h1] at hval
        have : value_rev base ['0'] = 0 := by simp [value_rev, char_digit]
        rw [this] at hval
        exact hq hval.symm

/-- Without grouping, `buffer << abs` writes the numeral of `abs` in the base
of the stream (`2 ≤ base ≤ 16`), in the letter case of the `uppercase` flag. -/
theorem put_unsigned_numeral (base : Nat) (upper : Bool) (hb : 2 ≤ base) (hb16 : base ≤ 16)
    (n : Nat) : Numeral base upper (put_unsigned base upper false n) n := by
  obtain ⟨hne, hdig, hval, hz⟩ := digits_rev_spec base upper hb hb16 (n + 1) n (by omega)
  have hp : put_unsigned base upper false n = (digits_rev base upper (n + 1) n).reverse := by
    simp [put_unsigned]
  rw [hp]
  refine ⟨by simpa using hne, ?_, ?_, ?_⟩
  · intro c hc
    exact hdig c (List.mem_reverse.mp hc)
  · intro h
    rw [List.head?_reverse] at h
    rw [hz h]
    rfl
  · rw [read_nat_reverse]
    exact hval

/-! ## The padding code -/

/-- Writing a whole buffer appends it. -/
theorem write_all (out l : List Char) : write out l l.length = out ++ l := by
  simp [write]

/-- The padding code without padding: the prefix, then the number. -/
theorem write_number_of_le (out : Sink) (spec : FormatSpec) (pfx num : List Char)
    (h : spec.width ≤ pfx.length + num.length) :
    write_number out spec pfx num = out ++ pfx ++ num := by
  simp only [write_number, write_all,
    if_neg (show ¬ pfx.length + num.length < spec.width by omega)]

/-- The padding code with padding, alignment by alignment. -/
theorem write_number_of_lt (out : Sink) (spec : FormatSpec) (pfx num : List Char)
    (h : pfx.length + num.length < spec.width) :
    write_number out spec pfx num =
      match spec.alignment with
      | Alignment.Left =>
        out ++ pfx ++ num ++ List.replicate (spec.width - (pfx.length + num.length)) spec.fill
      | Alignment.Right =>
        out ++ List.replicate (spec.width - (pfx.length + num.length)) spec.fill ++ pfx ++ num
      | Alignment.Center =>
        out ++ List.replicate ((spec.width - (pfx.length + num.length)) / 2) spec.fill
          ++ pfx ++ num
          ++ List.replicate (spec.width - (pfx.length + num.length)
              - (spec.width - (pfx.length + num.length)) / 2) spec.fill
      | Alignment.AfterSign | Alignment.DefaultAlignment =>
        out ++ pfx ++ List.replicate (spec.width - (pfx.length + num.length)) spec.fill
          ++ num := by
  unfold write_number
  simp only [write_all, fill]
  rw [if_pos h]

/-- The padding code writes `max width (content length)` characters. -/
theorem write_number_length (out : Sink) (spec : FormatSpec) (pfx num : List Char) :
    (write_number out spec pfx num).length =
      out.length + max spec.width (pfx.length + num.length) := by
  rcases Nat.lt_or_ge (pfx.length + num.length) spec.width with h | h
  · rw [write_number_of_lt out spec pfx num h]
    cases spec.alignment <;> simp only [List.length_append, List.length_replicate] <;> omega
  · rw [write_number_of_le out spec pfx num h]
    simp only [List.length_append]
    omega

/-! ## The magnitude and the binary digits -/

/-- The magnitude fits the unsigned type. -/
theorem magnitude_lt (T : IntType) (v : Int) : magnitude T v < 2 ^ T.bits := by
  unfold magnitude to_unsigned
  have hpos : (0 : Int) < 2 ^ T.bits := by positivity
  have h1 := Int.emod_lt_of_pos (if v < 0 then -v else v) hpos
  have h2 := Int.emod_nonneg (if v < 0 then -v else v) (ne_of_gt hpos)
  zify
  rw [Int.toNat_of_nonneg h2]
  exact_mod_cast h1

/-- The magnitude of a value of the type is its absolute value, the most
negative value of a signed type included. -/
theorem magnitude_eq_natAbs (T : IntType) (v : Int) (hbits : 0 < T.bits)
    (h : T.in_range v) : magnitude T v = v.natAbs := by
  have hpow : (2 : Int) ^ T.bits = 2 * 2 ^ (T.bits - 1) := by
    rw [← pow_succ']
    congr 1
    omega
  have hpos : (0 : Int) < 2 ^ (T.bits - 1) := by positivity
  have hr : -(2 : Int) ^ T.bits < v ∧ v < 2 ^ T.bits := by
    unfold IntType.in_range at h
    split at h <;> omega
  unfold magnitude to_unsigned
  split
  · rw [Int.emod_eq_of_lt (by omega) (by omega)]
    omega
  · rw [Int.emod_eq_of_lt (by omega) (by omega)]
    omega

/-- The mask of line 113 is the top bit of the unsigned type when the type
has at most 32 bits. -/
theorem initial_bit_narrow (bits : Nat) (h0 : 0 < bits) (h32 : bits ≤ 32) :
    initial_bit bits = 2 ^ (bits - 1) := by
  interval_cases bits <;> decide

/-- Masking with a power of two tests one bit. -/
theorem and_two_pow_eq_zero (abs k : Nat) : abs &&& 2 ^ k = 0 ↔ abs.testBit k = false := by
  rw [Nat.and_two_pow]
  cases abs.testBit k <;> simp

/-- A number below `2 ^ (k + 1)` whose bit `k` is clear is below `2 ^ k`. -/
theorem lt_two_pow_of_testBit_false (abs k : Nat) (h : abs < 2 ^ (k + 1))
    (hb : abs.testBit k = false) : abs < 2 ^ k := by
  rw [Nat.testBit_to_div_mod] at hb
  have hb1 : abs / 2 ^ k % 2 = 0 := by
    have := Nat.mod_two_eq_zero_or_one (abs / 2 ^ k)
    simp at hb
    omega
  have h1 := Nat.mod_pow_succ (x := abs) (b := 2) (k := k)
  rw [Nat.mod_eq_of_lt h, hb1] at h1
  have h2 : abs % 2 ^ k < 2 ^ k := Nat.mod_lt _ (by positivity)
  omega

/-- The loop of line 114, started at a power of two above the highest set bit
of a non-zero `abs`, ends at the highest set bit. -/
theorem skip_clear_bits_spec (abs : Nat) (habs : abs ≠ 0) :
    ∀ (k fuel : Nat), abs < 2 ^ (k + 1) → k < fuel →
      skip_clear_bits abs fuel (2 ^ k) = some (2 ^ Nat.log2 abs) := by
  intro k
  induction k with
  | zero =>
    intro fuel h hf
    obtain ⟨f, rfl⟩ : ∃ f, fuel = f + 1 := ⟨fuel - 1, by omega⟩
    have h1 : abs = 1 := by omega
    subst h1
    simp [skip_clear_bits, Nat.log2]
  | succ k ih =>
    intro fuel h hf
    obtain ⟨f, rfl⟩ : ∃ f, fuel = f + 1 := ⟨fuel - 1, by omega⟩
    unfold skip_clear_bits
    by_cases hb : abs.testBit (k + 1) = false
    · rw [if_pos ((and_two_pow_eq_zero abs (k + 1)).mpr hb)]
      have hs : 2 ^ (k + 1) >>> 1 = 2 ^ k := by
        rw [Nat.shiftRight_eq_div_pow, pow_succ]
        simp
      rw [hs]
      exact ih f (lt_two_pow_of_testBit_false abs (k + 1) h hb) (by omega)
    · rw [if_neg (fun h0 => hb ((and_two_pow_eq_zero abs (k + 1)).mp h0))]
      have hge : 2 ^ (k + 1) ≤ abs := Nat.testBit_implies_ge (by simpa using hb)
      have h1 : k + 1 ≤ Nat.log2 abs := (Nat.le_log2 habs).mpr hge
      have h2 : Nat.log2 abs < k + 2 := (Nat.log2_lt habs).mpr h
      have h3 : Nat.log2 abs = k + 1 := by omega
      rw [h3]

/-- The loop of line 118 writes nothing once the mask is 0. -/
theorem put_bits_zero (abs fuel : Nat) : put_bits abs fuel 0 = [] := by
  cases fuel <;> simp [put_bits]

/-- One round of the loop of line 118 at a power of two. -/
theorem put_bits_two_pow (abs fuel k : Nat) :
    put_bits abs (fuel + 1) (2 ^ k) =
      (if abs.testBit k then '1' else '0') :: put_bits abs fuel (2 ^ k / 2) := by
  have hne : (2 : Nat) ^ k ≠ 0 := by positivity
  have hs : 2 ^ k >>> 1 = 2 ^ k / 2 := by
    rw [Nat.shiftRight_eq_div_pow, pow_one]
  rw [put_bits, if_neg hne, hs]
  congr 1
  cases hb : abs.testBit k
  · simp [(and_two_pow_eq_zero abs k).mpr hb]
  · have : abs &&& 2 ^ k ≠ 0 := fun h0 => by
      rw [(and_two_pow_eq_zero abs k).mp h0] at hb
      exact Bool.noConfusion hb
    simp [this]

/-- The loop of line 118, started at the mask `2 ^ k`, writes the bits `k`
down to 0 of `abs`: `k + 1` binary digits, the first one being bit `k`, that
extend a number read so far by `abs % 2 ^ (k + 1)`. -/
theorem put_bits_spec (abs : Nat) :
    ∀ (k fuel : Nat), k < fuel →
      (put_bits abs fuel (2 ^ k)).length = k + 1 ∧
      (∀ c ∈ put_bits abs fuel (2 ^ k), c = '0' ∨ c = '1') ∧
      (put_bits abs fuel (2 ^ k)).head? = some (if abs.testBit k then '1' else '0') ∧
      ∀ acc, (put_bits abs fuel (2 ^ k)).foldl (fun a c => a * 2 + char_digit c) acc
        = acc * 2 ^ (k + 1) + abs % 2 ^ (k + 1) := by
  intro k
  induction k with
  | zero =>
    intro fuel hf
    obtain ⟨f, rfl⟩ : ∃ f, fuel = f + 1 := ⟨fuel - 1, by omega⟩
    rw [put_bits_two_pow]
    have h1 : (2 : Nat) ^ 0 / 2 = 0 := by norm_num
    rw [h1, put_bits_zero]
    refine ⟨rfl, ?_, rfl, ?_⟩
    · intro c hc
      rw [List.mem_singleton] at hc
      rw [hc]
      cases abs.testBit 0 <;> simp
    · intro acc
      rw [Nat.testBit_to_div_mod]
      have := Nat.mod_two_eq_zero_or_one abs
      rcases this with h | h
      · simp [h, char_digit]
      · simp [h, char_digit]
  | succ k ih =>
    intro fuel hf
    obtain ⟨f, rfl⟩ : ∃ f, fuel = f + 1 := ⟨fuel - 1, by omega⟩
    rw [put_bits_two_pow]
    have h1 : (2 : Nat) ^ (k + 1) / 2 = 2 ^ k := by
      rw [pow_succ]
      simp
    rw [h1]
    obtain ⟨hlen, hdig, _, hval⟩ := ih f (by omega)
    refine ⟨by simp [hlen], ?_, rfl, ?_⟩
    · intro c hc
      rw [List.mem_cons] at hc
      rcases hc with rfl | hc
      · cases abs.testBit (k + 1) <;> simp
      · exact hdig c hc
    · intro acc
      rw [List.foldl_cons, hval]
      have h2 := Nat.mod_pow_succ (x := abs) (b := 2) (k := k + 1)
      rw [h2, Nat.testBit_to_div_mod]
      have := Nat.mod_two_eq_zero_or_one (abs / 2 ^ (k + 1))
      rcases this with h | h
      · simp [h, char_digit]
        ring
      · simp [h, char_digit]
        ring

/-- The highest set bit of a non-zero number is set. -/
theorem testBit_log2 (abs : Nat) (h : abs ≠ 0) : abs.testBit (Nat.log2 abs) = true := by
  have h1 : 2 ^ Nat.log2 abs ≤ abs := Nat.log2_self_le h
  have h2 : abs < 2 ^ (Nat.log2 abs + 1) := Nat.lt_log2_self
  rw [Nat.testBit_to_div_mod]
  have hd : abs / 2 ^ Nat.log2 abs = 1 := by
    apply Nat.div_eq_of_lt_le
    · simpa using h1
    · rw [pow_succ] at h2
      omega
  simp [hd]

/-- The binary digits of `format_integer` on a type of at most 32 bits: for a
non-zero magnitude the numeral in base 2, which starts with `1` and has
`log2 abs + 1` digits. -/
theorem integer_digits_bin (T : IntType) (abs : Nat) (spec : FormatSpec)
    (hty : spec.type = SpecType.Bin) (hb0 : 0 < T.bits) (hb32 : T.bits ≤ 32)
    (habs : abs < 2 ^ T.bits) (h0 : abs ≠ 0) :
    ∃ body, integer_digits T abs spec = some body ∧ body.head? = some '1' ∧
      body.length = Nat.log2 abs + 1 ∧ Numeral 2 false body abs := by
  have hfuel : Nat.log2 abs < 2 ^ Nat.log2 abs := Nat.lt_two_pow _
  obtain ⟨hlen, hdig, hhead, hval⟩ := put_bits_spec abs (Nat.log2 abs) (2 ^ Nat.log2 abs) hfuel
  rw [testBit_log2 abs h0] at hhead
  refine ⟨put_bits abs (2 ^ Nat.log2 abs) (2 ^ Nat.log2 abs), ?_, hhead, hlen, ?_⟩
  · unfold integer_digits
    simp only [hty, if_neg h0, initial_bit_narrow T.bits hb0 hb32,
      skip_clear_bits_spec abs h0 (T.bits - 1) (T.bits + 1)
        (by rw [Nat.sub_add_cancel hb0]; exact habs) (by omega)]
  · refine ⟨?_, ?_, ?_, ?_⟩
    · intro hnil
      rw [hnil] at hlen
      simp at hlen
    · intro c hc
      rcases hdig c hc with rfl | rfl
      · exact ⟨0, by omega, rfl⟩
      · exact ⟨1, by omega, rfl⟩
    · intro hz
      rw [hhead] at hz
      exact absurd hz (by decide)
    · unfold read_nat
      rw [hval 0, Nat.mod_eq_of_lt Nat.lt_log2_self]
      simp

/-! ### The fuel of the loops

The three loops of the embedding stop by themselves before their fuel runs
out, or never: more fuel does not change what they compute. -/

/-- The digit extraction does not depend on the fuel once it exceeds `n`. -/
theorem digits_rev_fuel (base : Nat) (upper : Bool) (hb : 2 ≤ base) :
    ∀ (fuel fuel1 n : Nat), n < fuel → n < fuel1 →
      digits_rev base upper fuel n = digits_rev base upper fuel1 n := by
  intro fuel
  induction fuel with
  | zero => intro fuel1 n h; exact absurd h (Nat.not_lt_zero _)
  | succ fuel ih =>
    intro fuel1 n h h1
    obtain ⟨f1, rfl⟩ : ∃ f, fuel1 = f + 1 := ⟨fuel1 - 1, by omega⟩
    unfold digits_rev
    by_cases hq : n / base = 0
    · simp [hq]
    · have hdiv : n / base < n := Nat.div_lt_self (by
        rcases Nat.eq_zero_or_pos n with h0 | h0
        · rw [h0] at hq; simp at hq
        · exact h0) (by omega)
      simp only [hq, if_false]
      rw [ih f1 (n / base) (by omega) (by omega)]

/-- The loop of line 118 does not depend on the fuel once it reaches the mask. -/
theorem put_bits_fuel (abs : Nat) :
    ∀ (fuel fuel1 bit : Nat), bit ≤ fuel → bit ≤ fuel1 →
      put_bits abs fuel bit = put_bits abs fuel1 bit := by
  intro fuel
  induction fuel with
  | zero =>
    intro fuel1 bit h _
    have : bit = 0 := by omega
    subst this
    rw [put_bits_zero, put_bits_zero]
  | succ fuel ih =>
    intro fuel1 bit h h1
    by_cases hb : bit = 0
    · subst hb
      rw [put_bits_zero, put_bits_zero]
    · obtain ⟨f1, rfl⟩ : ∃ f, fuel1 = f + 1 := ⟨fuel1 - 1, by omega⟩
      have hs : bit >>> 1 < bit := by
        rw [Nat.shiftRight_eq_div_pow]
        exact Nat.div_lt_self (by omega) (by norm_num)
      unfold put_bits
      simp only [hb, if_false]
      rw [ih f1 (bit >>> 1) (by omega) (by omega)]

/-- The loop of line 114 never ends once the mask is 0. -/
theorem skip_clear_bits_zero (abs fuel : Nat) : skip_clear_bits abs fuel 0 = none := by
  induction fuel with
  | zero => rfl
  | succ fuel ih => simp [skip_clear_bits, ih]

/-- A mask found by the loop of line 114 is found with any larger fuel. -/
theorem skip_clear_bits_mono (abs : Nat) :
    ∀ (fuel fuel1 bit b : Nat), fuel ≤ fuel1 → skip_clear_bits abs fuel bit = some b →
      skip_clear_bits abs fuel1 bit = some b := by
  intro fuel
  induction fuel with
  | zero => intro fuel1 bit b _ h; simp [skip_clear_bits] at h
  | succ fuel ih =>
    intro fuel1 bit b hle h
    obtain ⟨f1, rfl⟩ : ∃ f, fuel1 = f + 1 := ⟨fuel1 - 1, by omega⟩
    unfold skip_clear_bits at h ⊢
    by_cases hz : abs &&& bit = 0
    · rw [if_pos hz] at h ⊢
      exact ih f1 (bit >>> 1) b (by omega) h
    · rw [if_neg hz] at h ⊢
      exact h

/-- For a mask below `2 ^ n`, the loop of line 114 that has not ended after
`n + 1` tests never ends. -/
theorem skip_clear_bits_none (abs : Nat) :
    ∀ (n bit : Nat), bit < 2 ^ n → skip_clear_bits abs (n + 1) bit = none →
      ∀ fuel, skip_clear_bits abs fuel bit = none := by
  intro n
  induction n with
  | zero =>
    intro bit hb _ fuel
    have : bit = 0 := by simpa using hb
    subst this
    exact skip_clear_bits_zero abs fuel
  | succ n ih =>
    intro bit hb h fuel
    unfold skip_clear_bits at h
    by_cases hz : abs &&& bit = 0
    · rw [if_pos hz] at h
      have hs : bit >>> 1 < 2 ^ n := by
        rw [Nat.shiftRight_eq_div_pow, pow_one]
        rw [pow_succ] at hb
        omega
      cases fuel with
      | zero => rfl
      | succ f =>
        unfold skip_clear_bits
        rw [if_pos hz]
        exact ih (bit >>> 1) hs h f
    · rw [if_neg hz] at h
      exact Option.noConfusion h

/-- The mask of line 113 fits the unsigned type. -/
theorem initial_bit_lt (bits : Nat) : initial_bit bits < 2 ^ bits := by
  unfold initial_bit to_unsigned
  have hpos : (0 : Int) < 2 ^ bits := by positivity
  have h1 := Int.emod_lt_of_pos (wrap_int (2 ^ (bits - 1))) hpos
  have h2 := Int.emod_nonneg (wrap_int (2 ^ (bits - 1))) (ne_of_gt hpos)
  zify
  rw [Int.toNat_of_nonneg h2]
  exact_mod_cast h1

/-- The buffered number exists whenever the shift of line 113 stays inside an
`int`: for every presentation type but Bin, and for Bin on the integer types
of at most 32 bits. -/
theorem integer_digits_returns (T : IntType) (abs : Nat) (spec : FormatSpec)
    (habs : abs < 2 ^ T.bits)
    (hbin : spec.type = SpecType.Bin → 0 < T.bits ∧ T.bits ≤ 32) :
    ∃ num, integer_digits T abs spec = some num := by
  unfold integer_digits
  cases hty : spec.type
  case Bin =>
    by_cases h0 : abs = 0
    · exact ⟨['0'], by simp [h0]⟩
    · obtain ⟨hb0, hb32⟩ := hbin hty
      simp only [if_neg h0, initial_bit_narrow T.bits hb0 hb32,
        skip_clear_bits_spec abs h0 (T.bits - 1) (T.bits + 1)
          (by rw [Nat.sub_add_cancel hb0]; exact habs) (by omega)]
      exact ⟨_, rfl⟩
  all_goals exact ⟨_, rfl⟩

/-- The function `format_integer` on a presentation type that is neither
Character nor floating: the sign, the base prefix and the buffered number go
through the padding code. -/
theorem format_integer_eq {F : Type} (E : FloatEnv F) (T : IntType) (out : Sink) (v : Int)
    (spec : FormatSpec) (htype : spec.type ≠ SpecType.Character)
    (hdec : spec.isDecimalType = false)
    (hbin : spec.type = SpecType.Bin → 0 < T.bits ∧ T.bits ≤ 32) :
    ∃ num, integer_digits T (magnitude T v) spec = some num ∧
      format_integer E T out v spec =
        Outcome.ok (write_number out spec
          (sign_text spec.sign (decide (v < 0)) ++ base_text spec) num) := by
  obtain ⟨num, hnum⟩ := integer_digits_returns T (magnitude T v) spec (magnitude_lt T v) hbin
  refine ⟨num, hnum, ?_⟩
  unfold format_integer
  simp only [htype, hdec, if_false, hnum, Bool.false_eq_true]

/-- The magnitude of the value 0 is 0 in every type. -/
theorem magnitude_zero (T : IntType) : magnitude T 0 = 0 := by
  simp [magnitude, to_unsigned]

/-- The buffered number exists for the magnitude 0 in every type as well: the
test `abs == 0` of line 109 comes before the shift of line 113. -/
theorem integer_digits_returns_or_zero (T : IntType) (abs : Nat) (spec : FormatSpec)
    (habs : abs < 2 ^ T.bits)
    (hbin : spec.type = SpecType.Bin → T.bits ≤ 32 ∨ abs = 0) :
    ∃ num, integer_digits T abs spec = some num := by
  by_cases h0 : abs = 0
  · subst h0
    unfold integer_digits
    cases spec.type <;> exact ⟨_, rfl⟩
  · apply integer_digits_returns T abs spec habs
    intro hb
    rcases hbin hb with h | h
    · refine ⟨?_, h⟩
      rcases Nat.eq_zero_or_pos T.bits with hz | hz
      · rw [hz] at habs
        exact absurd (by omega) h0
      · exact hz
    · exact absurd h h0

/-- The function `format_integer` on a presentation type that is neither
Character nor floating, for the type Bin on an integer type of at most 32 bits
or on the value 0. -/
theorem format_integer_eq_or_zero {F : Type} (E : FloatEnv F) (T : IntType) (out : Sink)
    (v : Int) (spec : FormatSpec) (htype : spec.type ≠ SpecType.Character)
    (hdec : spec.isDecimalType = false)
    (hbin : spec.type = SpecType.Bin → T.bits ≤ 32 ∨ v = 0) :
    ∃ num, integer_digits T (magnitude T v) spec = some num ∧
      format_integer E T out v spec =
        Outcome.ok (write_number out spec
          (sign_text spec.sign (decide (v < 0)) ++ base_text spec) num) := by
  obtain ⟨num, hnum⟩ := integer_digits_returns_or_zero T (magnitude T v) spec
    (magnitude_lt T v) (fun hb => by
      rcases hbin hb with h | h
      · exact Or.inl h
      · exact Or.inr (by rw [h]; exact magnitude_zero T))
  refine ⟨num, hnum, ?_⟩
  unfold format_integer
  simp only [htype, hdec, if_false, hnum, Bool.false_eq_true]

/-- With a floating presentation type `format_integer` is the call of
`format_float` of line 67. -/
theorem format_integer_decimal_eq {F : Type} (E : FloatEnv F) (T : IntType) (out : Sink)
    (v : Int) (spec : FormatSpec) (hdec : spec.isDecimalType = true) :
    format_integer E T out v spec = format_float E out (E.of_int v) spec := by
  have hnc : spec.type ≠ SpecType.Character := by
    intro hc
    simp [FormatSpec.isDecimalType, hc] at hdec
  unfold format_integer
  rw [if_neg hnc, if_pos hdec]

/-- With the Default alignment `format_integer` on a presentation type other
than Character does what it does with the alignment AfterSign: the two labels
share the branch of lines 178-183, and of lines 298-303 in `format_float`. -/
theorem format_integer_default_eq_after_sign {F : Type} (E : FloatEnv F) (T : IntType)
    (out : Sink) (v : Int) (spec : FormatSpec) (htype : spec.type ≠ SpecType.Character)
    (halign : spec.alignment = Alignment.DefaultAlignment) :
    format_integer E T out v spec
      = format_integer E T out v { spec with alignment := Alignment.AfterSign } := by
  have hwn : ∀ pfx num, write_number out spec pfx num
      = write_number out { spec with alignment := Alignment.AfterSign } pfx num := by
    intro pfx num
    simp only [write_number, halign]
  unfold format_integer
  simp only [htype, if_false]
  by_cases hdec : spec.isDecimalType = true
  · have hdec1 : FormatSpec.isDecimalType { spec with alignment := Alignment.AfterSign }
        = true := hdec
    simp only [hdec, hdec1, if_true]
    unfold format_float
    have hd : float_digits E (if E.signbit (E.of_int v) then E.neg (E.of_int v)
          else E.of_int v) { spec with alignment := Alignment.AfterSign }
        = float_digits E (if E.signbit (E.of_int v) then E.neg (E.of_int v)
          else E.of_int v) spec := rfl
    simp only [hdec, hdec1, hd, ← hwn]
  · have hdec0 : spec.isDecimalType = false := by simpa using hdec
    have hdec1 : FormatSpec.isDecimalType { spec with alignment := Alignment.AfterSign }
        = false := hdec0
    have hd : integer_digits T (magnitude T v) { spec with alignment := Alignment.AfterSign }
        = integer_digits T (magnitude T v) spec := rfl
    have hb : base_text { spec with alignment := Alignment.AfterSign } = base_text spec := rfl
    simp only [hdec0, hdec1, hd, hb, Bool.false_eq_true, if_false]
    cases integer_digits T (magnitude T v) spec with
    | none => rfl
    | some num => simp only [← hwn]

/-! ## Integers: canonical text, sign and padding after the sign -/

/-- No digit is written as the minus sign. -/
theorem digit_char_ne_minus (upper : Bool) (d : Nat) (h : d < 16) :
    digit_char upper d ≠ '-' := by
  revert upper d
  decide

/-- C1: for every `int` value `x`, the most negative one included, the
rendering with the type Generic or Dec, the default sign policy, no thousands
separator and the width 0 writes a `-` exactly when `x < 0`, followed by the
decimal numeral of `|x|` (digits `0`-`9`, no leading zero); reading the text
back as a decimal integer gives `x`. -/
theorem format_integer_canonical_decimal {F : Type} (E : FloatEnv F) (out : Sink) (x : Int)
    (spec : FormatSpec) (hx : int.in_range x)
    (htype : spec.type = SpecType.Generic ∨ spec.type = SpecType.Dec)
    (hsign : spec.sign = Sign.DefaultSign) (hthou : spec.thoudsandsSeperator = false)
    (hwidth : spec.width = 0) :
    ∃ ds, format_integer E int out x spec
        = Outcome.ok (out ++ (if x < 0 then ['-'] else []) ++ ds) ∧
      Numeral 10 false ds x.natAbs ∧
      read_int ((if x < 0 then ['-'] else []) ++ ds) = x := by
  have hnum : Numeral 10 false (put_unsigned 10 false false x.natAbs) x.natAbs :=
    put_unsigned_numeral 10 false (by omega) (by omega) x.natAbs
  have hmag : magnitude int x = x.natAbs := magnitude_eq_natAbs int x (by decide) hx
  have hdig : integer_digits int (magnitude int x) spec
      = some (put_unsigned 10 false false x.natAbs) := by
    unfold integer_digits
    rcases htype with h | h <;> simp [h, hthou, hmag]
  have hnc : spec.type ≠ SpecType.Character := by
    rcases htype with h | h <;> simp [h]
  have hdec : spec.isDecimalType = false := by
    unfold FormatSpec.isDecimalType
    rcases htype with h | h <;> simp [h]
  have hbase : base_text spec = [] := by
    unfold base_text
    rcases htype with h | h <;> simp [h]
  refine ⟨put_unsigned 10 false false x.natAbs, ?_, hnum, ?_⟩
  · unfold format_integer
    simp only [hnc, hdec, if_false, hdig, Bool.false_eq_true]
    rw [write_number_of_le _ _ _ _ (by omega), hbase, hsign]
    by_cases hneg : x < 0 <;> simp [sign_text, hneg]
  · by_cases hneg : x < 0
    · simp only [hneg, if_true, List.singleton_append, read_int]
      rw [hnum.value]
      omega
    · obtain ⟨c, cs, hcs⟩ := List.exists_cons_of_ne_nil hnum.nonempty
      obtain ⟨d, hd, hc⟩ := hnum.digits c (by rw [hcs]; exact List.mem_cons_self _ _)
      have hcm : c ≠ '-' := by
        rw [hc]
        exact digit_char_ne_minus false d (by omega)
      have hv := hnum.value
      rw [hcs] at hv
      simp only [hneg, if_false, List.nil_append, hcs, read_int, hcm, hv]
      omega

/-- The value 1234 is written as `1234`, the most negative `int` as
`-2147483648` (C1). -/
theorem format_integer_canonical_decimal_witness :
    (∃ ds, format_integer Dyadic.env int [] 1234 { precision := 6 }
        = Outcome.ok ([] ++ (if (1234 : Int) < 0 then ['-'] else []) ++ ds) ∧
      Numeral 10 false ds (1234 : Int).natAbs ∧
      read_int ((if (1234 : Int) < 0 then ['-'] else []) ++ ds) = 1234) ∧
    format_integer Dyadic.env int [] 1234 { precision := 6 }
      = Outcome.ok ['1', '2', '3', '4'] ∧
    format_integer Dyadic.env int [] (-2147483648) { precision := 6 }
      = Outcome.ok ['-', '2', '1', '4', '7', '4', '8', '3', '6', '4', '8'] :=
  ⟨format_integer_canonical_decimal Dyadic.env [] 1234 { precision := 6 }
      (by decide) (Or.inl rfl) rfl rfl rfl,
    by decide, by decide⟩

/-- The sign rule where the loop of line 114 ends: for a presentation type
that is neither Character nor floating, and for Bin on a type of at most 32
bits or on the value 0, the sign written by `format_integer` depends on the
sign policy and on the sign of the value only: `-` for every negative value;
for a value that is zero or positive `+` under Always, a space under
SpaceForPositive and nothing under NegativeOnly and the default policy. The
sign is the start of the prefix that the padding code receives, so it is
written in front of the base prefix and the digits. -/
theorem format_integer_sign {F : Type} (E : FloatEnv F) (T : IntType) (out : Sink)
    (v : Int) (spec : FormatSpec) (htype : spec.type ≠ SpecType.Character)
    (hdec : spec.isDecimalType = false)
    (hbin : spec.type = SpecType.Bin → T.bits ≤ 32 ∨ v = 0) :
    ∃ num, integer_digits T (magnitude T v) spec = some num ∧
      format_integer E T out v spec =
        Outcome.ok (write_number out spec
          ((if v < 0 then ['-']
            else match spec.sign with
              | Sign.Always => ['+']
              | Sign.SpaceForPositive => [' ']
              | Sign.NegativeOnly => []
              | Sign.DefaultSign => []) ++ base_text spec) num) ∧
      (spec.width = 0 →
        format_integer E T out v spec =
          Outcome.ok (out ++ (if v < 0 then ['-']
            else match spec.sign with
              | Sign.Always => ['+']
              | Sign.SpaceForPositive => [' ']
              | Sign.NegativeOnly => []
              | Sign.DefaultSign => []) ++ base_text spec ++ num)) := by
  obtain ⟨num, hnum, h⟩ := format_integer_eq_or_zero E T out v spec htype hdec hbin
  have hs : sign_text spec.sign (decide (v < 0)) =
      (if v < 0 then ['-']
        else match spec.sign with
          | Sign.Always => ['+']
          | Sign.SpaceForPositive => [' ']
          | Sign.NegativeOnly => []
          | Sign.DefaultSign => []) := by
    unfold sign_text
    by_cases hneg : v < 0 <;> cases spec.sign <;> simp [hneg]
  rw [hs] at h
  refine ⟨num, hnum, h, ?_⟩
  intro hw
  rw [h, write_number_of_le _ _ _ _ (by omega)]
  simp only [List.append_assoc]

/-- The value 5 with `+d` gives `+5` and the value -5 with `+d` gives `-5`. -/
theorem format_integer_sign_witness :
    format_integer Dyadic.env int [] 5
        { sign := Sign.Always, type := SpecType.Dec, precision := 6 }
      = Outcome.ok ['+', '5'] ∧
    format_integer Dyadic.env int [] (-5)
        { sign := Sign.Always, type := SpecType.Dec, precision := 6 }
      = Outcome.ok ['-', '5'] := by
  obtain ⟨n1, hn1, _, h1⟩ := format_integer_sign Dyadic.env int [] 5
    { sign := Sign.Always, type := SpecType.Dec, precision := 6 }
    (by decide) (by decide) (by decide)
  obtain ⟨n2, hn2, _, h2⟩ := format_integer_sign Dyadic.env int [] (-5)
    { sign := Sign.Always, type := SpecType.Dec, precision := 6 }
    (by decide) (by decide) (by decide)
  have e1 : n1 = ['5'] := (Option.some.inj hn1).symm
  have e2 : n2 = ['5'] := (Option.some.inj hn2).symm
  subst e1 e2
  exact ⟨h1 rfl, h2 rfl⟩

/-- C2, evaluated on the code: the sign of a `long` rendered with the type Bin
is never written. The mask of line 113 is computed in `int` and is 0 for a
type of 64 bits, so the loop of line 114 never ends on a magnitude other than
0: the `long` values -5 and 5 with the sign policy Always and the type Bin give
no output, where the same values as `int` give `-101` and `+101` and the same
`long` values with the type Dec give `-5` and `+5`. -/
theorem sign_bin_wide_diverges :
    format_integer Dyadic.env long [] (-5)
        { sign := Sign.Always, type := SpecType.Bin, precision := 6 }
      = Outcome.diverges ∧
    format_integer Dyadic.env long [] 5
        { sign := Sign.Always, type := SpecType.Bin, precision := 6 }
      = Outcome.diverges ∧
    format_integer Dyadic.env int [] (-5)
        { sign := Sign.Always, type := SpecType.Bin, precision := 6 }
      = Outcome.ok ['-', '1', '0', '1'] ∧
    format_integer Dyadic.env int [] 5
        { sign := Sign.Always, type := SpecType.Bin, precision := 6 }
      = Outcome.ok ['+', '1', '0', '1'] ∧
    format_integer Dyadic.env long [] (-5)
        { sign := Sign.Always, type := SpecType.Dec, precision := 6 }
      = Outcome.ok ['-', '5'] ∧
    format_integer Dyadic.env long [] 5
        { sign := Sign.Always, type := SpecType.Dec, precision := 6 }
      = Outcome.ok ['+', '5'] := by
  decide

/-- The padding after the sign where the loop of line 114 ends (for Bin: on a
type of at most 32 bits or on the value 0): with the alignment AfterSign and a width `w` above the content length `n` (the sign
and base prefix plus the digits), `format_integer` writes the prefix, then
`w - n` fill characters, then the digits, `w` characters in all. -/
theorem format_integer_after_sign {F : Type} (E : FloatEnv F) (T : IntType) (out : Sink)
    (v : Int) (spec : FormatSpec) (htype : spec.type ≠ SpecType.Character)
    (hdec : spec.isDecimalType = false)
    (hbin : spec.type = SpecType.Bin → T.bits ≤ 32 ∨ v = 0)
    (halign : spec.alignment = Alignment.AfterSign) :
    ∃ num, integer_digits T (magnitude T v) spec = some num ∧
      ((sign_text spec.sign (decide (v < 0)) ++ base_text spec).length + num.length
          < spec.width →
        format_integer E T out v spec =
          Outcome.ok (out ++ (sign_text spec.sign (decide (v < 0)) ++ base_text spec)
            ++ List.replicate (spec.width
                - ((sign_text spec.sign (decide (v < 0)) ++ base_text spec).length
                  + num.length)) spec.fill
            ++ num) ∧
        ((sign_text spec.sign (decide (v < 0)) ++ base_text spec)
            ++ List.replicate (spec.width
                - ((sign_text spec.sign (decide (v < 0)) ++ base_text spec).length
                  + num.length)) spec.fill
            ++ num).length = spec.width) := by
  obtain ⟨num, hnum, h⟩ := format_integer_eq_or_zero E T out v spec htype hdec hbin
  refine ⟨num, hnum, ?_⟩
  intro hw
  constructor
  · rw [h, write_number_of_lt _ _ _ _ hw, halign]
  · simp only [List.length_append, List.length_replicate] at hw ⊢
    omega

/-- The `int` 1234 with alternate form, fill `0`, width 20 and type Bin gives
`0b`, 7 zeros and the 11 digits `10011010010`; the value -42 with fill `0` and
width 5 gives `-0042`. -/
theorem format_integer_after_sign_witness :
    format_integer Dyadic.env int [] 1234
        { alternate := true, fill := '0', width := 20, type := SpecType.Bin,
          alignment := Alignment.AfterSign, precision := 6 }
      = Outcome.ok (['0', 'b'] ++ List.replicate 7 '0'
          ++ ['1', '0', '0', '1', '1', '0', '1', '0', '0', '1', '0']) ∧
    format_integer Dyadic.env int [] (-42)
        { fill := '0', width := 5, alignment := Alignment.AfterSign, precision := 6 }
      = Outcome.ok ['-', '0', '0', '4', '2'] := by
  obtain ⟨n1, hn1, h1⟩ := format_integer_after_sign Dyadic.env int [] 1234
    { alternate := true, fill := '0', width := 20, type := SpecType.Bin,
      alignment := Alignment.AfterSign, precision := 6 }
    (by decide) (by decide) (by decide) rfl
  obtain ⟨n2, hn2, h2⟩ := format_integer_after_sign Dyadic.env int [] (-42)
    { fill := '0', width := 5, alignment := Alignment.AfterSign, precision := 6 }
    (by decide) (by decide) (by decide) rfl
  have e1 : n1 = ['1', '0', '0', '1', '1', '0', '1', '0', '0', '1', '0'] :=
    Option.some.inj (hn1.symm.trans (by decide))
  have e2 : n2 = ['4', '2'] := Option.some.inj (hn2.symm.trans (by decide))
  subst e1 e2
  exact ⟨(h1 (by decide)).1, (h2 (by decide)).1⟩

/-- C3, evaluated on the code: the value 1234 as a `long` with alternate form,
fill `0`, width 20, the alignment AfterSign and the type Bin gives no output,
the loop of line 114 never ending under the mask 0 of line 113; as an `int` it
gives `0b`, 7 zeros and the 11 digits `10011010010`, 20 characters, and as a
`long` with the type Hex it gives `0x`, 15 zeros and `4d2`. -/
theorem after_sign_bin_wide_diverges :
    format_integer Dyadic.env long [] 1234
        { alternate := true, fill := '0', width := 20, type := SpecType.Bin,
          alignment := Alignment.AfterSign, precision := 6 }
      = Outcome.diverges ∧
    format_integer Dyadic.env int [] 1234
        { alternate := true, fill := '0', width := 20, type := SpecType.Bin,
          alignment := Alignment.AfterSign, precision := 6 }
      = Outcome.ok (['0', 'b'] ++ List.replicate 7 '0'
          ++ ['1', '0', '0', '1', '1', '0', '1', '0', '0', '1', '0']) ∧
    format_integer Dyadic.env long [] 1234
        { alternate := true, fill := '0', width := 20, type := SpecType.Hex,
          alignment := Alignment.AfterSign, precision := 6 }
      = Outcome.ok (['0', 'x'] ++ List.replicate 15 '0' ++ ['4', 'd', '2']) := by
  decide

/-! ## Centering and the written length -/

/-- The function `format_float` on a legal presentation type. -/
theorem format_float_eq {F : Type} (E : FloatEnv F) (out : Sink) (x : F) (spec : FormatSpec)
    (htype : spec.isDecimalType = true ∨ spec.type = SpecType.Generic) :
    format_float E out x spec =
      Outcome.ok (write_number out spec (sign_text spec.sign (E.signbit x))
        (float_digits E (if E.signbit x then E.neg x else x) spec)) := by
  unfold format_float
  rcases htype with h | h <;> simp [h]

/-- Centering where the loop of line 114 ends (for Bin: on a type of at most
32 bits or on the value 0): with Center alignment and a width `w` above the content length, the three rendering paths write `floor(pad / 2)` fill characters, the content, and
the remaining `ceil(pad / 2)` fill characters, where `pad` is `w` minus the
content length, so the odd fill character goes to the right. The content of
`format_string` is the C string `s` held in `value` (its `strlen value`
characters) under a legal string specification; the content of
`format_integer` and of `format_float` is the prefix followed by the digits. -/
theorem center_splits_padding {F : Type} (E : FloatEnv F) (T : IntType) (out : Sink)
    (value : List Char) (v : Int) (x : F) (spec : FormatSpec)
    (halign : spec.alignment = Alignment.Center) :
    (spec.sign = Sign.DefaultSign → spec.thoudsandsSeperator = false →
      spec.alternate = false →
      (spec.type = SpecType.Generic ∨ spec.type = SpecType.String) →
      strlen value < spec.width →
      format_string out value spec =
        Outcome.ok (out ++ List.replicate ((spec.width - strlen value) / 2) spec.fill
          ++ value.take (strlen value)
          ++ List.replicate (spec.width - strlen value - (spec.width - strlen value) / 2)
              spec.fill) ∧
      spec.width - strlen value - (spec.width - strlen value) / 2
        = (spec.width - strlen value + 1) / 2) ∧
    (spec.type ≠ SpecType.Character → spec.isDecimalType = false →
      (spec.type = SpecType.Bin → T.bits ≤ 32 ∨ v = 0) →
      ∃ num, integer_digits T (magnitude T v) spec = some num ∧
        ((sign_text spec.sign (decide (v < 0)) ++ base_text spec).length + num.length
            < spec.width →
          format_integer E T out v spec =
            Outcome.ok (out
              ++ List.replicate ((spec.width
                  - ((sign_text spec.sign (decide (v < 0)) ++ base_text spec).length
                    + num.length)) / 2) spec.fill
              ++ (sign_text spec.sign (decide (v < 0)) ++ base_text spec) ++ num
              ++ List.replicate (spec.width
                  - ((sign_text spec.sign (decide (v < 0)) ++ base_text spec).length
                    + num.length)
                  - (spec.width
                    - ((sign_text spec.sign (decide (v < 0)) ++ base_text spec).length
                      + num.length)) / 2) spec.fill))) ∧
    ((spec.isDecimalType = true ∨ spec.type = SpecType.Generic) →
      (sign_text spec.sign (E.signbit x)).length
          + (float_digits E (if E.signbit x then E.neg x else x) spec).length < spec.width →
      format_float E out x spec =
        Outcome.ok (out
          ++ List.replicate ((spec.width - ((sign_text spec.sign (E.signbit x)).length
              + (float_digits E (if E.signbit x then E.neg x else x) spec).length)) / 2)
              spec.fill
          ++ sign_text spec.sign (E.signbit x)
          ++ float_digits E (if E.signbit x then E.neg x else x) spec
          ++ List.replicate (spec.width - ((sign_text spec.sign (E.signbit x)).length
              + (float_digits E (if E.signbit x then E.neg x else x) spec).length)
              - (spec.width - ((sign_text spec.sign (E.signbit x)).length
                + (float_digits E (if E.signbit x then E.neg x else x) spec).length)) / 2)
              spec.fill)) := by
  refine ⟨?_, ?_, ?_⟩
  · intro hsign hthou halt htype hw
    constructor
    · rw [format_string_of_legal out value spec hsign hthou halt htype,
        if_pos ⟨by omega, hw⟩, halign]
      simp only [fill, write]
    · omega
  · intro htype hdec hbin
    obtain ⟨num, hnum, h⟩ := format_integer_eq_or_zero E T out v spec htype hdec hbin
    refine ⟨num, hnum, ?_⟩
    intro hw
    rw [h, write_number_of_lt _ _ _ _ hw, halign]
  · intro htype hw
    rw [format_float_eq E out x spec htype, write_number_of_lt _ _ _ _ hw, halign]

/-- The string `hi` with fill `_` and width 11 gives 4 underscores, `hi`, 5
underscores; the integer -42 centred in 6 gives `*-42**`; the floating value
-1.5 with two fractional digits centred in 10 gives `**-1.50***`. -/
theorem center_splits_padding_witness :
    format_string [] ['h', 'i']
        { fill := '_', width := 11, alignment := Alignment.Center, precision := 6 }
      = Outcome.ok (List.replicate 4 '_' ++ ['h', 'i'] ++ List.replicate 5 '_') ∧
    format_integer Dyadic.env int [] (-42)
        { fill := '*', width := 6, alignment := Alignment.Center, precision := 6 }
      = Outcome.ok ['*', '-', '4', '2', '*', '*'] ∧
    format_float Dyadic.env [] ⟨true, 3, -1⟩
        { fill := '*', width := 10, alignment := Alignment.Center, precision := 2,
          type := SpecType.Fixed }
      = Outcome.ok ['*', '*', '-', '1', '.', '5', '0', '*', '*', '*'] := by
  have hs := (center_splits_padding Dyadic.env int [] ['h', 'i'] 0 ⟨false, 0, 0⟩
    { fill := '_', width := 11, alignment := Alignment.Center, precision := 6 } rfl).1
    rfl rfl rfl (Or.inl rfl) (by decide)
  obtain ⟨num, hnum, hi⟩ := (center_splits_padding Dyadic.env int [] [] (-42) ⟨false, 0, 0⟩
    { fill := '*', width := 6, alignment := Alignment.Center, precision := 6 } rfl).2.1
    (by decide) (by decide) (by decide)
  have hf := (center_splits_padding Dyadic.env int [] [] 0 ⟨true, 3, -1⟩
    { fill := '*', width := 10, alignment := Alignment.Center, precision := 2,
      type := SpecType.Fixed } rfl).2.2 (Or.inl rfl) (by decide)
  have e : num = ['4', '2'] := Option.some.inj (hnum.symm.trans (by decide))
  subst e
  exact ⟨hs.1, hi (by decide), hf⟩

/-- C4, evaluated on the code: the integer path does not centre a `long`
rendered with the type Bin. The value 5 as a `long` with the alignment Center,
fill `*`, width 8 and the type Bin gives no output, the loop of line 114 never
ending under the mask 0 of line 113; as an `int` it gives `**101***`, the odd
fill character on the right, as the string `hi` with fill `_` and width 11
gives 4 underscores, `hi` and 5 underscores. -/
theorem center_bin_wide_diverges :
    format_integer Dyadic.env long [] 5
        { fill := '*', width := 8, alignment := Alignment.Center, type := SpecType.Bin,
          precision := 6 }
      = Outcome.diverges ∧
    format_integer Dyadic.env int [] 5
        { fill := '*', width := 8, alignment := Alignment.Center, type := SpecType.Bin,
          precision := 6 }
      = Outcome.ok ['*', '*', '1', '0', '1', '*', '*', '*'] ∧
    format_string [] ['h', 'i']
        { fill := '_', width := 11, alignment := Alignment.Center, precision := 6 }
      = Outcome.ok (List.replicate 4 '_' ++ ['h', 'i'] ++ List.replicate 5 '_') := by
  decide

/-- Whatever `format_string` writes when it returns. -/
theorem format_string_ok_eq (out out1 : Sink) (value : List Char) (spec : FormatSpec)
    (h : format_string out value spec = Outcome.ok out1) :
    out1.length = out.length + max spec.width (strlen value) ∧
      (spec.width ≤ strlen value → out1 = out ++ value.take (strlen value)) := by
  obtain ⟨hsign, hthou, htype, halt⟩ := format_string_ok_legal out out1 value spec h
  rw [format_string_of_legal out value spec hsign hthou halt htype] at h
  have htake : (value.take (strlen value)).length = strlen value := by
    rw [List.length_take]
    exact Nat.min_eq_left (strlen_le value)
  by_cases hw : 0 < spec.width ∧ strlen value < spec.width
  · rw [if_pos hw] at h
    constructor
    · cases ha : spec.alignment <;> rw [ha] at h <;>
        simp only [Outcome.ok.injEq, fill, write, reduceCtorEq] at h <;>
        subst h <;>
        simp only [List.length_append, List.length_replicate, htake] <;> omega
    · intro hle
      omega
  · rw [if_neg hw, Outcome.ok.injEq] at h
    subst h
    constructor
    · simp only [write, List.length_append, htake]
      omega
    · intro _
      rfl

/-- The written length where the loop of line 114 ends: padding never
truncates and pads exactly to the width. For a presentation type that is
neither Character nor floating, and for Bin on a type of at most 32 bits or on
the value 0, `format_integer` returns and writes `max width (len(sign and base prefix) + len(digits))`
characters; whenever `format_string` accepts a string and a specification it
writes `max width (strlen value)` characters; and when the content is at
least as long as the width, what is written is the content alone, whatever the
alignment and the fill are. -/
theorem padding_length {F : Type} (E : FloatEnv F) (T : IntType) (out : Sink)
    (value : List Char) (v : Int) (spec : FormatSpec) :
    (spec.type ≠ SpecType.Character → spec.isDecimalType = false →
      (spec.type = SpecType.Bin → T.bits ≤ 32 ∨ v = 0) →
      ∃ num out1, integer_digits T (magnitude T v) spec = some num ∧
        format_integer E T out v spec = Outcome.ok out1 ∧
        out1.length = out.length + max spec.width
          ((sign_text spec.sign (decide (v < 0)) ++ base_text spec).length + num.length) ∧
        (spec.width ≤ (sign_text spec.sign (decide (v < 0)) ++ base_text spec).length
            + num.length →
          out1 = out ++ (sign_text spec.sign (decide (v < 0)) ++ base_text spec) ++ num)) ∧
    (∀ out1, format_string out value spec = Outcome.ok out1 →
      out1.length = out.length + max spec.width (strlen value) ∧
        (spec.width ≤ strlen value → out1 = out ++ value.take (strlen value))) ∧
    (spec.sign = Sign.DefaultSign → spec.thoudsandsSeperator = false →
      spec.alternate = false →
      (spec.type = SpecType.Generic ∨ spec.type = SpecType.String) →
      (spec.alignment = Alignment.AfterSign → spec.width ≤ strlen value) →
      ∃ out1, format_string out value spec = Outcome.ok out1) := by
  refine ⟨?_, ?_, ?_⟩
  · intro htype hdec hbin
    obtain ⟨num, hnum, h⟩ := format_integer_eq_or_zero E T out v spec htype hdec hbin
    exact ⟨num, _, hnum, h, write_number_length _ _ _ _,
      fun hle => write_number_of_le _ _ _ _ hle⟩
  · intro out1 h
    exact format_string_ok_eq out out1 value spec h
  · intro hsign hthou halt htype hal
    rw [format_string_of_legal out value spec hsign hthou halt htype]
    by_cases hw : 0 < spec.width ∧ strlen value < spec.width
    · rw [if_pos hw]
      cases ha : spec.alignment
      · exact ⟨_, rfl⟩
      · exact ⟨_, rfl⟩
      · exact ⟨_, rfl⟩
      · exact ⟨_, rfl⟩
      · have := hal ha
        omega
    · rw [if_neg hw]
      exact ⟨_, rfl⟩

/-- The integer -42 in the width 6 takes 6 characters and in the width 2 its
own 3 characters; the string `hello` takes 8 characters in the width 8 and is
written as it is in the width 3. -/
theorem padding_length_witness :
    (∃ out1, format_integer Dyadic.env int [] (-42) { width := 6, precision := 6 }
        = Outcome.ok out1 ∧ out1.length = 6) ∧
    format_integer Dyadic.env int [] (-42)
        { width := 2, fill := '*', alignment := Alignment.Center, precision := 6 }
      = Outcome.ok ['-', '4', '2'] ∧
    (∃ out1, format_string [] ['h', 'e', 'l', 'l', 'o'] { width := 8, precision := 6 }
        = Outcome.ok out1 ∧ out1.length = 8) ∧
    (∃ out1, format_string [] ['h', 'e', 'l', 'l', 'o']
        { width := 3, fill := '*', alignment := Alignment.Right, precision := 6 }
        = Outcome.ok out1 ∧ out1 = ['h', 'e', 'l', 'l', 'o']) := by
  obtain ⟨n1, o1, hn1, h1, hl1, _⟩ :=
    (padding_length Dyadic.env int [] [] (-42) { width := 6, precision := 6 }).1
      (by decide) (by decide) (by decide)
  obtain ⟨n2, o2, hn2, h2, _, he2⟩ :=
    (padding_length Dyadic.env int [] [] (-42)
      { width := 2, fill := '*', alignment := Alignment.Center, precision := 6 }).1
      (by decide) (by decide) (by decide)
  have e1 : n1 = ['4', '2'] := Option.some.inj (hn1.symm.trans (by decide))
  have e2 : n2 = ['4', '2'] := Option.some.inj (hn2.symm.trans (by decide))
  subst e1 e2
  refine ⟨⟨o1, h1, hl1⟩, ?_, ?_, ?_⟩
  · rw [h2, he2 (by decide)]
    rfl
  · obtain ⟨out1, h⟩ := (padding_length Dyadic.env int [] ['h', 'e', 'l', 'l', 'o'] 0
      { width := 8, precision := 6 }).2.2 rfl rfl rfl (Or.inl rfl) (by decide)
    exact ⟨out1, h, ((padding_length Dyadic.env int [] ['h', 'e', 'l', 'l', 'o'] 0
      { width := 8, precision := 6 }).2.1 out1 h).1⟩
  · obtain ⟨out1, h⟩ := (padding_length Dyadic.env int [] ['h', 'e', 'l', 'l', 'o'] 0
      { width := 3, fill := '*', alignment := Alignment.Right, precision := 6 }).2.2
      rfl rfl rfl (Or.inl rfl) (by decide)
    exact ⟨out1, h, ((padding_length Dyadic.env int [] ['h', 'e', 'l', 'l', 'o'] 0
      { width := 3, fill := '*', alignment := Alignment.Right, precision := 6 }).2.1
      out1 h).2 (by decide)⟩

/-- C5, evaluated on the code: a `long` rendered with the type Bin is not
padded to the width, nothing being written at all. The value 5 as a `long`
with the width 8 and the type Bin, which `format_integer` accepts, gives no
output, the loop of line 114 never ending under the mask 0 of line 113; as an
`int` it is written in 8 characters, and in its own 3 characters in the width
2. -/
theorem padding_bin_wide_diverges :
    format_integer Dyadic.env long [] 5 { width := 8, type := SpecType.Bin, precision := 6 }
      = Outcome.diverges ∧
    format_integer Dyadic.env unsigned_long [] 5
        { width := 8, type := SpecType.Bin, precision := 6 }
      = Outcome.diverges ∧
    format_integer Dyadic.env int [] 5 { width := 8, type := SpecType.Bin, precision := 6 }
      = Outcome.ok [' ', ' ', ' ', ' ', ' ', '1', '0', '1'] ∧
    format_integer Dyadic.env int [] 5 { width := 2, type := SpecType.Bin, precision := 6 }
      = Outcome.ok ['1', '0', '1'] := by
  decide

/-! ## Binary, octal and hexadecimal digits -/

/-- C6: for every `int` value `v` rendered with the type Bin the digit body is
`0` when `v = 0` and otherwise the numeral of `|v|` in base 2: it starts with
`1`, has no leading zero, has `floor(log2 |v|) + 1` digits, all of them `0` or
`1`, and read in base 2 it is `|v|`, the most negative `int` included. The
body is what `format_integer` hands to the padding code after the sign and the
base prefix. -/
theorem format_integer_bin_digits {F : Type} (E : FloatEnv F) (out : Sink) (v : Int)
    (spec : FormatSpec) (hv : int.in_range v) (hty : spec.type = SpecType.Bin) :
    ∃ body, integer_digits int (magnitude int v) spec = some body ∧
      format_integer E int out v spec =
        Outcome.ok (write_number out spec
          (sign_text spec.sign (decide (v < 0)) ++ base_text spec) body) ∧
      (v = 0 → body = ['0']) ∧
      (v ≠ 0 → body.head? = some '1' ∧ body.length = Nat.log2 v.natAbs + 1) ∧
      Numeral 2 false body v.natAbs := by
  have hnc : spec.type ≠ SpecType.Character := by simp [hty]
  have hdec : spec.isDecimalType = false := by simp [FormatSpec.isDecimalType, hty]
  obtain ⟨body, hbody, h⟩ := format_integer_eq E int out v spec hnc hdec
    (fun _ => by decide)
  have hmag : magnitude int v = v.natAbs := magnitude_eq_natAbs int v (by decide) hv
  rw [hmag] at hbody
  refine ⟨body, by rw [hmag]; exact hbody, h, ?_⟩
  by_cases h0 : v = 0
  · subst h0
    have hb : body = ['0'] := by
      have : integer_digits int (0 : Int).natAbs spec = some ['0'] := by
        simp [integer_digits, hty]
      exact Option.some.inj (hbody.symm.trans this)
    subst hb
    refine ⟨fun _ => rfl, fun h => absurd rfl h, ?_⟩
    exact ⟨by simp, fun c hc => ⟨0, by omega, by simpa using hc⟩, fun _ => rfl, by decide⟩
  · have hn0 : v.natAbs ≠ 0 := by omega
    have hlt : v.natAbs < 2 ^ int.bits := by
      have := magnitude_lt int v
      rwa [hmag] at this
    obtain ⟨b, hb, hhead, hlen, hnumeral⟩ :=
      integer_digits_bin int v.natAbs spec hty (by decide) (by decide) hlt hn0
    have e : body = b := Option.some.inj (hbody.symm.trans hb)
    subst e
    exact ⟨fun h => absurd h h0, fun _ => ⟨hhead, hlen⟩, hnumeral⟩

/-- The value 1234 gives the 11 binary digits `10011010010` (C6). -/
theorem format_integer_bin_digits_witness :
    integer_digits int (magnitude int 1234) { type := SpecType.Bin, precision := 6 }
      = some ['1', '0', '0', '1', '1', '0', '1', '0', '0', '1', '0'] ∧
    format_integer Dyadic.env int [] 1234 { type := SpecType.Bin, precision := 6 }
      = Outcome.ok ['1', '0', '0', '1', '1', '0', '1', '0', '0', '1', '0'] ∧
    Numeral 2 false ['1', '0', '0', '1', '1', '0', '1', '0', '0', '1', '0'] 1234 := by
  obtain ⟨body, hbody, h, _, _, hnum⟩ := format_integer_bin_digits Dyadic.env [] 1234
    { type := SpecType.Bin, precision := 6 } (by decide) rfl
  have e : body = ['1', '0', '0', '1', '1', '0', '1', '0', '0', '1', '0'] :=
    Option.some.inj (hbody.symm.trans (by decide))
  subst e
  exact ⟨hbody, h, hnum⟩

/-- The comma is not a digit. -/
theorem comma_not_digit (upper : Bool) (d : Nat) (h : d < 16) : ',' ≠ digit_char upper d := by
  revert upper d
  decide

/-- C7 as stated fails when the thousands-separator flag is set: the value
65536 with the type Hex is written as `10,000`, which is not a numeral in
base 16. -/
theorem hex_body_grouped_counterexample :
    format_integer Dyadic.env int [] 65536
        { type := SpecType.Hex, thoudsandsSeperator := true, precision := 6 }
      = Outcome.ok ['1', '0', ',', '0', '0', '0'] ∧
    integer_digits int (magnitude int 65536)
        { type := SpecType.Hex, thoudsandsSeperator := true, precision := 6 }
      = some ['1', '0', ',', '0', '0', '0'] ∧
    ¬ Numeral 16 false ['1', '0', ',', '0', '0', '0'] 65536 := by
  refine ⟨by decide, by decide, ?_⟩
  intro h
  obtain ⟨d, hd, hc⟩ := h.digits ',' (by simp)
  exact comma_not_digit false d hd hc

/-- C7, amended: for every integer value rendered with the type Hex or Oct and
the thousands-separator flag clear, the digit body is the numeral of the
magnitude in base 16 or 8, the hexadecimal digits being upper-case exactly
when the case flag is upper; and for the types Hex, Oct and Bin the base prefix
(`0x`, `0o`, `0b`, the letter in the case of the case flag) is written after
the sign and before the digits when alternate form is requested, and no base
prefix is written otherwise. For the type Bin this is stated of the integer
types of at most 32 bits and of the value 0. -/
theorem format_integer_base_digits {F : Type} (E : FloatEnv F) (T : IntType) (out : Sink)
    (v : Int) (spec : FormatSpec) (hbits : 0 < T.bits) (hv : T.in_range v)
    (hty : spec.type = SpecType.Hex ∨ spec.type = SpecType.Oct ∨ spec.type = SpecType.Bin)
    (hbin : spec.type = SpecType.Bin → T.bits ≤ 32 ∨ v = 0) :
    ∃ body, integer_digits T (magnitude T v) spec = some body ∧
      format_integer E T out v spec =
        Outcome.ok (write_number out spec
          (sign_text spec.sign (decide (v < 0)) ++
            (if spec.alternate then
              ['0', match spec.type with
                | SpecType.Hex => if spec.upperCase then 'X' else 'x'
                | SpecType.Oct => if spec.upperCase then 'O' else 'o'
                | _ => if spec.upperCase then 'B' else 'b']
            else [])) body) ∧
      (spec.width = 0 →
        format_integer E T out v spec =
          Outcome.ok (out ++ sign_text spec.sign (decide (v < 0)) ++
            (if spec.alternate then
              ['0', match spec.type with
                | SpecType.Hex => if spec.upperCase then 'X' else 'x'
                | SpecType.Oct => if spec.upperCase then 'O' else 'o'
                | _ => if spec.upperCase then 'B' else 'b']
            else []) ++ body)) ∧
      (spec.thoudsandsSeperator = false → spec.type = SpecType.Hex →
        Numeral 16 spec.upperCase body v.natAbs) ∧
      (spec.thoudsandsSeperator = false → spec.type = SpecType.Oct →
        Numeral 8 false body v.natAbs) := by
  have hnc : spec.type ≠ SpecType.Character := by
    rcases hty with h | h | h <;> simp [h]
  have hdec : spec.isDecimalType = false := by
    rcases hty with h | h | h <;> simp [FormatSpec.isDecimalType, h]
  obtain ⟨body, hbody, h⟩ := format_integer_eq_or_zero E T out v spec hnc hdec hbin
  have hbase : base_text spec =
      (if spec.alternate then
        ['0', match spec.type with
          | SpecType.Hex => if spec.upperCase then 'X' else 'x'
          | SpecType.Oct => if spec.upperCase then 'O' else 'o'
          | _ => if spec.upperCase then 'B' else 'b']
      else []) := by
    unfold base_text
    rcases hty with h | h | h <;> simp [h]
  rw [hbase] at h
  have hmag : magnitude T v = v.natAbs := magnitude_eq_natAbs T v hbits hv
  refine ⟨body, hbody, h, ?_, ?_, ?_⟩
  · intro hw
    rw [h, write_number_of_le _ _ _ _ (by omega)]
    simp only [List.append_assoc]
  · intro hthou hhex
    have : integer_digits T (magnitude T v) spec
        = some (put_unsigned 16 spec.upperCase false v.natAbs) := by
      simp [integer_digits, hhex, hthou, hmag]
    have e : body = put_unsigned 16 spec.upperCase false v.natAbs :=
      Option.some.inj (hbody.symm.trans this)
    rw [e]
    exact put_unsigned_numeral 16 spec.upperCase (by omega) (by omega) v.natAbs
  · intro hthou hoct
    have : integer_digits T (magnitude T v) spec
        = some (put_unsigned 8 false false v.natAbs) := by
      simp [integer_digits, hoct, hthou, hmag]
    have e : body = put_unsigned 8 false false v.natAbs :=
      Option.some.inj (hbody.symm.trans this)
    rw [e]
    exact put_unsigned_numeral 8 false (by omega) (by omega) v.natAbs

/-- The value -255 with `#x` gives `-0xff`, and the `long` 0 with `#b` gives
`0b0` (C7). -/
theorem format_integer_base_digits_witness :
    format_integer Dyadic.env int [] (-255)
        { type := SpecType.Hex, alternate := true, precision := 6 }
      = Outcome.ok ['-', '0', 'x', 'f', 'f'] ∧
    Numeral 16 false ['f', 'f'] 255 ∧
    format_integer Dyadic.env long [] 0
        { type := SpecType.Bin, alternate := true, precision := 6 }
      = Outcome.ok ['0', 'b', '0'] := by
  obtain ⟨body, hbody, _, h, hhex, _⟩ := format_integer_base_digits Dyadic.env int [] (-255)
    { type := SpecType.Hex, alternate := true, precision := 6 }
    (by decide) (by decide) (Or.inl rfl) (by decide)
  obtain ⟨body0, hbody0, _, h0, _, _⟩ := format_integer_base_digits Dyadic.env long [] 0
    { type := SpecType.Bin, alternate := true, precision := 6 }
    (by decide) (by decide) (Or.inr (Or.inr rfl)) (fun _ => Or.inr rfl)
  have e : body = ['f', 'f'] := Option.some.inj (hbody.symm.trans (by decide))
  have e0 : body0 = ['0'] := Option.some.inj (hbody0.symm.trans (by decide))
  subst e e0
  exact ⟨h rfl, hhex rfl rfl, h0 rfl⟩

/-! ## The presentation type Character -/

/-- The code of the character made from a number below 256 is that number. -/
theorem char_ofNat_toNat (n : Nat) (h : n < 256) : (Char.ofNat n).toNat = n := by
  have hv : n.isValidChar := Or.inl (by omega)
  unfold Char.ofNat
  rw [dif_pos hv]
  simp only [Char.ofNatAux, Char.toNat]
  show (UInt32.toNat ⟨n, _⟩) = n
  rfl

/-- A number below 256 that is not 0 does not make the NUL character. -/
theorem char_ofNat_ne_nul (n : Nat) (h : n < 256) (h0 : n ≠ 0) :
    Char.ofNat n ≠ Char.ofNat 0 := by
  intro e
  have := congrArg Char.toNat e
  rw [char_ofNat_toNat n h, char_ofNat_toNat 0 (by omega)] at this
  exact h0 this

/-- The conversion to an unsigned type of 8 bits is below 256. -/
theorem to_unsigned_8_lt (v : Int) : to_unsigned 8 v < 256 := by
  unfold to_unsigned
  have h1 := Int.emod_lt_of_pos v (show (0 : Int) < 2 ^ 8 by norm_num)
  have h2 := Int.emod_nonneg v (show (2 : Int) ^ 8 ≠ 0 by norm_num)
  omega

/-- The C string of one character that is not NUL has the length 1. -/
theorem strlen_singleton (c : Char) (h : c ≠ Char.ofNat 0) : strlen [c] = 1 := by
  have hb : (c != Char.ofNat 0) = true := by simp [h]
  simp [strlen, List.takeWhile, hb]

/-- With the type Character `format_integer` is `format_string` on the string
of the one character `(Char)value`, under the specification with the type
String (lines 59-65). -/
theorem format_integer_character_eq {F : Type} (E : FloatEnv F) (T : IntType) (out : Sink)
    (v : Int) (spec : FormatSpec) (hty : spec.type = SpecType.Character) :
    format_integer E T out v spec =
      format_string out [Char.ofNat (to_unsigned 8 v)]
        { spec with type := SpecType.String } := by
  unfold format_integer
  rw [if_pos hty]

/-- C11 as stated fails in two ways: the value 300 is written as the
character of code 44 (300 modulo 256), not as a character of code 300, and the
value 0 is written as nothing at all, the string of the one character NUL
being the empty C string. -/
theorem character_counterexample :
    format_integer Dyadic.env int [] 300 { type := SpecType.Character, precision := 6 }
      = Outcome.ok [','] ∧
    [','] ≠ [Char.ofNat 300] ∧
    format_integer Dyadic.env int [] 0 { type := SpecType.Character, precision := 6 }
      = Outcome.ok [] ∧
    ([] : List Char) ≠ [Char.ofNat 0] := by
  decide

/-- C11, amended: for every integer value `v` rendered with the type Character
(default sign, no thousands separator, no alternate form) whose conversion to
`char` is not NUL, the content written is exactly the one character whose code
is `v` modulo 256, which is `v` itself for `1 ≤ v ≤ 255`; the content is padded
by the string rules: as it is when the width is at most 1, and otherwise
followed by the fill under the Default and Left alignment, preceded by it
under Right, centred under Center, while AfterSign throws. -/
theorem format_integer_character {F : Type} (E : FloatEnv F) (T : IntType) (out : Sink)
    (v : Int) (spec : FormatSpec) (hty : spec.type = SpecType.Character)
    (hsign : spec.sign = Sign.DefaultSign) (hthou : spec.thoudsandsSeperator = false)
    (halt : spec.alternate = false) (hnul : to_unsigned 8 v ≠ 0) :
    (Char.ofNat (to_unsigned 8 v)).toNat = to_unsigned 8 v ∧
    (1 ≤ v → v ≤ 255 → ((Char.ofNat (to_unsigned 8 v)).toNat : Int) = v) ∧
    format_integer E T out v spec =
      if 1 < spec.width then
        match spec.alignment with
        | Alignment.AfterSign => Outcome.thrown Error.after_sign_not_allowed out
        | Alignment.DefaultAlignment | Alignment.Left =>
          Outcome.ok (out ++ [Char.ofNat (to_unsigned 8 v)]
            ++ List.replicate (spec.width - 1) spec.fill)
        | Alignment.Right =>
          Outcome.ok (out ++ List.replicate (spec.width - 1) spec.fill
            ++ [Char.ofNat (to_unsigned 8 v)])
        | Alignment.Center =>
          Outcome.ok (out ++ List.replicate ((spec.width - 1) / 2) spec.fill
            ++ [Char.ofNat (to_unsigned 8 v)]
            ++ List.replicate (spec.width - 1 - (spec.width - 1) / 2) spec.fill)
      else Outcome.ok (out ++ [Char.ofNat (to_unsigned 8 v)]) := by
  have hlt := to_unsigned_8_lt v
  have hcode := char_ofNat_toNat (to_unsigned 8 v) hlt
  have hlen : strlen [Char.ofNat (to_unsigned 8 v)] = 1 :=
    strlen_singleton _ (char_ofNat_ne_nul _ hlt hnul)
  refine ⟨hcode, ?_, ?_⟩
  · intro h1 h255
    rw [hcode]
    unfold to_unsigned
    rw [Int.emod_eq_of_lt (by omega) (by norm_num; omega)]
    omega
  · rw [format_integer_character_eq E T out v spec hty,
      format_string_of_legal out _ { spec with type := SpecType.String }
        hsign hthou halt (Or.inr rfl), hlen]
    by_cases hw : 1 < spec.width
    · rw [if_pos hw, if_pos (show 0 < spec.width ∧ 1 < spec.width from ⟨by omega, hw⟩)]
      cases ha : spec.alignment <;> simp [fill, write]
    · rw [if_neg hw, if_neg (show ¬ (0 < spec.width ∧ 1 < spec.width) from fun h => hw h.2)]
      simp [write]

/-- The value 52 gives `4`, and `4` followed by two fill characters in the
width 3 (C11). -/
theorem format_integer_character_witness :
    format_integer Dyadic.env int [] 52 { type := SpecType.Character, precision := 6 }
      = Outcome.ok ['4'] ∧
    format_integer Dyadic.env int [] 52
        { type := SpecType.Character, width := 3, fill := '*', precision := 6 }
      = Outcome.ok ['4', '*', '*'] :=
  ⟨(format_integer_character Dyadic.env int [] 52
      { type := SpecType.Character, precision := 6 } rfl rfl rfl rfl (by decide)).2.2,
   (format_integer_character Dyadic.env int [] 52
      { type := SpecType.Character, width := 3, fill := '*', precision := 6 }
      rfl rfl rfl rfl (by decide)).2.2⟩

/-- C12, evaluated on the code: the value 52 with the type Character is
written as `4`, and with the alternate-form flag set the same call throws. The
exemption of the type Character in the check of line 324 never applies, since
`format_integer` hands the type String to `format_string` (line 62). -/
theorem character_alternate_fails :
    format_integer Dyadic.env int [] 52 { type := SpecType.Character, precision := 6 }
      = Outcome.ok ['4'] ∧
    format_integer Dyadic.env int [] 52
        { type := SpecType.Character, alternate := true, precision := 6 }
      = Outcome.thrown Error.alternate_not_allowed [] := by
  decide

/-! ## The default alignment of numbers -/

/-- C13 as stated fails: the value -42 in the width 6 with the default
alignment is written as the sign, three spaces and `42`; with the alignment
Right the three spaces come first. With the type Character the value 52 in the
width 3 is written as `4` and two spaces; with the alignment Right the two
spaces come first. -/
theorem default_alignment_counterexample :
    format_integer Dyadic.env int [] (-42) { width := 6, precision := 6 }
      = Outcome.ok ['-', ' ', ' ', ' ', '4', '2'] ∧
    format_integer Dyadic.env int [] (-42)
        { width := 6, alignment := Alignment.Right, precision := 6 }
      = Outcome.ok [' ', ' ', ' ', '-', '4', '2'] ∧
    format_integer Dyadic.env int [] (-42) { width := 6, precision := 6 }
      ≠ format_integer Dyadic.env int [] (-42)
        { width := 6, alignment := Alignment.Right, precision := 6 } ∧
    format_integer Dyadic.env int [] 52
        { width := 3, type := SpecType.Character, precision := 6 }
      = Outcome.ok ['4', ' ', ' '] ∧
    format_integer Dyadic.env int [] 52
        { width := 3, type := SpecType.Character, alignment := Alignment.Right,
          precision := 6 }
      = Outcome.ok [' ', ' ', '4'] := by
  decide

/-- C13, amended: for every integer value and every specification with the
Default alignment and a presentation type other than Character,
`format_integer` produces the same output as with the alignment AfterSign:
when the width exceeds the content length, the fill characters come after the
sign and base prefix and before the digits, on the integer path (for the type
Bin on the integer types of at most 32 bits and on the value 0) and, for the
floating presentation types, on the floating path; when the sign and base
prefix are empty this is also the output of the alignment Right. With the
type Character the Default alignment is the alignment Left of the string
rules. -/
theorem format_integer_default_alignment {F : Type} (E : FloatEnv F) (T : IntType)
    (out : Sink) (v : Int) (spec : FormatSpec)
    (halign : spec.alignment = Alignment.DefaultAlignment) :
    (spec.type ≠ SpecType.Character →
      format_integer E T out v spec
        = format_integer E T out v { spec with alignment := Alignment.AfterSign }) ∧
    (spec.type ≠ SpecType.Character → spec.isDecimalType = false →
      (spec.type = SpecType.Bin → T.bits ≤ 32 ∨ v = 0) →
      ∃ num, integer_digits T (magnitude T v) spec = some num ∧
        ((sign_text spec.sign (decide (v < 0)) ++ base_text spec).length + num.length
            < spec.width →
          format_integer E T out v spec =
            Outcome.ok (out ++ (sign_text spec.sign (decide (v < 0)) ++ base_text spec)
              ++ List.replicate (spec.width
                  - ((sign_text spec.sign (decide (v < 0)) ++ base_text spec).length
                    + num.length)) spec.fill
              ++ num)) ∧
        (sign_text spec.sign (decide (v < 0)) ++ base_text spec = [] →
          format_integer E T out v spec
            = format_integer E T out v { spec with alignment := Alignment.Right })) ∧
    (spec.isDecimalType = true →
      ((sign_text spec.sign (E.signbit (E.of_int v))).length
          + (float_digits E (if E.signbit (E.of_int v) then E.neg (E.of_int v)
              else E.of_int v) spec).length < spec.width →
        format_integer E T out v spec =
          Outcome.ok (out ++ sign_text spec.sign (E.signbit (E.of_int v))
            ++ List.replicate (spec.width
                - ((sign_text spec.sign (E.signbit (E.of_int v))).length
                  + (float_digits E (if E.signbit (E.of_int v) then E.neg (E.of_int v)
                      else E.of_int v) spec).length)) spec.fill
            ++ float_digits E (if E.signbit (E.of_int v) then E.neg (E.of_int v)
                else E.of_int v) spec)) ∧
      (sign_text spec.sign (E.signbit (E.of_int v)) = [] →
        format_integer E T out v spec
          = format_integer E T out v { spec with alignment := Alignment.Right })) ∧
    (spec.type = SpecType.Character →
      format_integer E T out v spec
        = format_integer E T out v { spec with alignment := Alignment.Left }) := by
  refine ⟨fun htype => format_integer_default_eq_after_sign E T out v spec htype halign,
    ?_, ?_, ?_⟩
  · intro htype hdec hbin
    obtain ⟨num, hnum, h⟩ := format_integer_eq_or_zero E T out v spec htype hdec hbin
    obtain ⟨num2, hnum2, h2⟩ := format_integer_eq_or_zero E T out v
      { spec with alignment := Alignment.Right } htype hdec hbin
    have e2 : num2 = num := Option.some.inj (hnum2.symm.trans hnum)
    rw [e2] at h2
    have hb2 : base_text { spec with alignment := Alignment.Right } = base_text spec := rfl
    simp only [hb2] at h2
    refine ⟨num, hnum, ?_, ?_⟩
    · intro hw
      rw [h, write_number_of_lt _ _ _ _ hw, halign]
    · intro hp
      rw [h, h2, hp]
      congr 1
      simp only [write_number, halign, write, fill, List.length_nil, List.take_nil,
        List.append_nil]
  · intro hdec
    have h1 := format_integer_decimal_eq E T out v spec hdec
    have h2 := format_integer_decimal_eq E T out v
      { spec with alignment := Alignment.Right } hdec
    rw [h1, h2, format_float_eq E out (E.of_int v) spec (Or.inl hdec),
      format_float_eq E out (E.of_int v) { spec with alignment := Alignment.Right }
        (Or.inl hdec)]
    constructor
    · intro hw
      rw [write_number_of_lt _ _ _ _ hw, halign]
    · intro hp
      have hd : float_digits E (if E.signbit (E.of_int v) then E.neg (E.of_int v)
            else E.of_int v) { spec with alignment := Alignment.Right }
          = float_digits E (if E.signbit (E.of_int v) then E.neg (E.of_int v)
            else E.of_int v) spec := rfl
      rw [hd]
      simp only [hp]
      congr 1
      simp only [write_number, halign, write, fill, List.length_nil, List.take_nil,
        List.append_nil]
  · intro hc
    rw [format_integer_character_eq E T out v spec hc,
      format_integer_character_eq E T out v { spec with alignment := Alignment.Left } hc]
    simp only [format_string, halign]

/-- The value -42 in the width 6 gives `-`, three spaces and `42`; the value
42 in the width 6 gives four spaces and `42`, as the alignment Right does; the
value -42 with the type Fixed and no fractional digit gives the same
`-`, three spaces and `42`; the `long` 0 with the type Bin gives five spaces
and `0` (C13). -/
theorem format_integer_default_alignment_witness :
    format_integer Dyadic.env int [] (-42) { width := 6, precision := 6 }
      = Outcome.ok ['-', ' ', ' ', ' ', '4', '2'] ∧
    format_integer Dyadic.env int [] 42 { width := 6, precision := 6 }
      = format_integer Dyadic.env int [] 42
          { width := 6, alignment := Alignment.Right, precision := 6 } ∧
    format_integer Dyadic.env int [] (-42)
        { width := 6, type := SpecType.Fixed, precision := 0 }
      = Outcome.ok ['-', ' ', ' ', ' ', '4', '2'] ∧
    format_integer Dyadic.env long [] 0 { width := 6, type := SpecType.Bin, precision := 6 }
      = Outcome.ok [' ', ' ', ' ', ' ', ' ', '0'] := by
  obtain ⟨n1, hn1, h1, _⟩ := (format_integer_default_alignment Dyadic.env int [] (-42)
    { width := 6, precision := 6 } rfl).2.1 (by decide) (by decide) (by decide)
  obtain ⟨n2, _, _, h2⟩ := (format_integer_default_alignment Dyadic.env int [] 42
    { width := 6, precision := 6 } rfl).2.1 (by decide) (by decide) (by decide)
  have h3 := ((format_integer_default_alignment Dyadic.env int [] (-42)
    { width := 6, type := SpecType.Fixed, precision := 0 } rfl).2.2.1 (by decide)).1
    (by decide)
  obtain ⟨n4, hn4, h4, _⟩ := (format_integer_default_alignment Dyadic.env long [] 0
    { width := 6, type := SpecType.Bin, precision := 6 } rfl).2.1 (by decide) (by decide)
    (fun _ => Or.inr rfl)
  have e1 : n1 = ['4', '2'] := Option.some.inj (hn1.symm.trans (by decide))
  have e4 : n4 = ['0'] := Option.some.inj (hn4.symm.trans (by decide))
  subst e1 e4
  refine ⟨h1 (by decide), h2 (by decide), ?_, h4 (by decide)⟩
  rw [h3]
  decide

/-! ## Conversions -/

/-- C14: for the three formatter kinds, every bound value and every outer
specification `S`, the method `format` is the conversion rule of the
specification: with the Repr conversion the output is the string rendering
under `S` of the representation text, with the Str conversion the string
rendering under `S` of the value rendered with the default specification, and
with the Generic conversion the value is rendered directly with `S`. So when
the intermediate render returns the text `text`, the output is that of
`format_string` on `text` under `S`: the width, the fill and the alignment of
`S` apply to the intermediate text as one string. -/
theorem formatter_conversion {α : Type} (_format : Sink → α → FormatSpec → Outcome)
    (_repr : Sink → α → Outcome)
    (_sformat : Sink → List α → FormatSpec → Char → Char → Outcome)
    (_srepr : Sink → List α → Char → Char → Outcome)
    (DEFAULT : FormatSpec) (value : α) (slice : List α) (left right : Char)
    (out : Sink) (conv : Conversion) (S : FormatSpec) :
    (ValueFormatter.format _format _repr DEFAULT value out conv S
        = spec_conversion (fun o s => _format o value s) (fun o => _repr o value)
            DEFAULT out conv S ∧
      PtrFormatter.format _format _repr DEFAULT value out conv S
        = spec_conversion (fun o s => _format o value s) (fun o => _repr o value)
            DEFAULT out conv S ∧
      SliceFormatter.format _sformat _srepr DEFAULT left right slice out conv S
        = spec_conversion (fun o s => _sformat o slice s left right)
            (fun o => _srepr o slice left right) DEFAULT out conv S) ∧
    (∀ text, _repr [] value = Outcome.ok text →
      ValueFormatter.format _format _repr DEFAULT value out Conversion.ReprConv S
        = format_string out text S ∧
      PtrFormatter.format _format _repr DEFAULT value out Conversion.ReprConv S
        = format_string out text S) ∧
    (∀ text, _format [] value DEFAULT = Outcome.ok text →
      ValueFormatter.format _format _repr DEFAULT value out Conversion.StrConv S
        = format_string out text S ∧
      PtrFormatter.format _format _repr DEFAULT value out Conversion.StrConv S
        = format_string out text S) ∧
    (∀ text, _srepr [] slice left right = Outcome.ok text →
      SliceFormatter.format _sformat _srepr DEFAULT left right slice out
        Conversion.ReprConv S = format_string out text S) ∧
    (∀ text, _sformat [] slice DEFAULT left right = Outcome.ok text →
      SliceFormatter.format _sformat _srepr DEFAULT left right slice out
        Conversion.StrConv S = format_string out text S) ∧
    (ValueFormatter.format _format _repr DEFAULT value out Conversion.GenericConv S
        = _format out value S ∧
      PtrFormatter.format _format _repr DEFAULT value out Conversion.GenericConv S
        = _format out value S ∧
      SliceFormatter.format _sformat _srepr DEFAULT left right slice out
        Conversion.GenericConv S = _sformat out slice S left right) := by
  refine ⟨⟨?_, ?_, ?_⟩, ?_, ?_, ?_, ?_, ⟨rfl, rfl, rfl⟩⟩
  · cases conv
    · rfl
    · simp only [ValueFormatter.format, spec_conversion, through_buffer, format_value_string]
    · simp only [ValueFormatter.format, spec_conversion, through_buffer, format_value_string]
  · cases conv
    · rfl
    · simp only [PtrFormatter.format, spec_conversion, through_buffer, format_value_string]
    · simp only [PtrFormatter.format, spec_conversion, through_buffer, format_value_string]
  · cases conv
    · rfl
    · simp only [SliceFormatter.format, spec_conversion, through_buffer, format_value_string]
    · simp only [SliceFormatter.format, spec_conversion, through_buffer, format_value_string]
  · intro text h
    simp only [ValueFormatter.format, PtrFormatter.format, through_buffer,
      format_value_string, h, and_self]
  · intro text h
    simp only [ValueFormatter.format, PtrFormatter.format, through_buffer,
      format_value_string, h, and_self]
  · intro text h
    simp only [SliceFormatter.format, through_buffer, format_value_string, h]
  · intro text h
    simp only [SliceFormatter.format, through_buffer, format_value_string, h]

/-- The `int` 42 bound to a `ValueFormatter` whose `_format` is
`format_value(int)` and rendered with the Str conversion under a centring
specification of width 6: the two digits are padded as one string; and a
slice of one `int` between brackets, centred as one string in the width 7. The
renderer of the slice and the representation functions are stand-ins, the
functions `format_slice` and `repr_slice` being declared outside the sources
(C14). -/
theorem formatter_conversion_witness :
    ValueFormatter.format (fun o v s => format_integer Dyadic.env int o v s)
        (fun o _ => Outcome.ok o) { precision := 6 } (42 : Int) []
        Conversion.StrConv
        { fill := '*', width := 6, alignment := Alignment.Center, precision := 6 }
      = Outcome.ok ['*', '*', '4', '2', '*', '*'] ∧
    SliceFormatter.format
        (fun o (l : List Int) s left right =>
          match format_integer Dyadic.env int (o ++ [left]) (l.headD 0) s with
          | Outcome.ok o1 => Outcome.ok (o1 ++ [right])
          | r => r)
        (fun o _ _ _ => Outcome.ok o) { precision := 6 } '[' ']' [7] []
        Conversion.StrConv
        { fill := '_', width := 7, alignment := Alignment.Center, precision := 6 }
      = Outcome.ok ['_', '_', '[', '7', ']', '_', '_'] := by
  constructor
  · rw [((formatter_conversion (fun o v s => format_integer Dyadic.env int o v s)
      (fun o _ => Outcome.ok o) (fun o _ _ _ _ => Outcome.ok o) (fun o _ _ _ => Outcome.ok o)
      { precision := 6 } (42 : Int) [] '[' ']' []
      Conversion.StrConv
      { fill := '*', width := 6, alignment := Alignment.Center, precision := 6 }).2.2.1
      ['4', '2'] (by decide)).1]
    decide
  · rw [(formatter_conversion (fun o v s => format_integer Dyadic.env int o v s)
      (fun o _ => Outcome.ok o)
      (fun o (l : List Int) s left right =>
          match format_integer Dyadic.env int (o ++ [left]) (l.headD 0) s with
          | Outcome.ok o1 => Outcome.ok (o1 ++ [right])
          | r => r)
      (fun o _ _ _ => Outcome.ok o)
      { precision := 6 } (42 : Int) [7] '[' ']' []
      Conversion.StrConv
      { fill := '_', width := 7, alignment := Alignment.Center, precision := 6 }).2.2.2.2.1
      ['[', '7', ']'] (by decide)]
    decide

/-- C15: for every character `c`, `repr_value` writes `c` between two single
quotes, 3 characters, unless `c` is one of the ten characters NUL, BEL,
backspace, tab, newline, vertical tab, form feed, carriage return, single
quote and backslash, which are written as a backslash and a letter between
the quotes, 4 characters; under the Repr conversion a `ValueFormatter` hands
that text to `format_string` with the outer specification. -/
theorem repr_value_char_quoted (out : Sink) (c : Char) :
    (c ∉ [Char.ofNat 0, Char.ofNat 7, Char.ofNat 8, Char.ofNat 9, Char.ofNat 10,
          Char.ofNat 11, Char.ofNat 12, Char.ofNat 13, Char.ofNat 39, Char.ofNat 92] →
      repr_value_char out c = out ++ [Char.ofNat 39, c, Char.ofNat 39]) ∧
    (c ∈ [Char.ofNat 0, Char.ofNat 7, Char.ofNat 8, Char.ofNat 9, Char.ofNat 10,
          Char.ofNat 11, Char.ofNat 12, Char.ofNat 13, Char.ofNat 39, Char.ofNat 92] →
      ∃ letter, repr_value_char out c
        = out ++ [Char.ofNat 39, Char.ofNat 92, letter, Char.ofNat 39]) ∧
    (repr_value_char out (Char.ofNat 0) = out ++ [Char.ofNat 39, Char.ofNat 92, '0', Char.ofNat 39] ∧
      repr_value_char out (Char.ofNat 7) = out ++ [Char.ofNat 39, Char.ofNat 92, 'a', Char.ofNat 39] ∧
      repr_value_char out (Char.ofNat 8) = out ++ [Char.ofNat 39, Char.ofNat 92, 'b', Char.ofNat 39] ∧
      repr_value_char out (Char.ofNat 9) = out ++ [Char.ofNat 39, Char.ofNat 92, 't', Char.ofNat 39] ∧
      repr_value_char out (Char.ofNat 10) = out ++ [Char.ofNat 39, Char.ofNat 92, 'n', Char.ofNat 39] ∧
      repr_value_char out (Char.ofNat 11) = out ++ [Char.ofNat 39, Char.ofNat 92, 'v', Char.ofNat 39] ∧
      repr_value_char out (Char.ofNat 12) = out ++ [Char.ofNat 39, Char.ofNat 92, 'f', Char.ofNat 39] ∧
      repr_value_char out (Char.ofNat 13) = out ++ [Char.ofNat 39, Char.ofNat 92, 'r', Char.ofNat 39] ∧
      repr_value_char out (Char.ofNat 39)
        = out ++ [Char.ofNat 39, Char.ofNat 92, Char.ofNat 39, Char.ofNat 39] ∧
      repr_value_char out (Char.ofNat 92)
        = out ++ [Char.ofNat 39, Char.ofNat 92, Char.ofNat 92, Char.ofNat 39]) ∧
    (∀ (_format : Sink → Char → FormatSpec → Outcome) (DEFAULT S : FormatSpec) (sink : Sink),
      ValueFormatter.format _format (fun o v => Outcome.ok (repr_value_char o v)) DEFAULT c
          sink Conversion.ReprConv S
        = format_string sink (repr_value_char [] c) S) := by
  refine ⟨?_, ?_, ?_, ?_⟩
  · intro h
    simp only [List.mem_cons, List.mem_singleton, List.not_mem_nil, or_false, not_or] at h
    obtain ⟨h0, h7, h8, h9, h10, h11, h12, h13, h39, h92⟩ := h
    simp only [repr_value_char, h0, h7, h8, h9, h10, h11, h12, h13, h39, h92, if_false]
  · intro h
    simp only [List.mem_cons, List.mem_singleton, List.not_mem_nil, or_false] at h
    rcases h with h | h | h | h | h | h | h | h | h | h <;> subst h
    · exact ⟨'0', by simp [repr_value_char]⟩
    · exact ⟨'a', by simp [repr_value_char]⟩
    · exact ⟨'b', by simp [repr_value_char]⟩
    · exact ⟨'t', by simp [repr_value_char]⟩
    · exact ⟨'n', by simp [repr_value_char]⟩
    · exact ⟨'v', by simp [repr_value_char]⟩
    · exact ⟨'f', by simp [repr_value_char]⟩
    · exact ⟨'r', by simp [repr_value_char]⟩
    · exact ⟨Char.ofNat 39, by simp [repr_value_char]⟩
    · exact ⟨Char.ofNat 92, by simp [repr_value_char]⟩
  · refine ⟨?_, ?_, ?_, ?_, ?_, ?_, ?_, ?_, ?_, ?_⟩ <;> simp [repr_value_char]
  · intro _format DEFAULT S sink
    rfl

/-- The character `a` gives `a` between single quotes, the newline gives
backslash `n` between single quotes, and under the Repr conversion the quoted
`a` is centred by the outer specification (C15). -/
theorem repr_value_char_quoted_witness :
    repr_value_char [] 'a' = [Char.ofNat 39, 'a', Char.ofNat 39] ∧
    (∃ letter, repr_value_char [] (Char.ofNat 10)
      = [] ++ [Char.ofNat 39, Char.ofNat 92, letter, Char.ofNat 39]) ∧
    ValueFormatter.format (fun o (c : Char) s => format_string o [c] s)
        (fun o v => Outcome.ok (repr_value_char o v)) { precision := 6 } 'a' []
        Conversion.ReprConv
        { fill := '*', width := 7, alignment := Alignment.Center, precision := 6 }
      = Outcome.ok ['*', '*', Char.ofNat 39, 'a', Char.ofNat 39, '*', '*'] := by
  refine ⟨(repr_value_char_quoted [] 'a').1 (by decide),
    (repr_value_char_quoted [] (Char.ofNat 10)).2.1 (by decide), ?_⟩
  rw [(repr_value_char_quoted [] 'a').2.2.2 (fun o (c : Char) s => format_string o [c] s)
    { precision := 6 }
    { fill := '*', width := 7, alignment := Alignment.Center, precision := 6 } []]
  decide

/-! ## Floating values -/

/-- C16: `format_float` throws exactly when the presentation type is neither
Generic nor one of the floating types Fixed, Exp, General and Percentage, so
for Bin, Oct, Hex and Character among others, whatever the value, the sign
policy, the width and the alignment are; it throws before writing. -/
theorem format_float_type_check {F : Type} (E : FloatEnv F) (out : Sink) (x : F)
    (spec : FormatSpec) :
    ((format_float E out x spec).fails = true ↔
      (spec.type ≠ SpecType.Generic ∧ spec.type ≠ SpecType.Fixed ∧
        spec.type ≠ SpecType.Exp ∧ spec.type ≠ SpecType.General ∧
        spec.type ≠ SpecType.Percentage)) ∧
    ((spec.type = SpecType.Bin ∨ spec.type = SpecType.Oct ∨ spec.type = SpecType.Hex ∨
        spec.type = SpecType.Character) →
      format_float E out x spec = Outcome.thrown Error.float_non_decimal out) ∧
    ((format_float E out x spec).fails = false →
      ∃ out1, format_float E out x spec = Outcome.ok out1) := by
  refine ⟨?_, ?_, ?_⟩
  · unfold format_float FormatSpec.isDecimalType
    cases hty : spec.type <;> simp [Outcome.fails]
  · intro h
    unfold format_float FormatSpec.isDecimalType
    rcases h with h | h | h | h <;> simp [h]
  · intro h
    unfold format_float FormatSpec.isDecimalType at h ⊢
    cases hty : spec.type <;> simp [hty, Outcome.fails] at h ⊢

/-- The value -1.5 fails with the type Hex and is written with the type Fixed
(C16). -/
theorem format_float_type_check_witness :
    format_float Dyadic.env [] ⟨true, 3, -1⟩ { type := SpecType.Hex, precision := 6 }
      = Outcome.thrown Error.float_non_decimal [] ∧
    (∃ out1, format_float Dyadic.env [] ⟨true, 3, -1⟩
      { type := SpecType.Fixed, precision := 2 } = Outcome.ok out1) :=
  ⟨(format_float_type_check Dyadic.env [] ⟨true, 3, -1⟩
      { type := SpecType.Hex, precision := 6 }).2.1 (Or.inr (Or.inr (Or.inl rfl))),
   (format_float_type_check Dyadic.env [] ⟨true, 3, -1⟩
      { type := SpecType.Fixed, precision := 2 }).2.2 (by decide)⟩

/-- C17: for every integer value and every specification whose presentation
type is Fixed, Exp, General or Percentage, `format_integer` writes exactly
what `format_float` writes for the value converted to `double` under the same
specification, and it does not fail. -/
theorem format_integer_delegates_to_float {F : Type} (E : FloatEnv F) (T : IntType)
    (out : Sink) (v : Int) (spec : FormatSpec)
    (hty : spec.type = SpecType.Fixed ∨ spec.type = SpecType.Exp ∨
      spec.type = SpecType.General ∨ spec.type = SpecType.Percentage) :
    format_integer E T out v spec = format_float E out (E.of_int v) spec ∧
    (format_integer E T out v spec).fails = false ∧
    format_integer E T out v spec =
      Outcome.ok (write_number out spec (sign_text spec.sign (E.signbit (E.of_int v)))
        (float_digits E
          (if E.signbit (E.of_int v) then E.neg (E.of_int v) else E.of_int v) spec)) := by
  have hnc : spec.type ≠ SpecType.Character := by
    rcases hty with h | h | h | h <;> simp [h]
  have hdec : spec.isDecimalType = true := by
    unfold FormatSpec.isDecimalType
    rcases hty with h | h | h | h <;> simp [h]
  have h1 : format_integer E T out v spec = format_float E out (E.of_int v) spec := by
    unfold format_integer
    rw [if_neg hnc, if_pos hdec]
  have h2 := format_float_eq E out (E.of_int v) spec (Or.inl hdec)
  refine ⟨h1, ?_, h1.trans h2⟩
  rw [h1, h2]
  rfl

/-- The `int` -1234567 with the type Fixed, the precision 2 and the thousands
separator is written as the `double` of the same value is (C17). -/
theorem format_integer_delegates_to_float_witness :
    format_integer Dyadic.env int [] (-1234567)
        { type := SpecType.Fixed, precision := 2, thoudsandsSeperator := true }
      = format_float Dyadic.env [] ⟨true, 1234567, 0⟩
        { type := SpecType.Fixed, precision := 2, thoudsandsSeperator := true } ∧
    format_float Dyadic.env [] ⟨true, 1234567, 0⟩
        { type := SpecType.Fixed, precision := 2, thoudsandsSeperator := true }
      = Outcome.ok ['-', '1', ',', '2', '3', '4', ',', '5', '6', '7', '.', '0', '0'] :=
  ⟨(format_integer_delegates_to_float Dyadic.env int [] (-1234567)
      { type := SpecType.Fixed, precision := 2, thoudsandsSeperator := true }
      (Or.inl rfl)).1, by decide⟩

/-! ## Grouping in thousands -/

/-- Fewer than four digits are left as they are by the grouping. -/
theorem group_rev_short : ∀ (l : List Char) (k : Nat), k + l.length ≤ 3 → group_rev k l = l := by
  intro l
  induction l with
  | nil => intro k _; rfl
  | cons c cs ih =>
    intro k h
    simp only [List.length_cons] at h
    have hk : k ≠ 3 := by omega
    simp only [group_rev, hk, if_false]
    rw [ih (k + 1) (by omega)]

/-- Three digits followed by more digits are followed by a comma. -/
theorem group_rev_three (a b c : Char) (l : List Char) (hl : l ≠ []) :
    group_rev 0 (a :: b :: c :: l) = a :: b :: c :: ',' :: group_rev 0 l := by
  obtain ⟨d, l1, rfl⟩ := List.exists_cons_of_ne_nil hl
  simp [group_rev]

/-- A number below `10 ^ e` has at most `e` decimal digits. -/
theorem digits_rev_length_le : ∀ (e fuel n : Nat), 0 < e → n < 10 ^ e →
    (digits_rev 10 false fuel n).length ≤ e := by
  intro e
  induction e with
  | zero => intro fuel n h; exact absurd h (Nat.lt_irrefl 0)
  | succ e ih =>
    intro fuel n _ hn
    cases fuel with
    | zero => simp [digits_rev]
    | succ f =>
      unfold digits_rev
      by_cases hq : n / 10 = 0
      · simp [hq]
      · simp only [hq, if_false, List.length_cons]
        have he : 0 < e := by
          rcases Nat.eq_zero_or_pos e with h0 | h0
          · subst h0
            simp at hn
            omega
          · exact h0
        have hlt : n / 10 < 10 ^ e := by
          rw [pow_succ] at hn
          omega
        have := ih f (n / 10) he hlt
        omega

/-- The decimal digits of a number of at least 1000: its last three digits,
then the digits of the thousands. -/
theorem digits_rev_thousand (n : Nat) (h : 1000 ≤ n) :
    digits_rev 10 false (n + 1) n =
      digit_char false (n % 10) :: digit_char false (n / 10 % 10) ::
        digit_char false (n / 100 % 10) :: digits_rev 10 false (n / 1000 + 1) (n / 1000) := by
  obtain ⟨m, rfl⟩ : ∃ m, n = m + 3 := ⟨n - 3, by omega⟩
  have h1 : (m + 3) / 10 ≠ 0 := by omega
  have h2 : (m + 3) / 10 / 10 ≠ 0 := by omega
  have h3 : (m + 3) / 10 / 10 / 10 ≠ 0 := by omega
  have e2 : (m + 3) / 10 / 10 = (m + 3) / 100 := by omega
  have e3 : (m + 3) / 10 / 10 / 10 = (m + 3) / 1000 := by omega
  show digits_rev 10 false (m + 1 + 1 + 1 + 1) (m + 3) = _
  rw [digits_rev, if_neg h1, digits_rev, if_neg h2, digits_rev, if_neg h3, e3, e2,
    digits_rev_fuel 10 false (by omega) (m + 1) ((m + 3) / 1000 + 1) ((m + 3) / 1000)
      (by omega) (by omega)]

/-- With the grouping facet, `buffer << abs` writes the decimal digits grouped
in threes from the right. -/
theorem put_unsigned_grouped : ∀ (fuel n : Nat), n ≤ fuel →
    put_unsigned 10 false true n = grouped_decimal fuel n := by
  intro fuel
  induction fuel with
  | zero =>
    intro n h
    have : n = 0 := by omega
    subst this
    rfl
  | succ fuel ih =>
    intro n h
    unfold grouped_decimal
    by_cases hn : n < 1000
    · rw [if_pos hn]
      have hlen := digits_rev_length_le 3 (n + 1) n (by omega) (by omega)
      simp only [put_unsigned, if_true, Bool.false_eq_true, if_false]
      rw [group_rev_short _ 0 (by omega)]
    · rw [if_neg hn, ← ih (n / 1000) (by omega)]
      have hne : digits_rev 10 false (n / 1000 + 1) (n / 1000) ≠ [] :=
        (digits_rev_spec 10 false (by omega) (by omega) (n / 1000 + 1) (n / 1000)
          (by omega)).1
      have e1 : n % 1000 / 100 % 10 = n / 100 % 10 := by omega
      have e2 : n % 1000 / 10 % 10 = n / 10 % 10 := by omega
      have e3 : n % 1000 % 10 = n % 10 := by omega
      simp only [put_unsigned, if_true, three_digits, e1, e2, e3]
      rw [digits_rev_thousand n (by omega), group_rev_three _ _ _ _ hne]
      simp

/-- C18: for every integer magnitude rendered in decimal, with the
thousands-separator flag set the digit body is the decimal digits grouped in
threes from the right with `,` between the groups, a magnitude below 1000
having no separator; the grouped body, separators included, is the number
that goes through the padding code, so the separators count toward the
content length; with the flag clear the body is the decimal numeral and holds
no separator. -/
theorem thousands_grouping {F : Type} (E : FloatEnv F) (T : IntType) (out : Sink) (v : Int)
    (spec : FormatSpec) (hbits : 0 < T.bits) (hv : T.in_range v)
    (hty : spec.type = SpecType.Generic ∨ spec.type = SpecType.Dec) :
    (spec.thoudsandsSeperator = true →
      integer_digits T (magnitude T v) spec
        = some (grouped_decimal v.natAbs v.natAbs) ∧
      format_integer E T out v spec =
        Outcome.ok (write_number out spec (sign_text spec.sign (decide (v < 0)))
          (grouped_decimal v.natAbs v.natAbs)) ∧
      (write_number out spec (sign_text spec.sign (decide (v < 0)))
          (grouped_decimal v.natAbs v.natAbs)).length
        = out.length + max spec.width
            ((sign_text spec.sign (decide (v < 0))).length
              + (grouped_decimal v.natAbs v.natAbs).length) ∧
      (v.natAbs < 1000 → Numeral 10 false (grouped_decimal v.natAbs v.natAbs) v.natAbs ∧
        ',' ∉ grouped_decimal v.natAbs v.natAbs)) ∧
    (spec.thoudsandsSeperator = false →
      ∃ body, integer_digits T (magnitude T v) spec = some body ∧
        Numeral 10 false body v.natAbs ∧ ',' ∉ body) := by
  have hmag : magnitude T v = v.natAbs := magnitude_eq_natAbs T v hbits hv
  have hnc : spec.type ≠ SpecType.Character := by
    rcases hty with h | h <;> simp [h]
  have hdec : spec.isDecimalType = false := by
    unfold FormatSpec.isDecimalType
    rcases hty with h | h <;> simp [h]
  have hbase : base_text spec = [] := by
    unfold base_text
    rcases hty with h | h <;> simp [h]
  have hnocomma : ∀ body, Numeral 10 false body v.natAbs → ',' ∉ body := by
    intro body hb hc
    obtain ⟨d, hd, hcd⟩ := hb.digits ',' hc
    exact comma_not_digit false d (by omega) hcd
  constructor
  · intro hthou
    have hdig : integer_digits T (magnitude T v) spec
        = some (grouped_decimal v.natAbs v.natAbs) := by
      rw [← put_unsigned_grouped v.natAbs v.natAbs (Nat.le_refl _)]
      unfold integer_digits
      rcases hty with h | h <;> simp [h, hthou, hmag]
    refine ⟨hdig, ?_, write_number_length _ _ _ _, ?_⟩
    · unfold format_integer
      simp only [hnc, hdec, if_false, hdig, Bool.false_eq_true, hbase, List.append_nil]
    · intro hlt
      have hg : grouped_decimal v.natAbs v.natAbs = put_unsigned 10 false false v.natAbs := by
        cases hn : v.natAbs with
        | zero => rfl
        | succ m =>
          rw [hn] at hlt
          simp only [grouped_decimal, hlt, if_true]
      rw [hg]
      have hnum := put_unsigned_numeral 10 false (by omega) (by omega) v.natAbs
      exact ⟨hnum, hnocomma _ hnum⟩
  · intro hthou
    have hnum := put_unsigned_numeral 10 false (by omega) (by omega) v.natAbs
    refine ⟨put_unsigned 10 false false v.natAbs, ?_, hnum, hnocomma _ hnum⟩
    unfold integer_digits
    rcases hty with h | h <;> simp [h, hthou, hmag]

/-- The value 1234567 with the thousands separator gives `1,234,567`; in the
width 12 it is preceded by three fill characters, the two commas being
counted (C18). -/
theorem thousands_grouping_witness :
    format_integer Dyadic.env int [] 1234567
        { type := SpecType.Dec, thoudsandsSeperator := true, precision := 6 }
      = Outcome.ok ['1', ',', '2', '3', '4', ',', '5', '6', '7'] ∧
    format_integer Dyadic.env int [] 1234567
        { type := SpecType.Dec, thoudsandsSeperator := true, width := 12,
          alignment := Alignment.Right, fill := '*', precision := 6 }
      = Outcome.ok ['*', '*', '*', '1', ',', '2', '3', '4', ',', '5', '6', '7'] := by
  have h1 := ((thousands_grouping Dyadic.env int [] 1234567
    { type := SpecType.Dec, thoudsandsSeperator := true, precision := 6 }
    (by decide) (by decide) (Or.inr rfl)).1 rfl).2.1
  have h2 := ((thousands_grouping Dyadic.env int [] 1234567
    { type := SpecType.Dec, thoudsandsSeperator := true, width := 12,
      alignment := Alignment.Right, fill := '*', precision := 6 }
    (by decide) (by decide) (Or.inr rfl)).1 rfl).2.1
  have hg : grouped_decimal (1234567 : Int).natAbs (1234567 : Int).natAbs
      = ['1', ',', '2', '3', '4', ',', '5', '6', '7'] := by decide
  rw [hg] at h1 h2
  exact ⟨h1, h2⟩

/-! ## The General presentation type -/

/-- The rule of lines 243-258 as the code has it: the notation is chosen by
the truncated logarithm `(int) std::log10(abs)`. -/
theorem float_digits_general {F : Type} (E : FloatEnv F) (abs : F) (spec : FormatSpec)
    (hty : spec.type = SpecType.General ∨ spec.type = SpecType.Generic) :
    float_digits E abs spec =
      if -4 ≤ E.log10_int abs ∧
          E.log10_int abs < (if spec.precision < 1 then 1 else spec.precision) then
        E.put FloatField.fixed
          ((if spec.precision < 1 then 1 else spec.precision) - 1 - E.log10_int abs)
          spec.upperCase spec.thoudsandsSeperator abs
      else
        E.put FloatField.scientific ((if spec.precision < 1 then 1 else spec.precision) - 1)
          spec.upperCase spec.thoudsandsSeperator abs := by
  unfold float_digits
  rcases hty with h | h <;> simp only [h]

/-- C19, evaluated on the code in exact arithmetic. The value 0.5 has the
decimal exponent -1, and with the precision 6 the claim asks for the fixed
notation with 6 fractional digits, `0.500000`; the code truncates the
logarithm -0.30 to 0 and writes 5 fractional digits, `0.50000`. The value
2^-15 = 0.000030517578125 has the decimal exponent -5, for which the claim asks
for the scientific notation `3.05176e-05`; the code truncates the logarithm
-4.52 to -4 and writes the fixed notation with 9 fractional digits,
`0.000030518`. -/
theorem general_exponent_truncated :
    Dyadic.decimal_exponent 1 2 = -1 ∧
    Dyadic.env.log10_int ⟨false, 1, -1⟩ = 0 ∧
    float_digits Dyadic.env ⟨false, 1, -1⟩ { type := SpecType.General, precision := 6 }
      = ['0', '.', '5', '0', '0', '0', '0'] ∧
    Dyadic.env.put FloatField.fixed (6 - 1 - (-1)) false false ⟨false, 1, -1⟩
      = ['0', '.', '5', '0', '0', '0', '0', '0'] ∧
    Dyadic.decimal_exponent 1 (2 ^ 15) = -5 ∧
    Dyadic.env.log10_int ⟨false, 1, -15⟩ = -4 ∧
    float_digits Dyadic.env ⟨false, 1, -15⟩ { type := SpecType.General, precision := 6 }
      = ['0', '.', '0', '0', '0', '0', '3', '0', '5', '1', '8'] ∧
    Dyadic.env.put FloatField.scientific (6 - 1) false false ⟨false, 1, -15⟩
      = ['3', '.', '0', '5', '1', '7', '6', 'e', '-', '0', '5'] := by
  decide

/-! ## `BasicFormat::apply` -/

/-- The loop over a concatenation runs the first part, then the second part on
the sink the first part leaves. -/
theorem apply_append {Fmts : Type} (pre post : List (FormatItem Fmts)) (out : Sink)
    (fs : Fmts) :
    BasicFormat.apply (pre ++ post) out fs =
      match BasicFormat.apply pre out fs with
      | Outcome.ok mid => BasicFormat.apply post mid fs
      | Outcome.thrown e o => Outcome.thrown e o
      | Outcome.diverges => Outcome.diverges := by
  induction pre generalizing out with
  | nil => rfl
  | cons item rest ih =>
    simp only [List.cons_append, BasicFormat.apply]
    cases item out fs with
    | ok out1 => exact ih out1
    | thrown e o => rfl
    | diverges => rfl

/-- Items that each return after writing their text leave the texts in the
sink, in order. -/
theorem apply_all_ok {Fmts : Type} (fs : Fmts) :
    ∀ (items : List (FormatItem Fmts)) (texts : List (List Char)) (out : Sink),
      List.Forall₂ (fun item text => ∀ s, item s fs = Outcome.ok (s ++ text)) items texts →
      BasicFormat.apply items out fs = Outcome.ok (out ++ texts.flatten) := by
  intro items texts out h
  induction h generalizing out with
  | nil => simp [BasicFormat.apply]
  | cons hit _ ih =>
    simp only [BasicFormat.apply, hit out, List.flatten_cons]
    rw [ih, List.append_assoc]

/-- C20: `BasicFormat::apply` executes the items in order and stops at the
first failing one. If the items before the `k`-th one return, leaving the sink
`mid`, and the `k`-th item throws on `mid` with the sink `failed`, then
`apply` throws the same exception with the sink `failed`, whatever the items
after it are: none of them is run and nothing is rolled back. When the items
before it have written the texts `texts` and the failing item has written
`written` before it threw, the sink holds the sink at the call, the texts in
order and `written`. If no item fails, the sink holds the texts of all the
items in order. -/
theorem apply_stops_at_first_failure {Fmts : Type} (pre post : List (FormatItem Fmts))
    (item : FormatItem Fmts) (out : Sink) (fs : Fmts) :
    (∀ mid e failed, BasicFormat.apply pre out fs = Outcome.ok mid →
      item mid fs = Outcome.thrown e failed →
      BasicFormat.apply (pre ++ item :: post) out fs = Outcome.thrown e failed ∧
        ∀ post1, BasicFormat.apply (pre ++ item :: post1) out fs
          = BasicFormat.apply (pre ++ item :: post) out fs) ∧
    (∀ texts e written,
      List.Forall₂ (fun it text => ∀ s, it s fs = Outcome.ok (s ++ text)) pre texts →
      item (out ++ texts.flatten) fs = Outcome.thrown e (out ++ texts.flatten ++ written) →
      BasicFormat.apply (pre ++ item :: post) out fs
        = Outcome.thrown e (out ++ texts.flatten ++ written)) ∧
    (∀ texts,
      List.Forall₂ (fun it text => ∀ s, it s fs = Outcome.ok (s ++ text))
        (pre ++ item :: post) texts →
      BasicFormat.apply (pre ++ item :: post) out fs = Outcome.ok (out ++ texts.flatten)) := by
  have key : ∀ mid e failed post1, BasicFormat.apply pre out fs = Outcome.ok mid →
      item mid fs = Outcome.thrown e failed →
      BasicFormat.apply (pre ++ item :: post1) out fs = Outcome.thrown e failed := by
    intro mid e failed post1 hpre hitem
    rw [apply_append, hpre]
    simp only [BasicFormat.apply, hitem]
  refine ⟨?_, ?_, ?_⟩
  · intro mid e failed hpre hitem
    refine ⟨key mid e failed post hpre hitem, ?_⟩
    intro post1
    rw [key mid e failed post hpre hitem, key mid e failed post1 hpre hitem]
  · intro texts e written hpre hitem
    exact key _ e _ post (apply_all_ok fs pre texts out hpre) hitem
  · intro texts h
    exact apply_all_ok fs _ texts out h

/-- A template of five items, the fourth of which is a string field with a
sign: the sink holds the output of the first three items, the fifth item is
never run, and the exception of the field is the outcome (C20). -/
theorem apply_stops_at_first_failure_witness :
    BasicFormat.apply
        ([(fun s (_ : Unit) => Outcome.ok (s ++ ['a', '='])),
          (fun s _ => format_integer Dyadic.env int s 5 { precision := 6 }),
          (fun s _ => Outcome.ok (s ++ [';']))]
          ++ (fun s _ => format_string s ['x'] { sign := Sign.Always, precision := 6 })
          :: [fun _ _ => Outcome.diverges]) [] ()
      = Outcome.thrown Error.sign_not_allowed ['a', '=', '5', ';'] :=
  ((apply_stops_at_first_failure
      [(fun s (_ : Unit) => Outcome.ok (s ++ ['a', '='])),
       (fun s _ => format_integer Dyadic.env int s 5 { precision := 6 }),
       (fun s _ => Outcome.ok (s ++ [';']))]
      [fun _ _ => Outcome.diverges]
      (fun s _ => format_string s ['x'] { sign := Sign.Always, precision := 6 })
      [] ()).1 ['a', '=', '5', ';'] Error.sign_not_allowed ['a', '=', '5', ';']
      (by decide) (by decide)).1

/-! ## Bound formats -/

/-- C22: when `NDEBUG` is defined the debug variant is a no-op for every
template text and every argument list: it returns without parsing, so without
failing, also on the unterminated field made of one opening brace, on which
the checked variant fails as soon as the parser does; the returned object
gives the empty string, and its `write_into` and its stream insertion leave
the sink as it is. -/
theorem debug_is_noop {Args Fmts : Type} (fmt : List Char) (args : Args) (out : Sink)
    (make_formatters : Args → Fmts) (e : Error) :
    debug_NDEBUG fmt args = Returned.value ({} : DummyBoundFormat) ∧
    debug_NDEBUG [Char.ofNat 123] args = Returned.value ({} : DummyBoundFormat) ∧
    debug_checked (fun _ => Returned.thrown e) make_formatters [Char.ofNat 123] args
      = Returned.thrown e ∧
    (∀ d : DummyBoundFormat, d.str = Returned.value [] ∧
      d.write_into out = Outcome.ok out ∧ DummyBoundFormat.insert out d = Outcome.ok out) :=
  ⟨rfl, rfl, rfl, fun _ => ⟨rfl, rfl, rfl⟩⟩

/-- C23: the brackets are chosen by the container type alone: vectors, lists
and arrays are bound with `[` and `]` (codes 91 and 93), sets, unordered sets,
maps and unordered maps with the braces (codes 123 and 125), the two map types
with the entry renderer of maps; and under the three conversions the slice
formatter hands exactly these two characters to its rendering routine. -/
theorem make_formatter_brackets {α : Type} (c : Container)
    (_format : Sink → List α → FormatSpec → Char → Char → Outcome)
    (_repr : Sink → List α → Char → Char → Outcome) (DEFAULT S : FormatSpec)
    (slice : List α) (out : Sink) :
    (make_formatter Container.vector = ⟨Char.ofNat 91, Char.ofNat 93, SliceRenderer.slice⟩ ∧
      make_formatter Container.list = ⟨Char.ofNat 91, Char.ofNat 93, SliceRenderer.slice⟩ ∧
      make_formatter Container.array = ⟨Char.ofNat 91, Char.ofNat 93, SliceRenderer.slice⟩ ∧
      make_formatter Container.set = ⟨Char.ofNat 123, Char.ofNat 125, SliceRenderer.slice⟩ ∧
      make_formatter Container.unordered_set
        = ⟨Char.ofNat 123, Char.ofNat 125, SliceRenderer.slice⟩ ∧
      make_formatter Container.map = ⟨Char.ofNat 123, Char.ofNat 125, SliceRenderer.map⟩ ∧
      make_formatter Container.unordered_map
        = ⟨Char.ofNat 123, Char.ofNat 125, SliceRenderer.map⟩) ∧
    (Char.ofNat 91 = '[' ∧ Char.ofNat 93 = ']') ∧
    SliceFormatter.format _format _repr DEFAULT (make_formatter c).left
        (make_formatter c).right slice out Conversion.GenericConv S
      = _format out slice S (make_formatter c).left (make_formatter c).right ∧
    SliceFormatter.format _format _repr DEFAULT (make_formatter c).left
        (make_formatter c).right slice out Conversion.StrConv S
      = through_buffer
          (_format [] slice DEFAULT (make_formatter c).left (make_formatter c).right) out S ∧
    SliceFormatter.format _format _repr DEFAULT (make_formatter c).left
        (make_formatter c).right slice out Conversion.ReprConv S
      = through_buffer (_repr [] slice (make_formatter c).left (make_formatter c).right)
          out S ∧
    SliceFormatter.format (fun o (_ : List α) _ l r => Outcome.ok (o ++ [l, r]))
        (fun o _ l r => Outcome.ok (o ++ [l, r])) DEFAULT (make_formatter c).left
        (make_formatter c).right slice out Conversion.GenericConv S
      = Outcome.ok (out ++ [(make_formatter c).left, (make_formatter c).right]) :=
  ⟨⟨rfl, rfl, rfl, rfl, rfl, rfl, rfl⟩, ⟨by decide, by decide⟩, rfl, rfl, rfl, rfl⟩

/-! ## Binary digits of the 64-bit types -/

/-- In the type of 64 bits the loop of line 114 never ends on a magnitude that
is not 0: the mask of line 113 is 0. -/
theorem format_integer_bin_wide {F : Type} (E : FloatEnv F) (T : IntType) (out : Sink)
    (v : Int) (spec : FormatSpec) (hbits : T.bits = 64) (hty : spec.type = SpecType.Bin)
    (hv : magnitude T v ≠ 0) :
    format_integer E T out v spec = Outcome.diverges := by
  have hnc : spec.type ≠ SpecType.Character := by simp [hty]
  have hdec : spec.isDecimalType = false := by simp [FormatSpec.isDecimalType, hty]
  have hmask : initial_bit T.bits = 0 := by rw [hbits]; decide
  unfold format_integer
  simp only [hnc, hdec, if_false, Bool.false_eq_true]
  unfold integer_digits
  simp only [hty, hv, if_false, hmask, skip_clear_bits_zero]

/-- C24, evaluated on the code: the mask of line 113 is computed in `int`, the
type of the literal `1`; for a type of 64 bits the shift count 63 is not below
the width of `int`, and held in 32 bits the result is 0, not `2 ^ 63`. The
loop of line 114 then never ends, whatever its fuel: the value 5 is not
rendered in binary as a `long long` or as an `unsigned long long`, while as an
`int` it gives `101`. -/
theorem bin_wide_diverges :
    initial_bit 64 = 0 ∧ initial_bit 32 = 2 ^ 31 ∧
    (∀ fuel, skip_clear_bits 5 fuel (initial_bit 64) = none) ∧
    format_integer Dyadic.env long [] 5 { type := SpecType.Bin, precision := 6 }
      = Outcome.diverges ∧
    format_integer Dyadic.env unsigned_long [] 5 { type := SpecType.Bin, precision := 6 }
      = Outcome.diverges ∧
    format_integer Dyadic.env int [] 5 { type := SpecType.Bin, precision := 6 }
      = Outcome.ok ['1', '0', '1'] := by
  refine ⟨by decide, by decide, ?_, by decide, by decide, by decide⟩
  intro fuel
  have h : initial_bit 64 = 0 := by decide
  rw [h]
  exact skip_clear_bits_zero 5 fuel

/-! ## Failure before the first write -/

/-- The function `format_string` returns, or throws with the sink as it was
at the call. -/
theorem format_string_cases (out : Sink) (value : List Char) (spec : FormatSpec) :
    (∃ out1, format_string out value spec = Outcome.ok out1) ∨
      (∃ e, format_string out value spec = Outcome.thrown e out) := by
  unfold format_string
  dsimp only
  repeat' split
  all_goals first
    | exact Or.inl ⟨_, rfl⟩
    | exact Or.inr ⟨_, rfl⟩

/-- An exception of `format_string` leaves the sink as it was at the call. -/
theorem format_string_thrown_sink (out failed : Sink) (value : List Char)
    (spec : FormatSpec) (e : Error)
    (h : format_string out value spec = Outcome.thrown e failed) : failed = out := by
  rcases format_string_cases out value spec with ⟨o, ho⟩ | ⟨e1, he1⟩
  · rw [ho] at h
    exact absurd h (by simp)
  · rw [he1] at h
    cases h
    rfl

/-- The function `format_string` returns or throws. -/
theorem format_string_ne_diverges (out : Sink) (value : List Char) (spec : FormatSpec) :
    format_string out value spec ≠ Outcome.diverges := by
  intro h
  rcases format_string_cases out value spec with ⟨o, ho⟩ | ⟨e1, he1⟩
  · rw [ho] at h
    exact absurd h (by simp)
  · rw [he1] at h
    exact absurd h (by simp)

/-- An exception of `format_float` leaves the sink as it was at the call. -/
theorem format_float_thrown_sink {F : Type} (E : FloatEnv F) (out failed : Sink) (x : F)
    (spec : FormatSpec) (e : Error)
    (h : format_float E out x spec = Outcome.thrown e failed) : failed = out := by
  unfold format_float at h
  split at h
  · cases h
    rfl
  · exact absurd h (by simp)

/-- An exception of `format_integer` leaves the sink as it was at the call. -/
theorem format_integer_thrown_sink {F : Type} (E : FloatEnv F) (T : IntType)
    (out failed : Sink) (v : Int) (spec : FormatSpec) (e : Error)
    (h : format_integer E T out v spec = Outcome.thrown e failed) : failed = out := by
  unfold format_integer at h
  split at h
  · exact format_string_thrown_sink out failed _ _ e h
  · split at h
    · exact format_float_thrown_sink E out failed _ spec e h
    · dsimp only at h
      cases hd : integer_digits T (magnitude T v) spec <;> rw [hd] at h <;>
        exact absurd h (by simp)

/-- C25: rendering one scalar value is atomic with respect to failure: for
every boolean, character, integer, floating and string value and every
specification, when `format_value` throws, the sink is what it was at the
call; every check comes before the first write. The statement holds for every
reading of the predicates `isNumberType` and `isStringType`. -/
theorem format_value_atomic {F : Type} (E : FloatEnv F) (P : SpecPredicates) (T : IntType)
    (out failed : Sink) (spec : FormatSpec) (e : Error) :
    (∀ b, format_value_bool E P out b spec = Outcome.thrown e failed → failed = out) ∧
    (∀ c, format_value_char E P out c spec = Outcome.thrown e failed → failed = out) ∧
    (∀ c, format_value_uchar E P out c spec = Outcome.thrown e failed → failed = out) ∧
    (∀ v, format_value_integer E T out v spec = Outcome.thrown e failed → failed = out) ∧
    (∀ x, format_value_float E out x spec = Outcome.thrown e failed → failed = out) ∧
    (∀ str, format_value_string out str spec = Outcome.thrown e failed → failed = out) ∧
    (∀ str, format_value_cstr out str spec = Outcome.thrown e failed → failed = out) := by
  refine ⟨?_, ?_, ?_, ?_, ?_, ?_, ?_⟩
  · intro b h
    unfold format_value_bool at h
    split at h
    · exact format_integer_thrown_sink E _ out failed _ spec e h
    · exact format_string_thrown_sink out failed _ _ e h
  · intro c h
    unfold format_value_char at h
    split at h
    · exact format_string_thrown_sink out failed _ _ e h
    · exact format_integer_thrown_sink E _ out failed _ spec e h
  · intro c h
    unfold format_value_uchar at h
    split at h
    · exact format_string_thrown_sink out failed _ _ e h
    · exact format_integer_thrown_sink E _ out failed _ spec e h
  · intro v h
    exact format_integer_thrown_sink E T out failed v spec e h
  · intro x h
    exact format_float_thrown_sink E out failed x spec e h
  · intro str h
    exact format_string_thrown_sink out failed str spec e h
  · intro str h
    exact format_string_thrown_sink out failed str spec e h

/-- The string `x` with a sign, written to a sink that holds `ab`, throws and
leaves `ab`; so does the value 1.5 with the type Hex (C25). -/
theorem format_value_atomic_witness :
    format_value_cstr ['a', 'b'] ['x'] { sign := Sign.Always, precision := 6 }
      = Outcome.thrown Error.sign_not_allowed ['a', 'b'] ∧
    format_value_float Dyadic.env ['a', 'b'] ⟨false, 3, -1⟩
        { type := SpecType.Hex, precision := 6 }
      = Outcome.thrown Error.float_non_decimal ['a', 'b'] ∧
    (['a', 'b'] : Sink) = ['a', 'b'] :=
  ⟨by decide, by decide,
    (format_value_atomic Dyadic.env ⟨fun _ => false, fun _ => false⟩ int ['a', 'b']
      ['a', 'b'] { sign := Sign.Always, precision := 6 } Error.sign_not_allowed).2.2.2.2.2.2
      ['x'] (by decide)⟩

/-! ## Booleans and characters -/

/-- The text of a boolean is a C string of 4 or 5 characters. -/
theorem strlen_bool_text (upper value : Bool) :
    strlen (bool_text upper value) = (bool_text upper value).length ∧
      4 ≤ (bool_text upper value).length := by
  cases upper <;> cases value <;> decide

/-- C26: for every boolean `b`, when the predicate `isNumberType` holds of the
specification `b` is rendered by `format_integer` as the `unsigned int` 1 or
0, and otherwise by `format_string`, under the type String, as the text `true`
or `false`, in capitals when the upper-case flag is set: so a sign policy, the
thousands-separator flag or the alternate-form flag makes it throw, and the
default alignment puts the fill after the text. -/
theorem format_value_bool_paths {F : Type} (E : FloatEnv F) (P : SpecPredicates)
    (out : Sink) (b : Bool) (spec : FormatSpec) :
    (P.isNumberType spec = true →
      format_value_bool E P out b spec
        = format_integer E unsigned_int out (if b then 1 else 0) spec ∧
      magnitude unsigned_int (if b then 1 else 0) = (if b then 1 else 0)) ∧
    (P.isNumberType spec = false →
      format_value_bool E P out b spec
        = format_string out (bool_text spec.upperCase b)
            { spec with type := SpecType.String } ∧
      ((spec.sign ≠ Sign.DefaultSign ∨ spec.thoudsandsSeperator = true ∨
          spec.alternate = true) →
        ∃ e, format_value_bool E P out b spec = Outcome.thrown e out) ∧
      (spec.sign = Sign.DefaultSign → spec.thoudsandsSeperator = false →
        spec.alternate = false →
        (spec.width ≤ (bool_text spec.upperCase b).length →
          format_value_bool E P out b spec
            = Outcome.ok (out ++ bool_text spec.upperCase b)) ∧
        ((bool_text spec.upperCase b).length < spec.width →
          (spec.alignment = Alignment.DefaultAlignment ∨
            spec.alignment = Alignment.Left) →
          format_value_bool E P out b spec
            = Outcome.ok (out ++ bool_text spec.upperCase b
                ++ List.replicate (spec.width - (bool_text spec.upperCase b).length)
                    spec.fill)))) := by
  have hpath : P.isNumberType spec = false →
      format_value_bool E P out b spec
        = format_string out (bool_text spec.upperCase b)
            { spec with type := SpecType.String } := by
    intro hn
    unfold format_value_bool bool_text
    simp only [hn, Bool.false_eq_true, if_false]
  obtain ⟨hlen, h4⟩ := strlen_bool_text spec.upperCase b
  have htake : List.take (bool_text spec.upperCase b).length (bool_text spec.upperCase b)
      = bool_text spec.upperCase b := List.take_length _
  constructor
  · intro hn
    constructor
    · unfold format_value_bool
      simp only [hn, if_true]
    · cases b <;> decide
  · intro hn
    refine ⟨hpath hn, ?_, ?_⟩
    · intro hbad
      rw [hpath hn]
      rcases format_string_cases out (bool_text spec.upperCase b)
        { spec with type := SpecType.String } with ⟨o, ho⟩ | hthrown
      · obtain ⟨hs, ht, _, ha⟩ := format_string_ok_legal out o _ _ ho
        rcases hbad with h | h | h
        · exact absurd hs h
        · rw [ht] at h
          exact absurd h (by simp)
        · rw [ha] at h
          exact absurd h (by simp)
      · exact hthrown
    · intro hs ht ha
      constructor
      · intro hw
        rw [hpath hn, format_string_of_legal out _ { spec with type := SpecType.String }
          hs ht ha (Or.inr rfl), hlen]
        rw [if_neg (show ¬ (0 < spec.width ∧ (bool_text spec.upperCase b).length < spec.width)
          from fun h => by omega)]
        simp only [write, htake]
      · intro hw hal
        rw [hpath hn, format_string_of_legal out _ { spec with type := SpecType.String }
          hs ht ha (Or.inr rfl), hlen]
        rw [if_pos (show 0 < spec.width ∧ (bool_text spec.upperCase b).length < spec.width
          from ⟨by omega, hw⟩)]
        rcases hal with hal | hal <;> simp only [hal, fill, write, htake]

/-- With the type Dec read as a number type the boolean `true` gives `1`;
with the generic type read as no number type it gives `true`, and `TRUE`
followed by two spaces in the width 6 with the upper-case flag (C26). -/
theorem format_value_bool_paths_witness :
    format_value_bool Dyadic.env
        ⟨fun s => decide (s.type = SpecType.Dec), fun s => decide (s.type = SpecType.String)⟩
        [] true { type := SpecType.Dec, precision := 6 }
      = Outcome.ok ['1'] ∧
    format_value_bool Dyadic.env
        ⟨fun s => decide (s.type = SpecType.Dec), fun s => decide (s.type = SpecType.String)⟩
        [] true { precision := 6 }
      = Outcome.ok ['t', 'r', 'u', 'e'] ∧
    format_value_bool Dyadic.env
        ⟨fun s => decide (s.type = SpecType.Dec), fun s => decide (s.type = SpecType.String)⟩
        [] true { upperCase := true, width := 6, precision := 6 }
      = Outcome.ok ['T', 'R', 'U', 'E', ' ', ' '] := by
  refine ⟨?_, ?_, ?_⟩
  · rw [((format_value_bool_paths Dyadic.env
      ⟨fun s => decide (s.type = SpecType.Dec), fun s => decide (s.type = SpecType.String)⟩
      [] true { type := SpecType.Dec, precision := 6 }).1 (by decide)).1]
    decide
  · exact ((format_value_bool_paths Dyadic.env
      ⟨fun s => decide (s.type = SpecType.Dec), fun s => decide (s.type = SpecType.String)⟩
      [] true { precision := 6 }).2 (by decide)).2.2 rfl rfl rfl |>.1 (by decide)
  · exact ((format_value_bool_paths Dyadic.env
      ⟨fun s => decide (s.type = SpecType.Dec), fun s => decide (s.type = SpecType.String)⟩
      [] true { upperCase := true, width := 6, precision := 6 }).2 (by decide)).2.2
      rfl rfl rfl |>.2 (by decide) (Or.inl rfl)

/-- No digit is the NUL character. -/
theorem digit_char_ne_nul (upper : Bool) (d : Nat) (h : d < 16) :
    digit_char upper d ≠ Char.ofNat 0 := by
  revert upper d
  decide

/-- The sign and the decimal digits of a number are a C string in full. -/
theorem strlen_sign_digits (sign : Sign) (negative : Bool) (n : Nat) :
    strlen (sign_text sign negative ++ put_unsigned 10 false false n)
      = (sign_text sign negative ++ put_unsigned 10 false false n).length := by
  apply strlen_eq_length
  intro c hc
  rw [List.mem_append] at hc
  rcases hc with hc | hc
  · cases sign <;> cases negative <;> simp [sign_text] at hc <;> subst hc <;> decide
  · obtain ⟨d, hd, hcd⟩ :=
      (put_unsigned_numeral 10 false (by omega) (by omega) n).digits c hc
    rw [hcd]
    exact digit_char_ne_nul false d (by omega)

/-- A specification that is illegal for strings makes `format_string` throw. -/
theorem format_string_illegal (out : Sink) (value : List Char) (S : FormatSpec)
    (h : S.sign ≠ Sign.DefaultSign ∨ S.thoudsandsSeperator = true ∨ S.alternate = true ∨
      (S.type ≠ SpecType.Generic ∧ S.type ≠ SpecType.String)) :
    ∃ e, format_string out value S = Outcome.thrown e out := by
  rcases format_string_cases out value S with ⟨o, ho⟩ | hthrown
  · obtain ⟨hs, ht, hty, ha⟩ := format_string_ok_legal out o value S ho
    rcases h with h | h | h | ⟨hg, hstr⟩
    · exact absurd hs h
    · rw [ht] at h
      exact absurd h (by simp)
    · rw [ha] at h
      exact absurd h (by simp)
    · rcases hty with hty | hty
      · exact absurd hty hg
      · exact absurd hty hstr
  · exact hthrown

/-- Under the default specification an integer is written as its sign and its
decimal digits. -/
theorem format_integer_default {F : Type} (E : FloatEnv F) (T : IntType) (out : Sink)
    (v : Int) (D : FormatSpec) (hD : D.is_default) :
    format_integer E T out v D =
      Outcome.ok (out ++ (sign_text Sign.DefaultSign (decide (v < 0))
        ++ put_unsigned 10 false false (magnitude T v))) := by
  obtain ⟨_, _, hsign, _, hthou, hwidth, htype, _⟩ := hD
  have hnc : D.type ≠ SpecType.Character := by simp [htype]
  have hdec : D.isDecimalType = false := by simp [FormatSpec.isDecimalType, htype]
  have hdig : integer_digits T (magnitude T v) D
      = some (put_unsigned 10 false false (magnitude T v)) := by
    simp [integer_digits, htype, hthou]
  have hbase : base_text D = [] := by simp [base_text, htype]
  unfold format_integer
  simp only [hnc, hdec, if_false, hdig, Bool.false_eq_true, hbase, List.append_nil, hsign]
  rw [write_number_of_le _ _ _ _ (by omega), List.append_assoc]

/-- The function `format_string` returns on every specification that is legal
for strings and whose alignment is not AfterSign. -/
theorem format_string_returns (out : Sink) (value : List Char) (spec : FormatSpec)
    (hsign : spec.sign = Sign.DefaultSign) (hthou : spec.thoudsandsSeperator = false)
    (halt : spec.alternate = false)
    (htype : spec.type = SpecType.Generic ∨ spec.type = SpecType.String)
    (hal : spec.alignment ≠ Alignment.AfterSign) :
    ∃ out1, format_string out value spec = Outcome.ok out1 := by
  rw [format_string_of_legal out value spec hsign hthou halt htype]
  by_cases hw : 0 < spec.width ∧ strlen value < spec.width
  · rw [if_pos hw]
    cases ha : spec.alignment
    · exact ⟨_, rfl⟩
    · exact ⟨_, rfl⟩
    · exact ⟨_, rfl⟩
    · exact ⟨_, rfl⟩
    · exact absurd ha hal
  · rw [if_neg hw]
    exact ⟨_, rfl⟩

/-- C28 as stated fails for the type Character with a field the string rules
reject: with the type Character and a sign (`+c`), the thousands separator
(`,c`) or the alignment AfterSign in a width above 1 (`=3c`), the `int` 52
fails under the Str conversion, and it fails under the Generic conversion as
well. The representation function is a stand-in. -/
theorem converted_integer_counterexample :
    ValueFormatter.format (format_value_integer Dyadic.env int)
        (fun o _ => Outcome.ok o) { precision := 6 } 52 [] Conversion.StrConv
        { sign := Sign.Always, type := SpecType.Character, precision := 6 }
      = Outcome.thrown Error.sign_not_allowed [] ∧
    ValueFormatter.format (format_value_integer Dyadic.env int)
        (fun o _ => Outcome.ok o) { precision := 6 } 52 [] Conversion.GenericConv
        { sign := Sign.Always, type := SpecType.Character, precision := 6 }
      = Outcome.thrown Error.sign_not_allowed [] ∧
    ValueFormatter.format (format_value_integer Dyadic.env int)
        (fun o _ => Outcome.ok o) { precision := 6 } 52 [] Conversion.StrConv
        { thoudsandsSeperator := true, type := SpecType.Character, precision := 6 }
      = Outcome.thrown Error.thousands_not_allowed [] ∧
    ValueFormatter.format (format_value_integer Dyadic.env int)
        (fun o _ => Outcome.ok o) { precision := 6 } 52 [] Conversion.GenericConv
        { thoudsandsSeperator := true, type := SpecType.Character, precision := 6 }
      = Outcome.thrown Error.thousands_not_allowed [] ∧
    ValueFormatter.format (format_value_integer Dyadic.env int)
        (fun o _ => Outcome.ok o) { precision := 6 } 52 [] Conversion.StrConv
        { alignment := Alignment.AfterSign, width := 3, type := SpecType.Character,
          precision := 6 }
      = Outcome.thrown Error.invalid_string_type [] ∧
    ValueFormatter.format (format_value_integer Dyadic.env int)
        (fun o _ => Outcome.ok o) { precision := 6 } 52 [] Conversion.GenericConv
        { alignment := Alignment.AfterSign, width := 3, type := SpecType.Character,
          precision := 6 }
      = Outcome.thrown Error.after_sign_not_allowed [] := by
  decide

/-- C28, amended: for every integer argument, a field with the Str or the Repr
conversion throws whenever the outer specification carries a sign policy, the
thousands-separator flag, the alternate-form flag or a presentation type other
than Generic and String; under the Generic conversion the same argument is
rendered with every specification whose type is not Character (for the type
Bin on the integer types of at most 32 bits and on the value 0), and with
every specification of the type Character that has the default sign, no
thousands separator, no alternate form and an alignment other than AfterSign,
on which the Str conversion fails; and with an outer specification that has only a fill, an alignment among Left, Right and
Center and a width, the Str conversion writes what the Generic conversion
writes. `D` is the default specification; the representation function, which
is declared outside the sources, is a parameter. -/
theorem converted_integer {F : Type} (E : FloatEnv F) (T : IntType)
    (_repr : Sink → Int → Outcome) (D S : FormatSpec) (out : Sink) (v : Int)
    (hD : D.is_default) :
    ((S.sign ≠ Sign.DefaultSign ∨ S.thoudsandsSeperator = true ∨ S.alternate = true ∨
        (S.type ≠ SpecType.Generic ∧ S.type ≠ SpecType.String)) →
      (∃ e, ValueFormatter.format (format_value_integer E T) _repr D v out
          Conversion.StrConv S = Outcome.thrown e out) ∧
      (∀ text, _repr [] v = Outcome.ok text →
        ∃ e, ValueFormatter.format (format_value_integer E T) _repr D v out
          Conversion.ReprConv S = Outcome.thrown e out)) ∧
    (S.type ≠ SpecType.Character → (S.type = SpecType.Bin → T.bits ≤ 32 ∨ v = 0) →
      ∃ out1, ValueFormatter.format (format_value_integer E T) _repr D v out
        Conversion.GenericConv S = Outcome.ok out1) ∧
    (S.type = SpecType.Character → S.sign = Sign.DefaultSign →
      S.thoudsandsSeperator = false → S.alternate = false →
      S.alignment ≠ Alignment.AfterSign →
      (∃ out1, ValueFormatter.format (format_value_integer E T) _repr D v out
        Conversion.GenericConv S = Outcome.ok out1) ∧
      (∃ e, ValueFormatter.format (format_value_integer E T) _repr D v out
        Conversion.StrConv S = Outcome.thrown e out)) ∧
    (S.sign = Sign.DefaultSign → S.thoudsandsSeperator = false → S.alternate = false →
      S.type = SpecType.Generic →
      (S.alignment = Alignment.Left ∨ S.alignment = Alignment.Right ∨
        S.alignment = Alignment.Center) →
      ValueFormatter.format (format_value_integer E T) _repr D v out Conversion.StrConv S
        = ValueFormatter.format (format_value_integer E T) _repr D v out
            Conversion.GenericConv S) := by
  have hstr : ValueFormatter.format (format_value_integer E T) _repr D v out
      Conversion.StrConv S
      = format_string out (sign_text Sign.DefaultSign (decide (v < 0))
          ++ put_unsigned 10 false false (magnitude T v)) S := by
    simp only [ValueFormatter.format, through_buffer, format_value_integer,
      format_integer_default E T [] v D hD, List.nil_append, format_value_string]
  refine ⟨?_, ?_, ?_, ?_⟩
  · intro hbad
    constructor
    · rw [hstr]
      exact format_string_illegal out _ S hbad
    · intro text htext
      simp only [ValueFormatter.format, through_buffer, htext, format_value_string]
      exact format_string_illegal out _ S hbad
  · intro hnc hbin
    show ∃ out1, format_integer E T out v S = Outcome.ok out1
    by_cases hdec : S.isDecimalType = true
    · have h1 : format_integer E T out v S = format_float E out (E.of_int v) S := by
        unfold format_integer
        rw [if_neg hnc, if_pos hdec]
      exact ⟨_, h1.trans (format_float_eq E out (E.of_int v) S (Or.inl hdec))⟩
    · obtain ⟨num, _, h⟩ := format_integer_eq_or_zero E T out v S hnc
        (by simpa using hdec) hbin
      exact ⟨_, h⟩
  · intro hc hsign hthou halt hal
    constructor
    · show ∃ out1, format_integer E T out v S = Outcome.ok out1
      rw [format_integer_character_eq E T out v S hc]
      exact format_string_returns out _ { S with type := SpecType.String } hsign hthou halt
        (Or.inr rfl) hal
    · rw [hstr]
      exact format_string_illegal out _ S
        (Or.inr (Or.inr (Or.inr ⟨by simp [hc], by simp [hc]⟩)))
  · intro hsign hthou halt htype hal
    rw [hstr]
    show _ = format_integer E T out v S
    have hnc : S.type ≠ SpecType.Character := by simp [htype]
    have hdec : S.isDecimalType = false := by simp [FormatSpec.isDecimalType, htype]
    have hdig : integer_digits T (magnitude T v) S
        = some (put_unsigned 10 false false (magnitude T v)) := by
      simp [integer_digits, htype, hthou]
    have hbase : base_text S = [] := by simp [base_text, htype]
    have hint : format_integer E T out v S
        = Outcome.ok (write_number out S (sign_text Sign.DefaultSign (decide (v < 0)))
            (put_unsigned 10 false false (magnitude T v))) := by
      unfold format_integer
      simp only [hnc, hdec, if_false, hdig, Bool.false_eq_true, hbase, List.append_nil,
        hsign]
    rw [hint, format_string_of_legal out _ S hsign hthou halt (Or.inl htype),
      strlen_sign_digits]
    simp only [write_all, fill]
    by_cases hw : (sign_text Sign.DefaultSign (decide (v < 0))
        ++ put_unsigned 10 false false (magnitude T v)).length < S.width
    · have hw1 : (sign_text Sign.DefaultSign (decide (v < 0))).length
          + (put_unsigned 10 false false (magnitude T v)).length < S.width := by
        rw [← List.length_append]
        exact hw
      rw [if_pos ⟨by omega, hw⟩, write_number_of_lt _ _ _ _ hw1]
      rcases hal with hal | hal | hal <;>
        simp only [hal, List.length_append, List.append_assoc]
    · have hw1 : S.width ≤ (sign_text Sign.DefaultSign (decide (v < 0))).length
          + (put_unsigned 10 false false (magnitude T v)).length := by
        rw [← List.length_append]
        omega
      rw [if_neg (fun h => hw h.2), write_number_of_le _ _ _ _ hw1]
      simp only [List.append_assoc]

/-- The `int` -42 under the Str conversion fails with the specification of a
sign, is rendered with it under the Generic conversion, and is centred in the
width 7 in the same way under both conversions; the `int` 52 with the type
Character is rendered under the Generic conversion and fails under the Str
conversion (C28). -/
theorem converted_integer_witness :
    (∃ e, ValueFormatter.format (format_value_integer Dyadic.env int)
        (fun o _ => Outcome.ok o) { precision := 6 } (-42) [] Conversion.StrConv
        { sign := Sign.Always, precision := 6 } = Outcome.thrown e []) ∧
    (∃ out1, ValueFormatter.format (format_value_integer Dyadic.env int)
        (fun o _ => Outcome.ok o) { precision := 6 } (-42) [] Conversion.GenericConv
        { sign := Sign.Always, precision := 6 } = Outcome.ok out1) ∧
    ValueFormatter.format (format_value_integer Dyadic.env int)
        (fun o _ => Outcome.ok o) { precision := 6 } (-42) [] Conversion.StrConv
        { fill := '*', width := 7, alignment := Alignment.Center, precision := 6 }
      = ValueFormatter.format (format_value_integer Dyadic.env int)
        (fun o _ => Outcome.ok o) { precision := 6 } (-42) [] Conversion.GenericConv
        { fill := '*', width := 7, alignment := Alignment.Center, precision := 6 } ∧
    ((∃ out1, ValueFormatter.format (format_value_integer Dyadic.env int)
        (fun o _ => Outcome.ok o) { precision := 6 } 52 [] Conversion.GenericConv
        { type := SpecType.Character, precision := 6 } = Outcome.ok out1) ∧
      (∃ e, ValueFormatter.format (format_value_integer Dyadic.env int)
        (fun o _ => Outcome.ok o) { precision := 6 } 52 [] Conversion.StrConv
        { type := SpecType.Character, precision := 6 } = Outcome.thrown e [])) ∧
    ValueFormatter.format (format_value_integer Dyadic.env int)
        (fun o _ => Outcome.ok o) { precision := 6 } 52 [] Conversion.GenericConv
        { type := SpecType.Character, precision := 6 } = Outcome.ok ['4'] :=
  ⟨((converted_integer Dyadic.env int (fun o _ => Outcome.ok o) { precision := 6 }
      { sign := Sign.Always, precision := 6 } [] (-42) (by decide)).1
      (Or.inl (by decide))).1,
   (converted_integer Dyadic.env int (fun o _ => Outcome.ok o) { precision := 6 }
      { sign := Sign.Always, precision := 6 } [] (-42) (by decide)).2.1
      (by decide) (by decide),
   (converted_integer Dyadic.env int (fun o _ => Outcome.ok o) { precision := 6 }
      { fill := '*', width := 7, alignment := Alignment.Center, precision := 6 } [] (-42)
      (by decide)).2.2.2 rfl rfl rfl rfl (Or.inr (Or.inr rfl)),
   (converted_integer Dyadic.env int (fun o _ => Outcome.ok o) { precision := 6 }
      { type := SpecType.Character, precision := 6 } [] 52 (by decide)).2.2.1
      rfl rfl rfl rfl (by decide),
   by decide⟩

/-! ## The representation of strings -/

/-- A character that is neither the double quote nor the backslash is read
back as it is. -/
theorem unescape_body_plain (c : Char) (t : List Char) (h1 : c ≠ Char.ofNat 34)
    (h2 : c ≠ Char.ofNat 92) : unescape_body (c :: t) = c :: unescape_body t := by
  cases t with
  | nil => simp [unescape_body, h1, h2]
  | cons d rest => simp [unescape_body, h1, h2]

/-- A backslash and a letter are read back as the character they stand for. -/
theorem unescape_body_escape (d : Char) (t : List Char) :
    unescape_body (Char.ofNat 92 :: d :: t) = unescape_letter d :: unescape_body t := by
  have h : Char.ofNat 92 ≠ Char.ofNat 34 := by decide
  simp [unescape_body, h]

/-- The closing double quote ends the reading. -/
theorem unescape_body_quote (t : List Char) : unescape_body (Char.ofNat 34 :: t) = [] := by
  cases t with
  | nil => simp [unescape_body]
  | cons d rest => simp [unescape_body]

/-- What the loop writes for a character is either a backslash and a letter
that stands for the character, or the character itself, which is then neither
the double quote nor the backslash. -/
theorem repr_cstr_char_cases (c : Char) (h0 : c ≠ Char.ofNat 0) :
    (∃ letter, repr_cstr_char c = [Char.ofNat 92, letter] ∧ unescape_letter letter = c ∧
        c ∈ [Char.ofNat 7, Char.ofNat 8, Char.ofNat 9, Char.ofNat 10, Char.ofNat 11,
          Char.ofNat 12, Char.ofNat 13, Char.ofNat 34, Char.ofNat 63, Char.ofNat 92]) ∨
      (repr_cstr_char c = [c] ∧ c ≠ Char.ofNat 34 ∧ c ≠ Char.ofNat 92 ∧
        c ∉ [Char.ofNat 7, Char.ofNat 8, Char.ofNat 9, Char.ofNat 10, Char.ofNat 11,
          Char.ofNat 12, Char.ofNat 13, Char.ofNat 34, Char.ofNat 63, Char.ofNat 92]) := by
  by_cases h7 : c = Char.ofNat 7
  · subst h7; exact Or.inl ⟨'a', by decide, by decide, by decide⟩
  by_cases h8 : c = Char.ofNat 8
  · subst h8; exact Or.inl ⟨'b', by decide, by decide, by decide⟩
  by_cases h9 : c = Char.ofNat 9
  · subst h9; exact Or.inl ⟨'t', by decide, by decide, by decide⟩
  by_cases h10 : c = Char.ofNat 10
  · subst h10; exact Or.inl ⟨'n', by decide, by decide, by decide⟩
  by_cases h11 : c = Char.ofNat 11
  · subst h11; exact Or.inl ⟨'v', by decide, by decide, by decide⟩
  by_cases h12 : c = Char.ofNat 12
  · subst h12; exact Or.inl ⟨'f', by decide, by decide, by decide⟩
  by_cases h13 : c = Char.ofNat 13
  · subst h13; exact Or.inl ⟨'r', by decide, by decide, by decide⟩
  by_cases h34 : c = Char.ofNat 34
  · subst h34; exact Or.inl ⟨Char.ofNat 34, by decide, by decide, by decide⟩
  by_cases h63 : c = Char.ofNat 63
  · subst h63; exact Or.inl ⟨Char.ofNat 63, by decide, by decide, by decide⟩
  by_cases h92 : c = Char.ofNat 92
  · subst h92; exact Or.inl ⟨Char.ofNat 92, by decide, by decide, by decide⟩
  refine Or.inr ⟨?_, h34, h92, ?_⟩
  · simp only [repr_cstr_char, h0, h7, h8, h9, h10, h11, h12, h13, h34, h63, h92, if_false]
  · simp only [List.mem_cons, List.mem_singleton, List.not_mem_nil, or_false, not_or]
    exact ⟨h7, h8, h9, h10, h11, h12, h13, h34, h63, h92⟩

/-- What the loop writes for one character is read back as that character. -/
theorem unescape_body_char (c : Char) (t : List Char) (h0 : c ≠ Char.ofNat 0) :
    unescape_body (repr_cstr_char c ++ t) = c :: unescape_body t := by
  rcases repr_cstr_char_cases c h0 with ⟨letter, hr, hl, _⟩ | ⟨hr, h34, h92, _⟩
  · rw [hr]
    show unescape_body (Char.ofNat 92 :: letter :: t) = _
    rw [unescape_body_escape, hl]
  · rw [hr]
    exact unescape_body_plain c t h34 h92

/-- On a string without NUL the loop of line 483 writes the escape of every
character. -/
theorem repr_cstr_loop_eq (s : List Char) (hs : ∀ c ∈ s, c ≠ Char.ofNat 0) :
    repr_cstr_loop s = s.flatMap repr_cstr_char := by
  induction s with
  | nil => rfl
  | cons c cs ih =>
    have hc : c ≠ Char.ofNat 0 := hs c (List.mem_cons_self _ _)
    simp only [repr_cstr_loop, hc, if_false, List.flatMap_cons]
    rw [ih (fun d hd => hs d (List.mem_cons_of_mem _ hd))]

/-- Reading back what the loop wrote, up to the closing double quote, gives
the string. -/
theorem unescape_body_loop (s : List Char) (hs : ∀ c ∈ s, c ≠ Char.ofNat 0) :
    unescape_body (repr_cstr_loop s ++ [Char.ofNat 34]) = s := by
  induction s with
  | nil => exact unescape_body_quote []
  | cons c cs ih =>
    have hc : c ≠ Char.ofNat 0 := hs c (List.mem_cons_self _ _)
    simp only [repr_cstr_loop, hc, if_false, List.append_assoc]
    rw [unescape_body_char c _ hc, ih (fun d hd => hs d (List.mem_cons_of_mem _ hd))]

/-- C29: for every string `s` without NUL, `repr_value` writes a double
quote, the escape of every character of `s` in order, and a double quote; the
ten characters BEL, backspace, tab, newline, vertical tab, form feed, carriage
return, double quote, question mark and backslash are written as a backslash
and a letter, every other character as itself; the function `unescape` reads
the string back, so two different strings never have the same
representation. -/
theorem repr_value_cstr_injective (out : Sink) (s : List Char)
    (hs : ∀ c ∈ s, c ≠ Char.ofNat 0) :
    repr_value_cstr out s
      = out ++ [Char.ofNat 34] ++ s.flatMap repr_cstr_char ++ [Char.ofNat 34] ∧
    repr_value_string out s = repr_value_cstr out s ∧
    (∀ c ∈ s,
      (c ∈ [Char.ofNat 7, Char.ofNat 8, Char.ofNat 9, Char.ofNat 10, Char.ofNat 11,
          Char.ofNat 12, Char.ofNat 13, Char.ofNat 34, Char.ofNat 63, Char.ofNat 92] →
        ∃ letter, repr_cstr_char c = [Char.ofNat 92, letter]) ∧
      (c ∉ [Char.ofNat 7, Char.ofNat 8, Char.ofNat 9, Char.ofNat 10, Char.ofNat 11,
          Char.ofNat 12, Char.ofNat 13, Char.ofNat 34, Char.ofNat 63, Char.ofNat 92] →
        repr_cstr_char c = [c])) ∧
    (repr_cstr_char (Char.ofNat 7) = [Char.ofNat 92, 'a'] ∧
      repr_cstr_char (Char.ofNat 8) = [Char.ofNat 92, 'b'] ∧
      repr_cstr_char (Char.ofNat 9) = [Char.ofNat 92, 't'] ∧
      repr_cstr_char (Char.ofNat 10) = [Char.ofNat 92, 'n'] ∧
      repr_cstr_char (Char.ofNat 11) = [Char.ofNat 92, 'v'] ∧
      repr_cstr_char (Char.ofNat 12) = [Char.ofNat 92, 'f'] ∧
      repr_cstr_char (Char.ofNat 13) = [Char.ofNat 92, 'r'] ∧
      repr_cstr_char (Char.ofNat 34) = [Char.ofNat 92, Char.ofNat 34] ∧
      repr_cstr_char (Char.ofNat 63) = [Char.ofNat 92, Char.ofNat 63] ∧
      repr_cstr_char (Char.ofNat 92) = [Char.ofNat 92, Char.ofNat 92]) ∧
    unescape (repr_value_cstr [] s) = s ∧
    (∀ t, (∀ c ∈ t, c ≠ Char.ofNat 0) →
      repr_value_cstr [] s = repr_value_cstr [] t → s = t) := by
  have hun : ∀ u : List Char, (∀ c ∈ u, c ≠ Char.ofNat 0) →
      unescape (repr_value_cstr [] u) = u := by
    intro u hu
    unfold unescape repr_value_cstr
    simp only [List.nil_append, List.cons_append, List.tail_cons]
    exact unescape_body_loop u hu
  refine ⟨?_, rfl, ?_, by decide, hun s hs, ?_⟩
  · unfold repr_value_cstr
    rw [repr_cstr_loop_eq s hs]
  · intro c hc
    rcases repr_cstr_char_cases c (hs c hc) with ⟨letter, hr, _, hin⟩ | ⟨hr, _, _, hnot⟩
    · exact ⟨fun _ => ⟨letter, hr⟩, fun h => absurd hin h⟩
    · exact ⟨fun h => absurd h hnot, fun _ => hr⟩
  · intro t ht heq
    rw [← hun s hs, ← hun t ht, heq]

/-- The string of `a`, a double quote, `b`, a question mark and a newline is
written between double quotes with three escapes, and is read back (C29). -/
theorem repr_value_cstr_injective_witness :
    repr_value_cstr [] ['a', Char.ofNat 34, 'b', '?', Char.ofNat 10]
      = [Char.ofNat 34, 'a', Char.ofNat 92, Char.ofNat 34, 'b', Char.ofNat 92, '?',
          Char.ofNat 92, 'n', Char.ofNat 34] ∧
    unescape (repr_value_cstr [] ['a', Char.ofNat 34, 'b', '?', Char.ofNat 10])
      = ['a', Char.ofNat 34, 'b', '?', Char.ofNat 10] :=
  ⟨by decide,
    (repr_value_cstr_injective [] ['a', Char.ofNat 34, 'b', '?', Char.ofNat 10]
      (by decide)).2.2.2.2.1⟩

/-! ## Strings that hold a NUL character -/

/-- The characters of an array before its first NUL. -/
theorem take_strlen (s : List Char) :
    s.take (strlen s) = s.takeWhile (fun c => c != Char.ofNat 0) := by
  unfold strlen
  induction s with
  | nil => rfl
  | cons c cs ih =>
    by_cases hc : (c != Char.ofNat 0) = true
    · simp only [List.takeWhile_cons, hc, if_true, List.length_cons, List.take_succ_cons, ih]
    · simp only [List.takeWhile_cons, hc, List.length_nil, List.take_zero]
      rfl

/-- The C string of the characters before the first NUL is the same C string. -/
theorem strlen_takeWhile (s : List Char) :
    strlen (s.takeWhile (fun c => c != Char.ofNat 0)) = strlen s := by
  unfold strlen
  congr 1
  induction s with
  | nil => rfl
  | cons c cs ih =>
    by_cases hc : (c != Char.ofNat 0) = true
    · simp only [List.takeWhile_cons, hc, if_true, ih]
    · simp only [List.takeWhile_cons, hc]
      rfl

/-- The loop of line 483 sees the characters before the first NUL only. -/
theorem repr_cstr_loop_takeWhile (s : List Char) :
    repr_cstr_loop (s.takeWhile (fun c => c != Char.ofNat 0)) = repr_cstr_loop s := by
  induction s with
  | nil => rfl
  | cons c cs ih =>
    by_cases hc : c = Char.ofNat 0
    · subst hc
      have : ((Char.ofNat 0 != Char.ofNat 0) = true) = False := by simp
      simp [List.takeWhile_cons, repr_cstr_loop]
    · have hb : (c != Char.ofNat 0) = true := by simp [hc]
      simp only [List.takeWhile_cons, hb, if_true, repr_cstr_loop, hc, if_false, ih]

/-- C30: for every `std::string` `s`, the rendering under the default
specification writes the characters of `s` before its first NUL; under every
specification the rendering is that of this prefix, the padding being counted
from its length `strlen s`; the output is `s` exactly when `s` holds no NUL;
and `repr_value` quotes the same prefix. -/
theorem string_stops_at_nul (out : Sink) (s : List Char) (D S : FormatSpec)
    (hD : D.is_default) :
    format_value_string out s D
      = Outcome.ok (out ++ s.takeWhile (fun c => c != Char.ofNat 0)) ∧
    (s.takeWhile (fun c => c != Char.ofNat 0)).length = strlen s ∧
    format_value_string out s S
      = format_value_string out (s.takeWhile (fun c => c != Char.ofNat 0)) S ∧
    (format_value_string out s D = Outcome.ok (out ++ s) ↔ ∀ c ∈ s, c ≠ Char.ofNat 0) ∧
    repr_value_string out s
      = repr_value_string out (s.takeWhile (fun c => c != Char.ofNat 0)) ∧
    repr_value_string out s
      = out ++ [Char.ofNat 34]
          ++ (s.takeWhile (fun c => c != Char.ofNat 0)).flatMap repr_cstr_char
          ++ [Char.ofNat 34] := by
  obtain ⟨_, _, hsign, halt, hthou, hwidth, htype, _⟩ := hD
  have hdef : format_value_string out s D
      = Outcome.ok (out ++ s.takeWhile (fun c => c != Char.ofNat 0)) := by
    unfold format_value_string
    rw [format_string_of_legal out s D hsign hthou halt (Or.inl htype),
      if_neg (fun h => by omega)]
    simp only [write, take_strlen]
  have hnonul : ∀ c ∈ s.takeWhile (fun c => c != Char.ofNat 0), c ≠ Char.ofNat 0 := by
    intro c hc
    simpa using List.mem_takeWhile_imp hc
  refine ⟨hdef, rfl, ?_, ?_, ?_, ?_⟩
  · unfold format_value_string format_string
    simp only [write, strlen_takeWhile, take_strlen]
    simp only [← take_strlen s, List.take_take, Nat.min_self]
  · rw [hdef]
    constructor
    · intro h
      have h1 : s.takeWhile (fun c => c != Char.ofNat 0) = s := by
        simpa using h
      intro c hc
      rw [← h1] at hc
      exact hnonul c hc
    · intro h
      have h1 : s.takeWhile (fun c => c != Char.ofNat 0) = s := by
        rw [List.takeWhile_eq_self_iff]
        intro c hc
        simpa using h c hc
      rw [h1]
  · unfold repr_value_string repr_value_cstr
    rw [repr_cstr_loop_takeWhile]
  · unfold repr_value_string repr_value_cstr
    rw [← repr_cstr_loop_takeWhile s, repr_cstr_loop_eq _ hnonul]

/-- The string of `a`, `b`, NUL, `c` is written as `ab`, padded in the width 4
as a string of 2 characters, and represented as `ab` between double quotes
(C30). -/
theorem string_stops_at_nul_witness :
    format_value_string [] ['a', 'b', Char.ofNat 0, 'c'] { precision := 6 }
      = Outcome.ok ['a', 'b'] ∧
    format_value_string [] ['a', 'b', Char.ofNat 0, 'c']
        { width := 4, fill := '*', precision := 6 }
      = Outcome.ok ['a', 'b', '*', '*'] ∧
    repr_value_string [] ['a', 'b', Char.ofNat 0, 'c']
      = [Char.ofNat 34, 'a', 'b', Char.ofNat 34] := by
  have h := string_stops_at_nul [] ['a', 'b', Char.ofNat 0, 'c'] { precision := 6 }
    { width := 4, fill := '*', precision := 6 } (by decide)
  refine ⟨?_, ?_, ?_⟩
  · rw [h.1]
    decide
  · rw [h.2.2.1]
    decide
  · rw [h.2.2.2.2.2]
    decide

end formatstring
